import Mathlib

/-!
Verification development for the product-feed transformation and validation
core: a shallow embedding of `src/transformer.py`, `src/gemini_transformer.py`
and `src/validate_feed.py`, together with theorems settling the specification
claims about the skip policy, truncation, Q&A synthesis, classification,
field-emission invariants, the serialization round-trip, additional-image
emission and availability mapping.

Python strings are modelled as `List Char`; Python floats as exact decimals
(`PyFloat`), which is faithful for the values arising in this pipeline (they
all originate from decimal text); JSON-decoded Python objects as the mutual
inductive `JVal`/`JArr`/`JObj`.  Python expressions that can raise a
per-record exception (`.lower()` on a non-string, `.get` on a non-dict,
joining non-strings, comparing containers with numbers) are modelled in an
`Except PyErr` monad; `transform_feed` catches such exceptions per row.
-/

/-- Characters of a Python string. -/
abbrev Str := List Char

/-- Python `str.lower()` (ASCII case mapping; the catalog data is ASCII). -/
def lowerS (s : Str) : Str := s.map Char.toLower

/-- Python `str.upper()` (ASCII case mapping). -/
def upperS (s : Str) : Str := s.map Char.toUpper

/-- Python `str.strip()`: remove leading and trailing whitespace. -/
def stripS (s : Str) : Str :=
  ((s.dropWhile Char.isWhitespace).reverse.dropWhile Char.isWhitespace).reverse

/-- Python `needle in haystack` for strings: contiguous substring test. -/
def substr (needle : Str) : Str → Bool
  | [] => needle.isEmpty
  | c :: rest => needle.isPrefixOf (c :: rest) || substr needle rest

/-- The exceptions the modelled code can raise while processing one row. -/
inductive PyErr where
  | attributeError : PyErr
  | typeError : PyErr
deriving DecidableEq

/-- Exact-decimal model of the Python floats in this pipeline: the value
`m / 10 ^ (e1 + 1)`.  Every float here originates from decimal text (CSV
price columns, JSON numbers), so decimals are an exact model; carrying
`e1 + 1 ≥ 1` fraction digits also fixes the `json.dumps` rendering (always at
least one fraction digit, as Python renders such floats). -/
structure PyFloat where
  m : Int
  e1 : Nat
deriving DecidableEq

/-- Numeric value of a `PyFloat`. -/
def PyFloat.toRat (d : PyFloat) : ℚ := (d.m : ℚ) / (10 : ℚ) ^ (d.e1 + 1)

/-- Python `float(n)` for an integer `n`. -/
def PyFloat.ofInt (n : Int) : PyFloat := ⟨n * 10, 0⟩

/-- Exact decimal representation `(mantissa, fraction digits)` of a Python
numeric value (`bool` is numerically `0`/`1`); comparisons between numerics
cross-multiply these, which is exact and keeps everything kernel-reducible. -/
def numRepF (d : PyFloat) : Int × Nat := (d.m, d.e1 + 1)

mutual
/-- A Python value decoded from a JSON cell, or stored in a target record. -/
inductive JVal where
  | null : JVal
  | bool : Bool → JVal
  | int : Int → JVal
  | float : PyFloat → JVal
  | str : Str → JVal
  | arr : JArr → JVal
  | obj : JObj → JVal

/-- A Python list of decoded values (spine concrete for structural recursion). -/
inductive JArr where
  | nil : JArr
  | cons : JVal → JArr → JArr

/-- A Python dict with string keys, in insertion order. -/
inductive JObj where
  | nil : JObj
  | cons : String → JVal → JObj → JObj
end

/-- The elements of a decoded list. -/
def JArr.toList : JArr → List JVal
  | .nil => []
  | .cons v rest => v :: rest.toList

/-- First-match key lookup in a decoded dict (`json.loads` output has unique
keys for the data at hand, so first match models Python dict lookup). -/
def JObj.find : JObj → String → Option JVal
  | .nil, _ => none
  | .cons k v rest, key => if k = key then some v else rest.find key

/-- Python truthiness of a decoded value. -/
def pyTruthy : JVal → Bool
  | .null => false
  | .bool b => b
  | .int n => n != 0
  | .float d => d.m != 0
  | .str s => !s.isEmpty
  | .arr .nil => false
  | .arr _ => true
  | .obj .nil => false
  | .obj _ => true

/-- Truthiness of a `dict.get` result (`None` for a missing key is falsy). -/
def optTruthy : Option JVal → Bool
  | some v => pyTruthy v
  | none => false

/-- Truthiness of an optional string (Python `row.get(k)`). -/
def optTruthyS : Option Str → Bool
  | some s => !s.isEmpty
  | none => false

/-- Python `a or b` where both operands come from `dict.get`. -/
def pyOr (a b : Option JVal) : Option JVal := if optTruthy a then a else b

/-- Python `a or b` on optional strings from `row.get`. -/
def pyOrS (a b : Option Str) : Option Str := if optTruthyS a then a else b

/-- Decimal digit character. -/
def digitChar (n : Nat) : Char := Char.ofNat (48 + n)

/-- Value of a decimal digit character. -/
def digitVal (c : Char) : Nat := c.toNat - 48

/-- Decimal digits of `n`, most significant first; any `fuel ≥ n` suffices. -/
def natDigits : Nat → Nat → Str
  | 0, _ => []
  | fuel + 1, n =>
    if n < 10 then [digitChar n] else natDigits fuel (n / 10) ++ [digitChar (n % 10)]

/-- Decimal rendering of a natural number. -/
def natToStr (n : Nat) : Str := natDigits (n + 1) n

/-- Decimal rendering of an integer. -/
def intToStr (n : Int) : Str :=
  if n < 0 then '-' :: natToStr n.natAbs else natToStr n.natAbs

/-- Left-pad a digit string with zeros to width `w`. -/
def padZeros (w : Nat) (s : Str) : Str := List.replicate (w - s.length) '0' ++ s

/-- Rendering of a `PyFloat` as `json.dumps` / `repr` renders such a float:
integral part, point, `e1 + 1` fraction digits. -/
def floatToStr (d : PyFloat) : Str :=
  let w := d.e1 + 1
  let a := d.m.natAbs
  (if d.m < 0 then ['-'] else []) ++
    natToStr (a / 10 ^ w) ++ '.' :: padZeros w (natToStr (a % 10 ^ w))

/-- Python `str()` / f-string rendering of a decoded value.  Rendering of
containers is abbreviated: no claim depends on the text rendered for a list
or dict interpolated into a sentence. -/
def pyStr : JVal → Str
  | .null => "None".data
  | .bool true => "True".data
  | .bool false => "False".data
  | .int n => intToStr n
  | .float d => floatToStr d
  | .str s => s
  | .arr _ => "[...]".data
  | .obj _ => "\x7b...\x7d".data

/-- Rendering of a `dict.get` result in an f-string (`None` prints "None"). -/
def optStr : Option JVal → Str
  | some v => pyStr v
  | none => "None".data

mutual
/-- Python `==` on decoded values: the numeric kinds (bool/int/float) compare
by numeric value (`True == 1`, `1 == 1.0`), strings by content, containers
elementwise (dict comparison is order-insensitive in Python; the dicts
compared in this code never differ only by order). -/
def pyEq : JVal → JVal → Bool
  | .null, .null => true
  | .bool a, .bool b => a == b
  | .bool a, .int n => (if a then (1 : Int) else 0) == n
  | .bool a, .float d => ((if a then (1 : Int) else 0) * 10 ^ (numRepF d).2) == (numRepF d).1
  | .int m, .bool b => m == (if b then (1 : Int) else 0)
  | .int m, .int n => m == n
  | .int m, .float d => (m * 10 ^ (numRepF d).2) == (numRepF d).1
  | .float d, .bool b => (numRepF d).1 == ((if b then (1 : Int) else 0) * 10 ^ (numRepF d).2)
  | .float d, .int n => (numRepF d).1 == (n * 10 ^ (numRepF d).2)
  | .float c, .float d => ((numRepF c).1 * 10 ^ (numRepF d).2) == ((numRepF d).1 * 10 ^ (numRepF c).2)
  | .str s, .str t => s == t
  | .arr x, .arr y => pyEqA x y
  | .obj x, .obj y => pyEqO x y
  | _, _ => false

/-- Elementwise Python `==` on lists. -/
def pyEqA : JArr → JArr → Bool
  | .nil, .nil => true
  | .cons a x, .cons b y => pyEq a b && pyEqA x y
  | _, _ => false

/-- Entrywise Python `==` on dicts. -/
def pyEqO : JObj → JObj → Bool
  | .nil, .nil => true
  | .cons k a x, .cons l b y => k == l && pyEq a b && pyEqO x y
  | _, _ => false
end

/-- Python `x != y` where either operand may be `None` from `dict.get`. -/
def pyNeO (a b : Option JVal) : Bool :=
  match a, b with
  | some x, some y => !pyEq x y
  | none, none => false
  | _, _ => true

/-- `"sep".join(parts)` on already-checked string parts. -/
def joinSep (sep : Str) : List Str → Str
  | [] => []
  | [x] => x
  | x :: rest => x ++ sep ++ joinSep sep rest

/-- Extract the strings of a Python list, raising `TypeError` on the first
non-string element, as `str.join` does. -/
def strsOf : List JVal → Except PyErr (List Str)
  | [] => pure []
  | .str s :: rest => do pure (s :: (← strsOf rest))
  | _ :: _ => .error .typeError

/-- Python `sep.join(values)`: `TypeError` unless every element is a string. -/
def pyJoin (sep : Str) (l : List JVal) : Except PyErr Str := do
  let parts ← strsOf l
  pure (joinSep sep parts)

/-- Python `value.lower()`: only strings have the method (`AttributeError`
on a JSON boolean, number, `None`, list or dict). -/
def pyLower : JVal → Except PyErr Str
  | .str s => .ok (lowerS s)
  | _ => .error .attributeError

/-- Hexadecimal digit character (lowercase). -/
def hexChar (n : Nat) : Char := if n < 10 then digitChar n else Char.ofNat (87 + n)

/-- JSON string escaping as `json.dumps` performs it for the characters that
must be escaped (quote, backslash, control characters).  Characters that
`json.dumps` may additionally escape but need not (non-ASCII, under
`ensure_ascii`) are emitted verbatim; this does not affect the write/read
round-trip, which is the property at stake. -/
def escChar (c : Char) : Str :=
  if c = '"' then ['\\', '"']
  else if c = '\\' then ['\\', '\\']
  else if c = '\n' then ['\\', 'n']
  else if c = '\t' then ['\\', 't']
  else if c = '\r' then ['\\', 'r']
  else if c.toNat = 8 then ['\\', 'b']
  else if c.toNat = 12 then ['\\', 'f']
  else if c.toNat < 32 then
    ['\\', 'u', '0', '0', hexChar (c.toNat / 16), hexChar (c.toNat % 16)]
  else [c]

/-- Escape a whole string body. -/
def escStr (s : Str) : Str := (s.map escChar).flatten

mutual
/-- `json.dumps` of a decoded value (compact rendering; the Python calls use
default separators, which insert spaces after `,` and `:` — a cosmetic
difference that does not affect any claim, noted here once). -/
def jsonPrint : JVal → Str
  | .null => "null".data
  | .bool true => "true".data
  | .bool false => "false".data
  | .int n => intToStr n
  | .float d => floatToStr d
  | .str s => '"' :: escStr s ++ ['"']
  | .arr a => '[' :: jsonPrintItems a ++ [']']
  | .obj o => '\x7b' :: jsonPrintMembers o ++ ['\x7d']

/-- Comma-separated rendering of list elements. -/
def jsonPrintItems : JArr → Str
  | .nil => []
  | .cons x .nil => jsonPrint x
  | .cons x rest => jsonPrint x ++ ',' :: jsonPrintItems rest

/-- Comma-separated rendering of dict entries. -/
def jsonPrintMembers : JObj → Str
  | .nil => []
  | .cons k x .nil => '"' :: escStr k.data ++ '"' :: ':' :: jsonPrint x
  | .cons k x rest =>
    ('"' :: escStr k.data ++ '"' :: ':' :: jsonPrint x) ++ ',' :: jsonPrintMembers rest
end

/-- Value of a hexadecimal digit character. -/
def hexv (c : Char) : Option Nat :=
  if '0' ≤ c ∧ c ≤ '9' then some (c.toNat - 48)
  else if 'a' ≤ c ∧ c ≤ 'f' then some (c.toNat - 87)
  else if 'A' ≤ c ∧ c ≤ 'F' then some (c.toNat - 55)
  else none

mutual
/-- Parse the body of a JSON string up to the closing quote. -/
def pStrBody : Str → Option (Str × Str)
  | [] => none
  | c :: r =>
    if c = '"' then some ([], r)
    else if c = '\\' then pStrEsc r
    else (pStrBody r).map (fun p => (c :: p.1, p.2))

/-- Parse what follows a backslash, undoing the escapes of `escChar` (plus
the remaining standard JSON escapes). -/
def pStrEsc : Str → Option (Str × Str)
  | '"' :: r2 => (pStrBody r2).map (fun p => ('"' :: p.1, p.2))
  | '\\' :: r2 => (pStrBody r2).map (fun p => ('\\' :: p.1, p.2))
  | '/' :: r2 => (pStrBody r2).map (fun p => ('/' :: p.1, p.2))
  | 'n' :: r2 => (pStrBody r2).map (fun p => ('\n' :: p.1, p.2))
  | 't' :: r2 => (pStrBody r2).map (fun p => ('\t' :: p.1, p.2))
  | 'r' :: r2 => (pStrBody r2).map (fun p => ('\r' :: p.1, p.2))
  | 'b' :: r2 => (pStrBody r2).map (fun p => (Char.ofNat 8 :: p.1, p.2))
  | 'f' :: r2 => (pStrBody r2).map (fun p => (Char.ofNat 12 :: p.1, p.2))
  | 'u' :: h1 :: h2 :: h3 :: h4 :: r2 =>
    (match hexv h1, hexv h2, hexv h3, hexv h4 with
     | some a, some b, some c, some d =>
       (pStrBody r2).map
         (fun p => (Char.ofNat (((a * 16 + b) * 16 + c) * 16 + d) :: p.1, p.2))
     | _, _, _, _ => none)
  | _ => none
end

/-- Numeric value of a digit string. -/
def digitsVal (s : Str) : Nat := s.foldl (fun a c => a * 10 + digitVal c) 0

/-- Parse digits and optional fraction after the optional sign: an integer
literal decodes to a Python `int`, a fractional literal to a float carrying
its printed number of fraction digits — exactly inverting `intToStr` /
`floatToStr`. -/
def pNumAfterSign (neg : Bool) (s1 : Str) : Option (JVal × Str) :=
  let ds := s1.takeWhile Char.isDigit
  let r1 := s1.dropWhile Char.isDigit
  if ds.isEmpty then none
  else
    match r1 with
    | '.' :: r2 =>
      let fs := r2.takeWhile Char.isDigit
      let r3 := r2.dropWhile Char.isDigit
      if fs.isEmpty then none
      else
        let m : Int := ((digitsVal ds * 10 ^ fs.length + digitsVal fs : Nat) : Int)
        some (.float ⟨if neg then -m else m, fs.length - 1⟩, r3)
    | _ =>
      let n : Int := (digitsVal ds : Int)
      some (.int (if neg then -n else n), r1)

/-- Parse a JSON number: optional sign, digits, optional fraction. -/
def pNum : Str → Option (JVal × Str)
  | '-' :: s1 => pNumAfterSign true s1
  | s => pNumAfterSign false s

/-- Recursion mode of the fueled JSON parser. -/
inductive PTag where
  | val : PTag
  | items : PTag
  | membs : PTag

/-- Result of one fueled-parser step. -/
inductive POut where
  | v : JVal → POut
  | items : JArr → POut
  | membs : JObj → POut

/-- Fueled recursive-descent JSON parser (model of `json.loads` on the
whitespace-free fragment; every JSON text handled in this development is
whitespace-free).  Structural recursion on the fuel keeps the function
kernel-reducible. -/
def jsonP : Nat → PTag → Str → Option (POut × Str)
  | 0, _, _ => none
  | fuel + 1, .val, s =>
    (match s with
     | [] => none
     | c :: _ =>
       if c = '-' ∨ c.isDigit then (pNum s).map (fun p => (.v p.1, p.2))
       else
         match s with
         | 'n' :: 'u' :: 'l' :: 'l' :: r => some (.v .null, r)
         | 't' :: 'r' :: 'u' :: 'e' :: r => some (.v (.bool true), r)
         | 'f' :: 'a' :: 'l' :: 's' :: 'e' :: r => some (.v (.bool false), r)
         | '"' :: r => (pStrBody r).map (fun p => (.v (.str p.1), p.2))
         | '[' :: r =>
           (match r with
            | ']' :: r2 => some (.v (.arr .nil), r2)
            | _ =>
              match jsonP fuel .items r with
              | some (.items a, r2) => some (.v (.arr a), r2)
              | _ => none)
         | '\x7b' :: r =>
           (match r with
            | '\x7d' :: r2 => some (.v (.obj .nil), r2)
            | _ =>
              match jsonP fuel .membs r with
              | some (.membs o, r2) => some (.v (.obj o), r2)
              | _ => none)
         | _ => none)
  | fuel + 1, .items, s =>
    (match jsonP fuel .val s with
     | some (.v x, r) =>
       (match r with
        | ',' :: r2 =>
          (match jsonP fuel .items r2 with
           | some (.items a, r3) => some (.items (.cons x a), r3)
           | _ => none)
        | ']' :: r2 => some (.items (.cons x .nil), r2)
        | _ => none)
     | _ => none)
  | fuel + 1, .membs, s =>
    (match s with
     | '"' :: r =>
       (match pStrBody r with
        | some (k, ':' :: r2) =>
          (match jsonP fuel .val r2 with
           | some (.v x, r3) =>
             (match r3 with
              | ',' :: r4 =>
                (match jsonP fuel .membs r4 with
                 | some (.membs o, r5) => some (.membs (.cons ⟨k⟩ x o), r5)
                 | _ => none)
              | '\x7d' :: r4 => some (.membs (.cons ⟨k⟩ x .nil), r4)
              | _ => none)
           | _ => none)
        | _ => none)
     | _ => none)

/-- `json.loads` on a whole text: parse one value consuming the entire input. -/
def jsonParse (s : Str) : Option JVal :=
  match jsonP (2 * s.length + 2) .val s with
  | some (.v x, r) => if r.isEmpty then some x else none
  | _ => none

/-- First-match association-list lookup (Python dict read; every dict built
in this development has unique keys). -/
def alGet {κ α : Type} [DecidableEq κ] : List (κ × α) → κ → Option α
  | [], _ => none
  | (k0, v) :: rest, k => if k0 = k then some v else alGet rest k

/-- Lookup with a default (Python `d.get(k, dflt)`). -/
def alGetD {κ α : Type} [DecidableEq κ] (d : List (κ × α)) (k : κ) (dflt : α) : α :=
  (alGet d k).getD dflt

/-- Python dict assignment `d[k] = v`: replace in place, else append. -/
def alSet {κ α : Type} [DecidableEq κ] : List (κ × α) → κ → α → List (κ × α)
  | [], k, v => [(k, v)]
  | (k0, v0) :: rest, k, v =>
    if k0 = k then (k0, v) :: rest else (k0, v0) :: alSet rest k v

/-- Python `k in d`. -/
def alHas {κ α : Type} [DecidableEq κ] (d : List (κ × α)) (k : κ) : Bool :=
  (alGet d k).isSome

/-- An input row: CSV column name to cell text, as `csv.DictReader` yields. -/
abbrev Row := List (String × Str)

/-- A target record under construction or emitted (a Python dict). -/
abbrev Dict := List (String × JVal)

/-- `row.get(k)`. -/
def rowGet (row : Row) (k : String) : Option Str := alGet row k

/-- `row.get(k, dflt)`. -/
def rowGetD (row : Row) (k : String) (dflt : Str) : Str := (rowGet row k).getD dflt

/-- `specs.get(k)` once `specs` is known to be a dict (every call site is
reached only after a successful `pyIsPreowned`, which raises on non-dicts,
so a total lookup is a faithful model at those sites). -/
def sGet (specs : JVal) (k : String) : Option JVal :=
  match specs with
  | .obj o => o.find k
  | _ => none

/-- `specs.get(k, dflt)` under the same reachability condition. -/
def sGetD (specs : JVal) (k : String) (dflt : JVal) : JVal := (sGet specs k).getD dflt

/-! ## Embedding of `src/transformer.py` -/

/-- Seller configuration strings used by the transformer (`COMPANY_CONFIG`). -/
def COMPANY_store_name : Str := "The 1916 Company".data

/-- Seller site URL. -/
def COMPANY_seller_url : Str := "https://www.the1916company.com".data

/-- Store country code. -/
def COMPANY_store_country : Str := "US".data

/-- Privacy policy URL. -/
def COMPANY_privacy : Str := "https://www.the1916company.com/privacy/".data

/-- Terms of service URL. -/
def COMPANY_tos : Str := "https://www.the1916company.com/terms-conditions/".data

/-- Return policy text. -/
def COMPANY_return_text : Str :=
  "To be eligible for a return, your item(s) must be unused, in their original packaging, and in the same condition that you received it.".data

/-- Return-window lookup table by product type (`RETURN_WINDOWS`). -/
def RETURN_WINDOWS : List (Str × Nat) :=
  [("new_watch".data, 14), ("rolex_cpo".data, 14), ("jewelry".data, 14),
   ("handbag".data, 14), ("preowned_watch".data, 7)]

/-- The five product-type labels `detect_product_type` can return. -/
def productTypes : List Str :=
  ["new_watch".data, "rolex_cpo".data, "preowned_watch".data, "jewelry".data, "handbag".data]

/-- Models `specs.get("isPreOwned", "false").lower() == "true"`: raises
`AttributeError` when `specs` is not a dict (no `.get`) or when the looked-up
value is not a string (no `.lower`). -/
def pyIsPreowned (specs : JVal) : Except PyErr Bool := do
  let v : JVal ←
    match specs with
    | .obj o => pure ((o.find "isPreOwned").getD (.str "false".data))
    | _ => .error .attributeError
  let s ← pyLower v
  pure (s == "true".data)

/-- Models `detect_product_type` (`transformer.py` lines 35-62).  The
pre-owned flag is read (and can raise) before any rule fires, exactly as in
the source, where line 43 runs before the rule chain. -/
def detect_product_type (row : Row) (specs : JVal) : Except PyErr Str := do
  let product_id := lowerS (rowGetD row "id" [])
  let category := lowerS (rowGetD row "category" [])
  let brand := lowerS (rowGetD row "brand" [])
  let is_preowned ← pyIsPreowned specs
  if substr "jewelry".data category || "ns-j-".data.isPrefixOf product_id then
    pure "jewelry".data
  else if substr "handbag".data category || substr "bag".data category then
    pure "handbag".data
  else if brand == "rolex".data && is_preowned then
    pure "rolex_cpo".data
  else if is_preowned then
    pure "preowned_watch".data
  else
    pure "new_watch".data

/-- Models `parse_json_field` (`transformer.py` lines 65-72): empty or
undecodable cells degrade to an empty dict, never raising. -/
def parse_json_field (value : Str) : JVal :=
  if value.isEmpty then .obj .nil
  else
    match jsonParse value with
    | some v => v
    | none => .obj .nil

/-- One pass of `re.sub(r'<[^>]+>', '', desc)`: each maximal group
`<`, one-or-more non-`>` characters, `>` is removed scanning left to right;
a `<` that opens no such group is kept.  Fueled for kernel reducibility;
`fuel ≥ length` always suffices. -/
def stripTagsF : Nat → Str → Str
  | 0, s => s
  | _ + 1, [] => []
  | fuel + 1, '<' :: rest =>
    (match rest.takeWhile (fun c => c ≠ '>'), rest.dropWhile (fun c => c ≠ '>') with
     | _ :: _, '>' :: r2 => stripTagsF fuel r2
     | _, _ => '<' :: stripTagsF fuel rest)
  | fuel + 1, c :: rest => c :: stripTagsF fuel rest

/-- Tag stripping on a whole string. -/
def stripTags (s : Str) : Str := stripTagsF s.length s

/-- Models `extract_description` (`transformer.py` lines 75-90): prefer the
long description, fall back to the short one, strip tags, truncate to 5000,
strip whitespace.  Raises `TypeError` (as `re.sub` would) when the selected
description value is a truthy non-string. -/
def extract_description (description_json : JVal) : Except PyErr Str := do
  let descv : JVal ←
    match description_json with
    | .obj o =>
      pure ((pyOr (pyOr (o.find "long_description") (o.find "short_description"))
        (some (.str []))).getD (.str []))
    | .str s => pure (.str s)
    | _ => pure (.str [])
  match descv with
  | .str s => pure (stripS ((stripTags s).take 5000))
  | _ => .error .typeError

/-- The availability lookup table of `map_availability`. -/
def availabilityMap : List (Str × Str) :=
  [("IN_STOCK".data, "in_stock".data), ("OUT_OF_STOCK".data, "out_of_stock".data),
   ("PRE_ORDER".data, "pre_order".data), ("BACKORDER".data, "backorder".data),
   ("PREORDER".data, "pre_order".data)]

/-- Models `map_availability` (`transformer.py` lines 93-102). -/
def map_availability (status : Str) : Str :=
  alGetD availabilityMap (upperS status) "unknown".data

/-- Models Python `float(text)` for the plain decimal literals this catalog
produces; other accepted forms (exponents, leading/trailing whitespace,
`inf`) do not occur in rows exercised here, and failure gives `none`. -/
def parseFloat (s : Str) : Option PyFloat :=
  match pNum s with
  | some (.int n, r) => if r.isEmpty then some (.ofInt n) else none
  | some (.float d, r) => if r.isEmpty then some d else none
  | _ => none

/-- One scan of the decoded `book_price` list, with the Python semantics of
`"ns-company-list-usd" in price_obj`, indexing, `usd_price and usd_price > 0`
and `float(usd_price)` per element kind.  `.error ()` means a `TypeError`
escaped to the enclosing `except`, in which case the flat price column is
used; `.ok none` means the loop completed without returning. -/
def bookScan : List JVal → Except Unit (Option PyFloat)
  | [] => .ok none
  | it :: rest =>
    match it with
    | .obj o =>
      (match o.find "ns-company-list-usd" with
       | some v =>
         if pyTruthy v then
           (match v with
            | .int n => if 0 < n then .ok (some (.ofInt n)) else bookScan rest
            | .float d => if 0 < d.m then .ok (some d) else bookScan rest
            | .bool _ => .ok (some (.ofInt 1))
            | _ => .error ())
         else bookScan rest
       | none => bookScan rest)
    | .str s => if substr "ns-company-list-usd".data s then .error () else bookScan rest
    | .arr a =>
      if (a.toList).any (fun x => pyEq x (.str "ns-company-list-usd".data)) then .error ()
      else bookScan rest
    | _ => .error ()

/-- Models `extract_price` (`transformer.py` lines 105-123).  A non-list
decoded `book_price` either raises a caught `TypeError` or completes the
loop without returning — both fall through to the flat price column. -/
def extract_price (price_value book_price : Str) : PyFloat × Str :=
  let fallback : PyFloat × Str :=
    match parseFloat price_value with
    | some d => (d, "USD".data)
    | none => (⟨0, 0⟩, "USD".data)
  if book_price.isEmpty then fallback
  else
    match jsonParse book_price with
    | some (.arr a) =>
      (match bookScan a.toList with
       | .ok (some d) => (d, "USD".data)
       | _ => fallback)
    | _ => fallback

/-- Python `img.get("url")` for an arbitrary decoded element: raises
`AttributeError` on a non-dict element. -/
def pyGetUrl : JVal → Except PyErr (Option JVal)
  | .obj o => .ok (o.find "url")
  | _ => .error .attributeError

/-- The list comprehension of `get_additional_images`: keep, in order, the
`url` values of the elements whose `url` value is truthy; raise on the first
non-dict element (Python evaluates the comprehension left to right). -/
def imgScan : List JVal → Except PyErr (List JVal)
  | [] => pure []
  | it :: rest => do
    let u ← pyGetUrl it
    let tail ← imgScan rest
    match u with
    | some v => pure (if pyTruthy v then v :: tail else tail)
    | none => pure tail

/-- Models `get_additional_images` (`transformer.py` lines 126-131). -/
def get_additional_images (cell : Str) : Except PyErr (List JVal) := do
  match parse_json_field cell with
  | .arr a => imgScan a.toList
  | _ => pure []

/-- Models `specs.get(key, "").lower() == "true"` for the box/papers flags. -/
def pyLowerEqTrue (v : JVal) : Except PyErr Bool := do
  let s ← pyLower v
  pure (s == "true".data)

/-- Watch-specific Q&A pairs (`transformer.py` lines 200-250).  The box and
papers flags use short-circuiting `or` over two `.lower()` calls each, and
the dial color is lowered inside the f-string — the raising points of this
section. -/
def watchPairs (specs : JVal) (product_type : Str) : Except PyErr (List Str) := do
  let water_resistance := pyOr (sGet specs "waterResistance") (sGet specs "water_resistance")
  let waterPairs : List Str :=
    if optTruthy water_resistance then
      ["Q: Is this watch waterproof?\nA: This watch has a water resistance rating of ".data ++
        optStr water_resistance ++ ".".data]
    else []
  let movement := pyOr (pyOr (sGet specs "movementType") (sGet specs "movement")) (sGet specs "caliber")
  let movePairs : List Str :=
    if optTruthy movement then
      (let power_reserve := pyOr (pyOr (sGet specs "powerReserve") (sGet specs "power_reserve"))
        (sGet specs "field12")
       if optTruthy power_reserve then
         ["Q: What type of movement does it have?\nA: ".data ++ optStr movement ++
           " with approximately ".data ++ optStr power_reserve ++ " power reserve.".data]
       else
         ["Q: What type of movement does it have?\nA: ".data ++ optStr movement ++ ".".data])
    else []
  let hb1 ← pyLowerEqTrue (sGetD specs "hasBox" (.str []))
  let has_box ← if hb1 then pure true else pyLowerEqTrue (sGetD specs "box" (.str []))
  let hp1 ← pyLowerEqTrue (sGetD specs "hasPapers" (.str []))
  let has_papers ← if hp1 then pure true else pyLowerEqTrue (sGetD specs "papers" (.str []))
  let boxPairs : List Str :=
    if has_box || has_papers then
      (if has_box && has_papers then
        ["Q: Does it come with box and papers?\nA: Yes, includes original box and papers/documentation.".data]
       else if has_box then
        ["Q: Does it come with the original box?\nA: Yes, includes original box.".data]
       else
        ["Q: Does it come with papers?\nA: Yes, includes original papers/documentation.".data])
    else []
  let warranty := pyOr (sGet specs "warranty") (sGet specs "warrantyYears")
  let warrantyPairs : List Str :=
    if optTruthy warranty then
      ["Q: Is there a warranty?\nA: Yes, this watch comes with a ".data ++ optStr warranty ++
        " warranty.".data]
    else if product_type = "rolex_cpo".data then
      ["Q: Is there a warranty?\nA: Yes, Rolex Certified Pre-Owned watches come with a 2-year international guarantee.".data]
    else []
  let case_size := pyOr (pyOr (sGet specs "caseSize") (sGet specs "caseDiameter")) (sGet specs "diameter")
  let casePairs : List Str :=
    if optTruthy case_size then
      (let case_thickness := pyOr (sGet specs "caseThickness") (sGet specs "thickness")
       if optTruthy case_thickness then
         ["Q: What size is the watch?\nA: The case diameter is ".data ++ optStr case_size ++
           " with a thickness of ".data ++ optStr case_thickness ++ ".".data]
       else
         ["Q: What size is the watch?\nA: The case diameter is ".data ++ optStr case_size ++ ".".data])
    else []
  let dial_color := pyOr (sGet specs "dialColor") (sGet specs "dial_color")
  let dialPairs : List Str ←
    if optTruthy dial_color then do
      let s ← pyLower (dial_color.getD .null)
      pure ["Q: What color is the dial?\nA: This watch features a ".data ++ s ++ " dial.".data]
    else pure []
  let bracelet := pyOr (pyOr (sGet specs "bandMaterial") (sGet specs "braceletMaterial")) (sGet specs "field13")
  let braceletPairs : List Str :=
    if optTruthy bracelet then
      ["Q: What type of bracelet or strap does it have?\nA: This watch comes with a ".data ++
        optStr bracelet ++ ".".data]
    else []
  pure (waterPairs ++ movePairs ++ boxPairs ++ warrantyPairs ++ casePairs ++ dialPairs ++ braceletPairs)

/-- Jewelry-specific Q&A pairs (`transformer.py` lines 255-272); `material`
is the value computed in the universal section, compared against the metal
with Python `!=`. -/
def jewelryPairs (specs : JVal) (material : Option JVal) : List Str :=
  let gemstone := pyOr (pyOr (sGet specs "gemstone") (sGet specs "stone")) (sGet specs "gem")
  let gemPairs : List Str :=
    if optTruthy gemstone then
      ["Q: What gemstones are featured?\nA: This piece features ".data ++ optStr gemstone ++ ".".data]
    else []
  let metal := pyOr (pyOr (sGet specs "metalType") (sGet specs "goldKarat")) (sGet specs "metal")
  let metalPairs : List Str :=
    if optTruthy metal && pyNeO metal material then
      ["Q: What type of metal is this?\nA: This jewelry is crafted from ".data ++ optStr metal ++ ".".data]
    else []
  let size := pyOr (pyOr (sGet specs "size") (sGet specs "ringSize")) (sGet specs "length")
  let sizePairs : List Str :=
    if optTruthy size then
      ["Q: What size is this piece?\nA: This item measures ".data ++ optStr size ++ ".".data]
    else []
  gemPairs ++ metalPairs ++ sizePairs ++
    ["Q: How should I care for this jewelry?\nA: Store in a soft pouch or jewelry box. Avoid contact with perfumes, lotions, and harsh chemicals. Clean gently with a soft cloth.".data]

/-- Handbag-specific Q&A pairs (`transformer.py` lines 277-294). -/
def handbagPairs (specs : JVal) : List Str :=
  let dimensions := pyOr (sGet specs "dimensions") (sGet specs "size")
  let dimPairs : List Str :=
    if optTruthy dimensions then
      ["Q: What are the dimensions of this bag?\nA: The dimensions are ".data ++
        optStr dimensions ++ ".".data]
    else []
  let color := pyOr (sGet specs "color") (sGet specs "bagColor")
  let colorPairs : List Str :=
    if optTruthy color then
      ["Q: What color is this bag?\nA: This bag is available in ".data ++ optStr color ++ ".".data]
    else []
  let hardware := pyOr (sGet specs "hardware") (sGet specs "hardwareColor")
  let hwPairs : List Str :=
    if optTruthy hardware then
      ["Q: What type of hardware does it have?\nA: This bag features ".data ++ optStr hardware ++
        " hardware.".data]
    else []
  dimPairs ++ colorPairs ++ hwPairs ++
    ["Q: How should I care for this bag?\nA: Store stuffed with tissue paper in its dust bag. Avoid prolonged exposure to sunlight and keep away from water and oils.".data]

/-- The generic fallback pairs appended when fewer than 3 pairs were built
(`transformer.py` lines 299-308). -/
def fallbackPairs (brand : Str) : List Str :=
  ["Q: How is this item shipped?\nA: Items are carefully packaged and shipped via insured carrier. Signature is required upon delivery.".data] ++
  (if !brand.isEmpty then
    ["Q: Is this authentic?\nA: Yes, The 1916 Company guarantees authenticity of all ".data ++
      brand ++ " products. Each item is verified by our experts.".data]
   else []) ++
  ["Q: Can I get more information about this item?\nA: Yes, please contact The 1916 Company for additional details, photos, or to schedule a viewing.".data]

/-- Models `build_q_and_a` (`transformer.py` lines 134-310) as the list of
Q&A pair strings the Python list `qa_pairs` holds on return; the Python
function then joins them with blank lines (`build_q_and_a`). -/
def build_q_and_a_pairs (row : Row) (specs : JVal) (product_type : Str) :
    Except PyErr (List Str) := do
  let brand := stripS (rowGetD row "brand" [])
  let _title := stripS (rowGetD row "title" [])
  let is_preowned ← pyIsPreowned specs
  let availability := upperS (rowGetD row "availability_status" [])
  let availPairs : List Str :=
    if availability = "IN_STOCK".data then
      ["Q: Is this item in stock?\nA: Yes, this item is currently in stock and ready to ship.".data]
    else if availability = "OUT_OF_STOCK".data then
      ["Q: Is this item in stock?\nA: This item is currently out of stock. Please check back later or contact us for availability updates.".data]
    else if availability = "PRE_ORDER".data ∨ availability = "PREORDER".data then
      ["Q: Is this item in stock?\nA: This item is available for pre-order. It will ship once released.".data]
    else if availability = "BACKORDER".data then
      ["Q: Is this item in stock?\nA: This item is on backorder and will ship when available.".data]
    else []
  let brandPairs : List Str :=
    if !brand.isEmpty then
      (if product_type = "jewelry".data then
        ["Q: Who makes this jewelry?\nA: This piece is crafted by ".data ++ brand ++
          ", known for exceptional quality and craftsmanship.".data]
       else if product_type = "handbag".data then
        ["Q: What brand is this bag?\nA: This is an authentic ".data ++ brand ++ " bag.".data]
       else if lowerS brand = "rolex".data then
        ["Q: Is this an authentic Rolex?\nA: Yes, this is an authentic ".data ++ brand ++
          " timepiece sold by The 1916 Company, an authorized retailer.".data]
       else
        ["Q: What brand is this?\nA: This is a ".data ++ brand ++
          " product, available through The 1916 Company.".data])
    else []
  let condPairs : List Str :=
    if is_preowned then
      (if lowerS brand = "rolex".data then
        ["Q: Is this watch certified?\nA: Yes, this is a Rolex Certified Pre-Owned watch with a 2-year international guarantee from Rolex.".data]
       else
        ["Q: What is the condition?\nA: This is a pre-owned item that has been professionally inspected and authenticated by our experts.".data])
    else if product_type = "new_watch".data ∨ product_type = "jewelry".data ∨
        product_type = "handbag".data then
      ["Q: Is this brand new?\nA: Yes, this is a brand new item with full manufacturer warranty.".data]
    else []
  let material := pyOr (pyOr (sGet specs "material") (sGet specs "caseMaterial")) (sGet specs "metal")
  let matPairs : List Str :=
    if optTruthy material then
      (if product_type = "jewelry".data then
        ["Q: What is this jewelry made of?\nA: This piece is crafted from ".data ++
          optStr material ++ ".".data]
       else if product_type = "handbag".data then
        ["Q: What material is this bag made from?\nA: This bag is made from ".data ++
          optStr material ++ ".".data]
       else
        ["Q: What is this made of?\nA: This item features ".data ++ optStr material ++
          " construction.".data])
    else []
  let retPair : Str :=
    if product_type = "preowned_watch".data then
      "Q: What is the return policy?\nA: Pre-owned watches can be returned within 7 days in original condition with all packaging and documentation.".data
    else
      "Q: What is the return policy?\nA: Items can be returned within 14 days in unused condition with original packaging. Contact us for return authorization.".data
  let typePairs : List Str ←
    if product_type = "new_watch".data ∨ product_type = "rolex_cpo".data ∨
        product_type = "preowned_watch".data then
      watchPairs specs product_type
    else if product_type = "jewelry".data then
      pure (jewelryPairs specs material)
    else if product_type = "handbag".data then
      pure (handbagPairs specs)
    else
      pure []
  let base := availPairs ++ brandPairs ++ condPairs ++ matPairs ++ [retPair] ++ typePairs
  pure (if base.length < 3 then base ++ fallbackPairs brand else base)

/-- The string `build_q_and_a` returns: the pairs joined with blank lines. -/
def build_q_and_a (row : Row) (specs : JVal) (product_type : Str) : Except PyErr Str := do
  let pairs ← build_q_and_a_pairs row specs product_type
  pure (joinSep "\n\n".data pairs)

/-- Models `build_product_category` (`transformer.py` lines 313-332). -/
def build_product_category (row : Row) (_specs : JVal) (product_type : Str) : Str :=
  let brand := stripS (rowGetD row "brand" [])
  let category := rowGetD row "category" []
  if product_type = "new_watch".data ∨ product_type = "rolex_cpo".data ∨
      product_type = "preowned_watch".data then
    (if product_type = "rolex_cpo".data then "Watches > Certified Pre-Owned > Rolex".data
     else if product_type = "preowned_watch".data then
       (if !brand.isEmpty then "Watches > Pre-Owned > ".data ++ brand
        else "Watches > Pre-Owned".data)
     else
       (if !brand.isEmpty then "Watches > Luxury Watches > ".data ++ brand
        else "Watches > Luxury Watches".data))
  else if product_type = "jewelry".data then
    (if !category.isEmpty then "Jewelry > ".data ++ category else "Jewelry".data)
  else if product_type = "handbag".data then
    (if !brand.isEmpty then "Handbags > Designer > ".data ++ brand
     else "Handbags > Designer".data)
  else category

/-- Models `extract_material` (`transformer.py` lines 335-351).  Raises
`TypeError` (from `", ".join`) when a collected material value is a truthy
non-string; the f-string entries are strings by construction. -/
def extract_material (specs : JVal) : Except PyErr Str := do
  let case_material := pyOr (sGet specs "caseMaterial") (sGet specs "case_material")
  let materials0 : List JVal :=
    if optTruthy case_material then [case_material.getD .null] else []
  let bezel_material := pyOr (sGet specs "bezelMaterial") (sGet specs "bezel_material")
  let materials1 : List JVal :=
    if optTruthy bezel_material && pyNeO bezel_material case_material then
      materials0 ++ [.str (optStr bezel_material ++ " bezel".data)]
    else materials0
  let band_material := pyOr (pyOr (sGet specs "bandMaterial") (sGet specs "braceletMaterial"))
    (sGet specs "strap_material")
  let materials2 : List JVal :=
    if optTruthy band_material &&
        !(materials1.any (fun x => pyEq x (band_material.getD .null))) then
      materials1 ++ [.str (optStr band_material ++ " bracelet".data)]
    else materials1
  if materials2.isEmpty then pure []
  else do
    let j ← pyJoin ", ".data materials2
    pure (j.take 100)

/-- Whether a built value survives the final
`{k: v for k, v in product.items() if v is not None and v != ""}` filter. -/
def keepVal : JVal → Bool
  | .null => false
  | .str [] => false
  | _ => true

/-- Models `transform_row_to_openai` (`transformer.py` lines 354-480):
`.ok (some product)` is an emitted record, `.ok none` a gate skip, `.error`
an exception that `transform_feed` catches per row.  The bind order follows
the order in which the raising expressions execute in the source. -/
def transform_row_to_openai (row : Row) : Except PyErr (Option Dict) := do
  let description_data := parse_json_field (rowGetD row "description" [])
  let specs := parse_json_field (rowGetD row "specifications" [])
  if rowGet row "call_for_price" = some "true".data ∨ rowGet row "online" ≠ some "1".data then
    pure none
  else do
    let product_type ← detect_product_type row specs
    let return_window := alGetD RETURN_WINDOWS product_type 14
    let pc := extract_price (rowGetD row "price" []) (rowGetD row "book_price" [])
    let price := pc.1
    let currency := pc.2
    if price.m ≤ 0 then pure none
    else do
      let desc ← extract_description description_data
      let is_preowned ← pyIsPreowned specs
      let product : Dict := [
        ("item_id", .str (rowGetD row "id" [])),
        ("title", .str ((rowGetD row "title" (rowGetD row "name" [])).take 150)),
        ("description", .str desc),
        ("brand", .str ((rowGetD row "brand" []).take 70)),
        ("url", .str (rowGetD row "link" [])),
        ("image_url", .str (rowGetD row "image_link" [])),
        ("price", .float price),
        ("currency", .str currency),
        ("availability", .str (map_availability (rowGetD row "availability_status" "unknown".data))),
        ("is_eligible_search", .bool true),
        ("is_eligible_checkout", .bool (lowerS (rowGetD row "allow_buy_now" []) == "true".data)),
        ("group_id",
          if optTruthyS (rowGet row "item_group_id") then
            .str ((rowGetD row "item_group_id" []).take 70)
          else .null),
        ("listing_has_variations", .bool (optTruthyS (rowGet row "item_group_id"))),
        ("store_name", .str COMPANY_store_name),
        ("seller_url", .str COMPANY_seller_url),
        ("store_country", .str COMPANY_store_country),
        ("target_countries", .arr (.cons (.str "US".data) .nil)),
        ("seller_privacy_policy", .str COMPANY_privacy),
        ("seller_tos", .str COMPANY_tos),
        ("return_policy", .str COMPANY_return_text),
        ("return_window", .int (return_window : Int)),
        ("condition", .str (if is_preowned then "used".data else "new".data)),
        ("product_category", .str (build_product_category row specs product_type))]
      let additional_images ← get_additional_images (rowGetD row "additional_image_link" [])
      let product ←
        if !additional_images.isEmpty then do
          let j ← pyJoin ",".data (additional_images.take 10)
          pure (alSet product "additional_image_urls" (.str j))
        else pure product
      let q_and_a ← build_q_and_a row specs product_type
      let product := if !q_and_a.isEmpty then alSet product "q_and_a" (.str q_and_a) else product
      let material ← extract_material specs
      let product := if !material.isEmpty then alSet product "material" (.str material) else product
      let mpn := pyOr (pyOr (pyOr (pyOr (sGet specs "baseRefNum") (sGet specs "referenceNumber"))
        (sGet specs "reference")) (sGet specs "modelNumber")) (sGet specs "sku")
      let product :=
        if optTruthy mpn then alSet product "mpn" (.str ((optStr mpn).take 70)) else product
      let case_size := pyOr (pyOr (sGet specs "caseSize") (sGet specs "caseDiameter"))
        (sGet specs "diameter")
      let product :=
        if optTruthy case_size then
          alSet (alSet product "dimensions" (.str (optStr case_size ++ " diameter".data)))
            "size" (.str ((optStr case_size).take 20))
        else product
      let case_thickness := pyOr (sGet specs "caseThickness") (sGet specs "thickness")
      let product :=
        if optTruthy case_thickness && optTruthy case_size then
          alSet product "dimensions"
            (.str (optStr case_size ++ " x ".data ++ optStr case_thickness))
        else product
      let water_resistance := pyOr (sGet specs "waterResistance") (sGet specs "water_resistance")
      let product :=
        if optTruthy water_resistance then
          (match alGet product "material" with
           | some mv =>
             alSet product "material"
               (.str (pyStr mv ++ ", ".data ++ optStr water_resistance ++ " water resistant".data))
           | none =>
             alSet product "material" (.str (optStr water_resistance ++ " water resistant".data)))
        else product
      let dial_color := pyOr (pyOr (sGet specs "dialColor") (sGet specs "dial_color"))
        (sGet specs "color")
      let product :=
        if optTruthy dial_color then alSet product "color" (.str ((optStr dial_color).take 40))
        else product
      let genderv := pyOr (sGet specs "gender") ((rowGet row "gender").map JVal.str)
      let product ←
        if optTruthy genderv then do
          let g ← pyLower (genderv.getD .null)
          pure (alSet product "gender" (.str g))
        else pure product
      let year := pyOr (sGet specs "year") (sGet specs "productionYear")
      let product :=
        if optTruthy year then
          (match alGet product "description" with
           | some dv =>
             if pyTruthy dv then
               alSet product "description"
                 (.str (pyStr dv ++ "\n\nYear: ".data ++ optStr year))
             else product
           | none => product)
        else product
      let gtin := pyOrS (pyOrS (rowGet row "gtin") (rowGet row "upc")) (rowGet row "ean")
      let product :=
        if optTruthyS gtin then alSet product "gtin" (.str (gtin.getD [])) else product
      let product := alSet product "_product_type" (.str product_type)
      pure (some (product.filter (fun kv => keepVal kv.2)))

/-- Run statistics of a transform run (`transform_feed` stats). -/
structure RunStats where
  total_rows : Nat
  transformed : Nat
  skipped : Nat
  errors : Nat
deriving DecidableEq

/-- Models one iteration of the `transform_feed` row loop (`transformer.py`
lines 522-541): an emitted record counts as transformed, a `None` as
skipped, and a raised exception is caught, recorded as an error, and the row
counted as skipped. -/
def feedStepOpenai (stats : RunStats) (row : Row) : RunStats :=
  let stats := { stats with total_rows := stats.total_rows + 1 }
  match transform_row_to_openai row with
  | .ok (some _) => { stats with transformed := stats.transformed + 1 }
  | .ok none => { stats with skipped := stats.skipped + 1 }
  | .error _ => { stats with skipped := stats.skipped + 1, errors := stats.errors + 1 }

/-! ## Embedding of `src/gemini_transformer.py` -/

/-- Google product-category lookup (`GOOGLE_CATEGORY_MAP`). -/
def GOOGLE_CATEGORY_MAP : List (Str × Str) :=
  [("new_watch".data, "Apparel & Accessories > Jewelry > Watches".data),
   ("rolex_cpo".data, "Apparel & Accessories > Jewelry > Watches".data),
   ("preowned_watch".data, "Apparel & Accessories > Jewelry > Watches".data),
   ("jewelry".data, "Apparel & Accessories > Jewelry".data),
   ("handbag".data, "Apparel & Accessories > Handbags, Wallets & Cases > Handbags".data)]

/-- The availability lookup table of `map_google_availability`. -/
def googleAvailabilityMap : List (Str × Str) :=
  [("IN_STOCK".data, "in_stock".data), ("OUT_OF_STOCK".data, "out_of_stock".data),
   ("PRE_ORDER".data, "preorder".data), ("PREORDER".data, "preorder".data),
   ("BACKORDER".data, "backorder".data)]

/-- Models `map_google_availability` (`gemini_transformer.py` lines 35-44):
any status outside the table, case-insensitively, maps to `out_of_stock`. -/
def map_google_availability (status : Str) : Str :=
  alGetD googleAvailabilityMap (upperS status) "out_of_stock".data

/-- Models `map_google_condition` (`gemini_transformer.py` lines 47-49). -/
def map_google_condition (is_preowned : Bool) : Str :=
  if is_preowned then "used".data else "new".data

/-- Python `f"{price:.2f}"` on the exact-decimal floats of this pipeline:
exact when at most two fraction digits are carried, rounded half-up
otherwise (catalog prices carry at most two fraction digits, so the tie rule
is never exercised). -/
def formatPrice2 (d : PyFloat) : Str :=
  let w := d.e1 + 1
  let a := d.m.natAbs
  let m2 : Nat := if w ≤ 2 then a * 10 ^ (2 - w) else (a + 10 ^ (w - 2) / 2) / 10 ^ (w - 2)
  (if d.m < 0 ∧ m2 ≠ 0 then ['-'] else []) ++
    natToStr (m2 / 100) ++ '.' :: padZeros 2 (natToStr (m2 % 100))

/-- Key under which the `i`-th (0-based) additional image URL is emitted:
the first unindexed, the rest suffixed `_2`, `_3`, ... -/
def imgKey : Nat → String
  | 0 => "additional_image_link"
  | i + 1 => "additional_image_link_" ++ ⟨natToStr (i + 2)⟩

/-- The image-insertion loop of `transform_row_to_google` (lines 113-116):
`for i, img_url in enumerate(additional_images[:10])`. -/
def addGoogleImages (product : Dict) (imgs : List JVal) : Dict :=
  ((imgs.take 10).enum).foldl (fun d p => alSet d (imgKey p.1) p.2) product

/-- Models `transform_row_to_google` (`gemini_transformer.py` lines 52-247).
Same result convention as `transform_row_to_openai`; note that the
`_product_type` marker is added after the empty-value filter here. -/
def transform_row_to_google (row : Row) : Except PyErr (Option Dict) := do
  let description_data := parse_json_field (rowGetD row "description" [])
  let specs := parse_json_field (rowGetD row "specifications" [])
  if rowGet row "call_for_price" = some "true".data ∨ rowGet row "online" ≠ some "1".data then
    pure none
  else do
    let product_type ← detect_product_type row specs
    let is_preowned ← pyIsPreowned specs
    let pc := extract_price (rowGetD row "price" []) (rowGetD row "book_price" [])
    let price := pc.1
    let currency := pc.2
    if price.m ≤ 0 then pure none
    else do
      let mpn := pyOr (pyOr (pyOr (pyOr (sGet specs "baseRefNum") (sGet specs "referenceNumber"))
        (sGet specs "reference")) (sGet specs "modelNumber")) (sGet specs "sku")
      let desc ← extract_description description_data
      let product : Dict := [
        ("id", .str (rowGetD row "id" [])),
        ("title", .str ((rowGetD row "title" (rowGetD row "name" [])).take 150)),
        ("description", .str (desc.take 5000)),
        ("link", .str (rowGetD row "link" [])),
        ("image_link", .str (rowGetD row "image_link" [])),
        ("availability",
          .str (map_google_availability (rowGetD row "availability_status" "OUT_OF_STOCK".data))),
        ("price", .str (formatPrice2 price ++ ' ' :: currency)),
        ("brand", .str ((rowGetD row "brand" []).take 70)),
        ("condition", .str (map_google_condition is_preowned)),
        ("identifier_exists", .str "false".data),
        ("mpn",
          .str (if optTruthy mpn then (optStr mpn).take 70 else rowGetD row "id" [])),
        ("google_product_category",
          .str (alGetD GOOGLE_CATEGORY_MAP product_type
            "Apparel & Accessories > Jewelry > Watches".data)),
        ("product_type", .str (rowGetD row "category" [])),
        ("item_group_id",
          .str (if optTruthyS (rowGet row "item_group_id") then
            (rowGetD row "item_group_id" []).take 70
          else []))]
      let additional_images ← get_additional_images (rowGetD row "additional_image_link" [])
      let product :=
        if !additional_images.isEmpty then addGoogleImages product additional_images else product
      let dial_color := pyOr (pyOr (sGet specs "dialColor") (sGet specs "dial_color"))
        (sGet specs "color")
      let product :=
        if optTruthy dial_color then alSet product "color" (.str ((optStr dial_color).take 100))
        else product
      let material := pyOr (sGet specs "material") (sGet specs "caseMaterial")
      let product :=
        if optTruthy material then alSet product "material" (.str ((optStr material).take 200))
        else product
      let case_size := pyOr (pyOr (sGet specs "caseSize") (sGet specs "caseDiameter"))
        (sGet specs "diameter")
      let product :=
        if optTruthy case_size then alSet product "size" (.str ((optStr case_size).take 100))
        else product
      let genderv := pyOr (sGet specs "gender") ((rowGet row "gender").map JVal.str)
      let product ←
        if optTruthy genderv then do
          let gl ← pyLower (genderv.getD .null)
          pure (alSet product "gender"
            (.str (if gl = "male".data ∨ gl = "men".data ∨ gl = "mens".data then "male".data
              else if gl = "female".data ∨ gl = "women".data ∨ gl = "womens".data then
                "female".data
              else "unisex".data)))
        else pure product
      let product := alSet product "age_group" (.str "adult".data)
      let product := alSet product "shipping_weight" (.str "1 lb".data)
      let product := alSet product "custom_label_0" (.str product_type)
      let product := alSet product "custom_label_1" (.str "luxury".data)
      let product := alSet product "custom_label_2"
        (.str (if is_preowned then "pre-owned".data else "new".data))
      let product := alSet product "native_commerce" (.str "TRUE".data)
      let product := alSet product "merchant_item_id" (.str (rowGetD row "id" []))
      let product := alSet product "consumer_notice"
        (.str (if is_preowned then
          "Pre-owned luxury item. Authenticity guaranteed. All items inspected and certified by expert watchmakers.".data
        else
          "Authorized retailer. Factory warranty included. Authenticity guaranteed.".data))
      let brand := rowGetD row "brand" []
      let water_resistance := pyOr (sGet specs "waterResistance") (sGet specs "water_resistance")
      let movement := pyOr (sGet specs "movement") (sGet specs "caliber")
      let highlights : List Str :=
        (if !brand.isEmpty then ["Authentic ".data ++ brand ++ " product".data] else []) ++
        [if is_preowned then "Certified pre-owned with warranty".data
         else "Brand new with manufacturer warranty".data] ++
        (if optTruthy material then ["Crafted in ".data ++ optStr material] else []) ++
        (if optTruthy dial_color then [optStr dial_color ++ " dial".data] else []) ++
        (if optTruthy case_size then [optStr case_size ++ " case size".data] else []) ++
        (if optTruthy water_resistance then
          ["Water resistant to ".data ++ optStr water_resistance] else []) ++
        (if optTruthy movement then [optStr movement ++ " movement".data] else []) ++
        (if product_type = "jewelry".data then
          (let gemstones := pyOr (sGet specs "gemstones") (sGet specs "stones")
           if optTruthy gemstones then ["Features ".data ++ optStr gemstones] else [])
         else []) ++
        ["Free shipping available".data, "Expert customer service".data]
      let product :=
        if !highlights.isEmpty then
          alSet product "product_highlight" (.str (joinSep "|".data (highlights.take 10)))
        else product
      let product_details : List Str :=
        (if !brand.isEmpty then ["Brand:".data ++ brand] else []) ++
        (if optTruthy mpn then ["Reference:".data ++ optStr mpn] else []) ++
        (if optTruthy material then ["Material:".data ++ optStr material] else []) ++
        (if optTruthy case_size then ["Case Size:".data ++ optStr case_size] else []) ++
        (if optTruthy dial_color then ["Dial Color:".data ++ optStr dial_color] else []) ++
        (if optTruthy water_resistance then
          ["Water Resistance:".data ++ optStr water_resistance] else []) ++
        (if optTruthy movement then ["Movement:".data ++ optStr movement] else [])
      let product :=
        if !product_details.isEmpty then
          alSet product "product_detail" (.str (joinSep "|".data product_details))
        else product
      let q_and_a ← build_q_and_a row specs product_type
      let product :=
        if !q_and_a.isEmpty then
          alSet product "structured_description" (.str (q_and_a.take 5000))
        else product
      let product := product.filter (fun kv => keepVal kv.2)
      let product := alSet product "_product_type" (.str product_type)
      pure (some product)

/-- Models one iteration of the `transform_feed_to_google` row loop
(`gemini_transformer.py` lines 280-296). -/
def feedStepGoogle (stats : RunStats) (row : Row) : RunStats :=
  let stats := { stats with total_rows := stats.total_rows + 1 }
  match transform_row_to_google row with
  | .ok (some _) => { stats with transformed := stats.transformed + 1 }
  | .ok none => { stats with skipped := stats.skipped + 1 }
  | .error _ => { stats with skipped := stats.skipped + 1, errors := stats.errors + 1 }

/-! ## Embedding of `src/validate_feed.py` -/

/-- The value kinds of the declarative schema. -/
inductive FKind where
  | string : FKind
  | url : FKind
  | number : FKind
  | integer : FKind
  | boolean : FKind
  | array : FKind
deriving DecidableEq

/-- One schema entry: a kind plus the optional constraints used by
`validate_field` (`max_length`, `enum`, numeric `min`/`max`). -/
structure FSpec where
  kind : FKind
  maxLength : Option Nat
  enums : Option (List Str)
  minN : Option Int
  maxN : Option Int
deriving DecidableEq

/-- The `required` group of `OPENAI_COMMERCE_SCHEMA`. -/
def OPENAI_required : List (String × FSpec) :=
  [("item_id", ⟨.string, some 50, none, none, none⟩),
   ("title", ⟨.string, some 150, none, none, none⟩),
   ("description", ⟨.string, some 5000, none, none, none⟩),
   ("url", ⟨.url, none, none, none, none⟩),
   ("image_url", ⟨.url, none, none, none, none⟩),
   ("price", ⟨.number, none, none, some 0, none⟩),
   ("currency", ⟨.string, none,
     some ["USD".data, "EUR".data, "GBP".data, "CAD".data, "AUD".data, "JPY".data,
       "CHF".data, "CNY".data, "HKD".data, "SGD".data, "AED".data], none, none⟩),
   ("availability", ⟨.string, none,
     some ["in_stock".data, "out_of_stock".data, "pre_order".data, "backorder".data,
       "unknown".data], none, none⟩)]

/-- The `recommended` group of the schema. -/
def OPENAI_recommended : List (String × FSpec) :=
  [("brand", ⟨.string, some 70, none, none, none⟩),
   ("condition", ⟨.string, none, some ["new".data, "used".data, "refurbished".data], none, none⟩),
   ("store_name", ⟨.string, some 100, none, none, none⟩),
   ("seller_url", ⟨.url, none, none, none, none⟩),
   ("target_countries", ⟨.array, none, none, none, none⟩),
   ("store_country", ⟨.string, some 2, none, none, none⟩),
   ("product_category", ⟨.string, some 750, none, none, none⟩),
   ("group_id", ⟨.string, some 70, none, none, none⟩),
   ("listing_has_variations", ⟨.boolean, none, none, none, none⟩)]

/-- The `policy` group of the schema. -/
def OPENAI_policy : List (String × FSpec) :=
  [("seller_privacy_policy", ⟨.url, none, none, none, none⟩),
   ("seller_tos", ⟨.url, none, none, none, none⟩),
   ("return_policy", ⟨.string, some 5000, none, none, none⟩),
   ("return_window", ⟨.integer, none, none, some 0, some 365⟩)]

/-- The `llm_enhancement` group of the schema. -/
def OPENAI_llm : List (String × FSpec) :=
  [("q_and_a", ⟨.string, some 10000, none, none, none⟩),
   ("material", ⟨.string, some 200, none, none, none⟩),
   ("color", ⟨.string, some 40, none, none, none⟩),
   ("size", ⟨.string, some 20, none, none, none⟩),
   ("dimensions", ⟨.string, some 100, none, none, none⟩),
   ("mpn", ⟨.string, some 70, none, none, none⟩),
   ("gtin", ⟨.string, some 50, none, none, none⟩),
   ("gender", ⟨.string, none, some ["male".data, "female".data, "unisex".data], none, none⟩)]

/-- The `optional` group of the schema. -/
def OPENAI_optional : List (String × FSpec) :=
  [("additional_image_urls", ⟨.string, none, none, none, none⟩),
   ("is_eligible_search", ⟨.boolean, none, none, none, none⟩),
   ("is_eligible_checkout", ⟨.boolean, none, none, none, none⟩)]

/-- Split an URL at the first `://` (model of `urlparse` for the absolute
http(s)-style URLs this feed carries; exotic forms without `://` are treated
as having no netloc, hence invalid, matching `urlparse` for this data). -/
def findSchemeSplit : Str → Option (Str × Str)
  | [] => none
  | ':' :: '/' :: '/' :: rest => some ([], rest)
  | c :: rest => (findSchemeSplit rest).map (fun p => (c :: p.1, p.2))

/-- Models `validate_url` (`validate_feed.py` lines 74-86). -/
def validate_url (value : Str) : Bool × Str :=
  if value.isEmpty then (false, "Empty URL".data)
  else
    match findSchemeSplit value with
    | some (schemeRaw, rest) =>
      let scheme := lowerS schemeRaw
      let netloc := rest.takeWhile (fun c => c ≠ '/')
      if scheme.isEmpty ∨ netloc.isEmpty then
        (false, "Invalid URL format: ".data ++ value.take 50)
      else if scheme = "http".data ∨ scheme = "https".data then (true, [])
      else (false, "Invalid URL scheme: ".data ++ scheme)
    | none => (false, "Invalid URL format: ".data ++ value.take 50)

/-- Python `type(value).__name__` for a decoded value. -/
def pyTypeName : JVal → Str
  | .null => "NoneType".data
  | .bool _ => "bool".data
  | .int _ => "int".data
  | .float _ => "float".data
  | .str _ => "str".data
  | .arr _ => "list".data
  | .obj _ => "dict".data

/-- `isinstance(value, str)`. -/
def isStrV : JVal → Bool
  | .str _ => true
  | _ => false

/-- `isinstance(value, (int, float))` — Python `bool` is a subclass of `int`. -/
def isNumV : JVal → Bool
  | .int _ => true
  | .float _ => true
  | .bool _ => true
  | _ => false

/-- `isinstance(value, int)` — again `bool` counts. -/
def isIntV : JVal → Bool
  | .int _ => true
  | .bool _ => true
  | _ => false

/-- `isinstance(value, bool)`. -/
def isBoolV : JVal → Bool
  | .bool _ => true
  | _ => false

/-- `isinstance(value, list)`. -/
def isArrV : JVal → Bool
  | .arr _ => true
  | _ => false

/-- Exact `(mantissa, fraction digits)` representation of a bool/int/float,
for the `min`/`max` comparisons (guarded by the isinstance checks). -/
def numRepV : JVal → Int × Nat
  | .bool b => (if b then 1 else 0, 0)
  | .int n => (n, 0)
  | .float d => numRepF d
  | _ => (0, 0)

/-- `value < bound` on a numeric value, by exact cross-multiplication. -/
def numLtI (value : JVal) (bound : Int) : Bool :=
  (numRepV value).1 < bound * 10 ^ (numRepV value).2

/-- `bound < value` on a numeric value, by exact cross-multiplication. -/
def numGtI (value : JVal) (bound : Int) : Bool :=
  bound * 10 ^ (numRepV value).2 < (numRepV value).1

/-- An ASCII apostrophe, for reproducing the validator message texts. -/
def apos : Char := Char.ofNat 39

/-- Python `repr` of the enum list in the invalid-value message. -/
def enumRepr (l : List Str) : Str :=
  '[' :: joinSep ", ".data (l.map (fun e => apos :: e ++ [apos])) ++ [']']

/-- Models `validate_field` (`validate_feed.py` lines 89-137). -/
def validate_field (field : String) (value : JVal) (spec : FSpec) : List Str :=
  match spec.kind with
  | .string =>
    if !isStrV value then
      [field.data ++ ": Expected string, got ".data ++ pyTypeName value]
    else
      (let s := match value with | .str s => s | _ => []
       (match spec.maxLength with
        | some maxL =>
          if maxL < s.length then
            [field.data ++ ": Exceeds max length ".data ++ natToStr maxL ++ " (got ".data ++
              natToStr s.length ++ ")".data]
          else []
        | none => []) ++
       (match spec.enums with
        | some en =>
          if !(en.any (fun e => e = s)) then
            [field.data ++ ": Invalid value ".data ++ apos :: s ++ apos ::
              ", expected one of ".data ++ enumRepr en]
          else []
        | none => []))
  | .url =>
    if !isStrV value then
      [field.data ++ ": Expected URL string, got ".data ++ pyTypeName value]
    else
      (let s := match value with | .str s => s | _ => []
       let vm := validate_url s
       if !vm.1 then [field.data ++ ": ".data ++ vm.2] else [])
  | .number =>
    if !isNumV value then
      [field.data ++ ": Expected number, got ".data ++ pyTypeName value]
    else
      (match spec.minN with
       | some mn =>
         if numLtI value mn then
           [field.data ++ ": Value ".data ++ pyStr value ++ " below minimum ".data ++ intToStr mn]
         else []
       | none => [])
  | .integer =>
    if !isIntV value then
      [field.data ++ ": Expected integer, got ".data ++ pyTypeName value]
    else
      ((match spec.minN with
        | some mn =>
          if numLtI value mn then
            [field.data ++ ": Value ".data ++ pyStr value ++ " below minimum ".data ++ intToStr mn]
          else []
        | none => []) ++
       (match spec.maxN with
        | some mx =>
          if numGtI value mx then
            [field.data ++ ": Value ".data ++ pyStr value ++ " above maximum ".data ++ intToStr mx]
          else []
        | none => []))
  | .boolean =>
    if !isBoolV value then
      [field.data ++ ": Expected boolean, got ".data ++ pyTypeName value]
    else []
  | .array =>
    if !isArrV value then
      [field.data ++ ": Expected array, got ".data ++ pyTypeName value]
    else []

/-- Python `value is None or value == ""`. -/
def isNoneOrEmptyStr : JVal → Bool
  | .null => true
  | .str [] => true
  | _ => false

/-- Error contribution of one required-group schema entry
(`validate_feed.py` lines 153-161). -/
def reqCheck (product : Dict) (fs : String × FSpec) : List Str :=
  match alGet product fs.1 with
  | none => ["Missing required field: ".data ++ fs.1.data]
  | some v =>
    if isNoneOrEmptyStr v then
      ["Required field ".data ++ apos :: fs.1.data ++ apos :: " is empty".data]
    else validate_field fs.1 v fs.2

/-- Warning contribution of one recommended-group entry (lines 164-170):
present and neither `None` nor empty. -/
def recCheck (product : Dict) (fs : String × FSpec) : List Str :=
  match alGet product fs.1 with
  | none => []
  | some v => if !isNoneOrEmptyStr v then validate_field fs.1 v fs.2 else []

/-- Warning contribution of one policy/enhancement entry (lines 173-184):
present and truthy. -/
def truthyCheck (product : Dict) (fs : String × FSpec) : List Str :=
  match alGet product fs.1 with
  | none => []
  | some v => if pyTruthy v then validate_field fs.1 v fs.2 else []

/-- Warning contribution of one optional-group entry (lines 187-191):
present and not `None`. -/
def optCheck (product : Dict) (fs : String × FSpec) : List Str :=
  match alGet product fs.1 with
  | none => []
  | some v =>
    (match v with
     | .null => []
     | _ => validate_field fs.1 v fs.2)

/-- The per-record verdict built by `validate_product`. -/
structure VResult where
  item_idv : JVal
  errors : List Str
  warnings : List Str
  missing_required : List String
  missing_recommended : List String

/-- Models `validate_product` (`validate_feed.py` lines 140-193). -/
def validate_product (product : Dict) (index : Nat) : VResult :=
  { item_idv := (alGet product "item_id").getD (.str ("unknown_".data ++ natToStr index))
    errors := OPENAI_required.flatMap (reqCheck product)
    warnings :=
      OPENAI_recommended.flatMap (recCheck product) ++
      OPENAI_policy.flatMap (truthyCheck product) ++
      OPENAI_llm.flatMap (truthyCheck product) ++
      OPENAI_optional.flatMap (optCheck product)
    missing_required :=
      (OPENAI_required.filter (fun fs => (alGet product fs.1).isNone)).map (fun fs => fs.1)
    missing_recommended :=
      (OPENAI_recommended.filter (fun fs => (alGet product fs.1).isNone)).map (fun fs => fs.1) }

/-- The `products_with_errors` count of the `--json` summary
(`validate_feed.py` line 349). -/
def products_with_errors (products : List Dict) : Nat :=
  (products.enum.map (fun p => validate_product p.2 p.1)).countP (fun r => !r.errors.isEmpty)

/-- Split text into newline-separated segments, accumulating the current
segment in reverse (models iterating the lines of a file). -/
def splitLinesF : Str → Str → List Str
  | [], acc => [acc.reverse]
  | c :: rest, acc =>
    if c = '\n' then acc.reverse :: splitLinesF rest [] else splitLinesF rest (c :: acc)

/-- Models `load_feed` (`validate_feed.py` lines 196-217) on decompressed
text: split into lines, strip, skip blanks, keep JSON-decodable lines. -/
def load_feed_lines (content : Str) : List JVal :=
  (splitLinesF content []).filterMap (fun line =>
    let l := stripS line
    if l.isEmpty then none else jsonParse l)

/-- Convert an emitted record to a decoded-dict value for printing. -/
def JObj.ofDict : Dict → JObj
  | [] => .nil
  | (k, v) :: rest => .cons k v (JObj.ofDict rest)

/-- The line `transform_feed` writes for one emitted record
(`transformer.py` lines 528-534): the `_product_type` marker is popped, the
rest dumped as one JSON line.  Keys are unique in every emitted record, so
dropping all occurrences models `pop`. -/
def writeFeedLine (product : Dict) : Str :=
  jsonPrint (.obj (JObj.ofDict (product.filter (fun kv => kv.1 ≠ "_product_type")))) ++ ['\n']

/-! ## Concrete rows and records used to instantiate the theorems -/

/-- A representative catalog row: an online pre-owned Rolex watch. -/
def rowE : Row :=
  [("id", "ns-w-1".data), ("title", "Submariner".data), ("brand", "Rolex".data),
   ("category", "watches".data), ("price", "9000".data),
   ("availability_status", "IN_STOCK".data), ("online", "1".data),
   ("link", "https://x.com/p".data), ("image_link", "https://x.com/i.jpg".data),
   ("specifications", "\x7b\"isPreOwned\":\"true\"\x7d".data)]

/-- `rowE` with the pre-owned flag JSON-encoded as a boolean instead of the
string `"true"`. -/
def rowB : Row := ("specifications", "\x7b\"isPreOwned\":true\x7d".data) :: rowE

/-- `rowE` with three additional-image entries, the second of which has an
empty URL. -/
def rowI : Row :=
  ("additional_image_link",
    "[\x7b\"url\":\"https://a/1\"\x7d,\x7b\"url\":\"\"\x7d,\x7b\"url\":\"https://a/3\"\x7d]".data) :: rowE

/-- The length of the description of an emitted record, `none` when no
record is emitted or the record carries no string description. -/
def emittedDescLen (r : Except PyErr (Option Dict)) : Option Nat :=
  match r with
  | .ok (some p) =>
    (match alGet p "description" with
     | some (.str s) => some s.length
     | _ => none)
  | _ => none

/-- A row whose description cell decodes to 4990 characters of text and whose
specifications carry a production year: the emitted description is the
truncation-bounded text plus the year suffix. -/
def rowC2 : Row :=
  [("id", "ns-w-2".data), ("online", "1".data), ("price", "9000".data),
   ("description", jsonPrint (.str (List.replicate 4990 'a'))),
   ("specifications", "\x7b\"year\":\"2020\"\x7d".data)]

/-- Decoded specifications whose `hasBox` value is the JSON number `1`. -/
def specsC3 : JVal := .obj (.cons "hasBox" (.int 1) .nil)

/-- Decoded specifications whose `isPreOwned` value is the JSON boolean
`true`. -/
def specsBool : JVal := .obj (.cons "isPreOwned" (.bool true) .nil)

/-- A fully valid assistant-commerce record except that its brand carries 80
characters, over the schema's 70-character maximum. -/
def pC6brand : Dict :=
  [("item_id", .str "ns-w-1".data), ("title", .str "Submariner".data),
   ("description", .str "A fine watch.".data), ("url", .str "https://x.com/p".data),
   ("image_url", .str "https://x.com/i.jpg".data), ("price", .float ⟨90000, 0⟩),
   ("currency", .str "USD".data), ("availability", .str "in_stock".data),
   ("brand", .str (List.replicate 80 'a'))]

/-- The same record with a valid brand but no `url` key. -/
def pC6noUrl : Dict :=
  [("item_id", .str "ns-w-1".data), ("title", .str "Submariner".data),
   ("description", .str "A fine watch.".data),
   ("image_url", .str "https://x.com/i.jpg".data), ("price", .float ⟨90000, 0⟩),
   ("currency", .str "USD".data), ("availability", .str "in_stock".data),
   ("brand", .str "Rolex".data)]

/-- The per-element keep-and-project function realised by the additional-image
comprehension: a dict element contributes its `url` value when that value is
truthy. -/
def urlOf : JVal → Option JVal
  | .obj o =>
    (match o.find "url" with
     | some v => if pyTruthy v then some v else none
     | none => none)
  | _ => none

/-- The record `transform_row_to_openai` emits for `rowE`. -/
def pE : Dict := ((transform_row_to_openai rowE).toOption.getD none).getD []

/-- The record `transform_row_to_google` emits for `rowE`. -/
def pG : Dict := ((transform_row_to_google rowE).toOption.getD none).getD []

/-- The record `transform_row_to_google` emits for `rowI`. -/
def pGI : Dict := ((transform_row_to_google rowI).toOption.getD none).getD []

/-! ## Basic list and digit lemmas -/

theorem takeWhile_append_all (p : Char → Bool) (a b : Str) (ha : ∀ c ∈ a, p c = true)
    (hb : ∀ c, b.head? = some c → p c = false) : (a ++ b).takeWhile p = a := by
  induction a with
  | nil =>
    cases b with
    | nil => rfl
    | cons c r => simp [List.takeWhile, hb c rfl]
  | cons c t ih =>
    have hc := ha c (by simp)
    simp [List.takeWhile, hc]
    exact ih (fun x hx => ha x (by simp [hx]))

theorem dropWhile_append_all (p : Char → Bool) (a b : Str) (ha : ∀ c ∈ a, p c = true)
    (hb : ∀ c, b.head? = some c → p c = false) : (a ++ b).dropWhile p = b := by
  induction a with
  | nil =>
    cases b with
    | nil => rfl
    | cons c r => simp [List.dropWhile, hb c rfl]
  | cons c t ih =>
    have hc := ha c (by simp)
    simp [List.dropWhile, hc]
    exact ih (fun x hx => ha x (by simp [hx]))

theorem digitVal_digitChar {n : Nat} (h : n < 10) : digitVal (digitChar n) = n := by
  interval_cases n <;> rfl

theorem isDigit_digitChar {n : Nat} (h : n < 10) : (digitChar n).isDigit = true := by
  interval_cases n <;> rfl

theorem natDigits_irrel : ∀ n f1 f2, n < f1 → n < f2 → natDigits f1 n = natDigits f2 n := by
  intro n
  induction n using Nat.strongRecOn with
  | _ n ih =>
    intro f1 f2 h1 h2
    match f1, f2 with
    | g1 + 1, g2 + 1 =>
      by_cases hn : n < 10
      · simp [natDigits, hn]
      · simp only [natDigits, hn, if_false]
        have hd : n / 10 < n := Nat.div_lt_self (by omega) (by omega)
        rw [ih (n / 10) hd g1 g2 (by omega) (by omega)]

theorem natDigits_eq_natToStr {n fuel : Nat} (h : n < fuel) :
    natDigits fuel n = natToStr n :=
  natDigits_irrel n fuel (n + 1) h (Nat.lt_succ_self n)

theorem natToStr_eq (n : Nat) :
    natToStr n = if n < 10 then [digitChar n] else natToStr (n / 10) ++ [digitChar (n % 10)] := by
  by_cases hn : n < 10
  · simp [natToStr, natDigits, hn]
  · have hd : n / 10 < n := Nat.div_lt_self (by omega) (by omega)
    rw [if_neg hn, show natToStr n = natDigits n (n / 10) ++ [digitChar (n % 10)] from by
      simp [natToStr, natDigits, hn]]
    rw [natDigits_eq_natToStr (by omega)]

theorem natToStr_ne_nil (n : Nat) : natToStr n ≠ [] := by
  rw [natToStr_eq]
  split <;> simp

theorem natToStr_all_digits : ∀ n, ∀ c ∈ natToStr n, c.isDigit = true := by
  intro n
  induction n using Nat.strongRecOn with
  | _ n ih =>
    intro c hc
    rw [natToStr_eq] at hc
    by_cases hn : n < 10
    · simp [hn] at hc
      subst hc
      exact isDigit_digitChar hn
    · simp [hn] at hc
      rcases hc with hc | hc
      · exact ih (n / 10) (Nat.div_lt_self (by omega) (by omega)) c hc
      · subst hc
        exact isDigit_digitChar (Nat.mod_lt n (by omega))

theorem digitsVal_append_one (a : Str) (c : Char) :
    digitsVal (a ++ [c]) = digitsVal a * 10 + digitVal c := by
  simp [digitsVal, List.foldl_append]

theorem digitsVal_natToStr : ∀ n, digitsVal (natToStr n) = n := by
  intro n
  induction n using Nat.strongRecOn with
  | _ n ih =>
    rw [natToStr_eq]
    by_cases hn : n < 10
    · simp [hn, digitsVal, digitVal_digitChar hn]
    · simp only [hn, if_false]
      rw [digitsVal_append_one, ih (n / 10) (Nat.div_lt_self (by omega) (by omega)),
        digitVal_digitChar (Nat.mod_lt n (by omega))]
      omega

theorem natToStr_length_le : ∀ n w, n < 10 ^ w → 1 ≤ w → (natToStr n).length ≤ w := by
  intro n
  induction n using Nat.strongRecOn with
  | _ n ih =>
    intro w hw h1
    rw [natToStr_eq]
    by_cases hn : n < 10
    · simp [hn]
      omega
    · simp only [hn, if_false, List.length_append, List.length_cons, List.length_nil]
      have hwge : 2 ≤ w := by
        by_contra hlt
        have hw1 : w = 1 := by omega
        subst hw1
        simp at hw
        omega
      have hpow : 10 ^ w = 10 ^ (w - 1) * 10 := by
        rw [← pow_succ]
        congr 1
        omega
      have hdivb : n / 10 < 10 ^ (w - 1) := Nat.div_lt_of_lt_mul (by omega)
      have := ih (n / 10) (Nat.div_lt_self (by omega) (by omega)) (w - 1) hdivb (by omega)
      omega

theorem digitsVal_zeros_prefix : ∀ k (s : Str), digitsVal (List.replicate k '0' ++ s) = digitsVal s := by
  intro k
  induction k with
  | zero => simp
  | succ k ih =>
    intro s
    simp only [List.replicate_succ, List.cons_append, digitsVal, List.foldl_cons]
    have : (0 : Nat) * 10 + digitVal '0' = 0 := by rfl
    rw [this]
    exact ih s

theorem digitsVal_padZeros (w : Nat) (s : Str) : digitsVal (padZeros w s) = digitsVal s :=
  digitsVal_zeros_prefix (w - s.length) s

theorem padZeros_length {w : Nat} {s : Str} (h : s.length ≤ w) :
    (padZeros w s).length = w := by
  simp [padZeros]
  omega

theorem padZeros_all_digits {w : Nat} {s : Str} (hs : ∀ c ∈ s, c.isDigit = true) :
    ∀ c ∈ padZeros w s, c.isDigit = true := by
  intro c hc
  rcases List.mem_append.mp hc with hc | hc
  · rw [List.eq_of_mem_replicate hc]
    rfl
  · exact hs c hc

/-! ## Number parse/print round-trip -/

/-- A remainder that cannot extend a number literal to its left: empty, or
starting with a non-digit other than `.`. -/
def goodDelim : Str → Prop
  | [] => True
  | c :: _ => c.isDigit = false ∧ c ≠ '.'

theorem goodDelim_head {rest : Str} (hd : goodDelim rest) :
    ∀ c, rest.head? = some c → c.isDigit = false := by
  intro c hc
  cases rest with
  | nil => simp at hc
  | cons x t =>
    simp at hc
    subst hc
    exact hd.1

theorem pNumAfterSign_digits (neg : Bool) (a : Nat) (rest : Str) (hd : goodDelim rest) :
    pNumAfterSign neg (natToStr a ++ rest) =
      some (.int (if neg then -(a : Int) else (a : Int)), rest) := by
  have hds : (natToStr a ++ rest).takeWhile Char.isDigit = natToStr a :=
    takeWhile_append_all _ _ _ (natToStr_all_digits a) (goodDelim_head hd)
  have hr1 : (natToStr a ++ rest).dropWhile Char.isDigit = rest := by
    apply dropWhile_append_all _ _ _ (natToStr_all_digits a) (goodDelim_head hd)
  simp only [pNumAfterSign, hds, hr1]
  rw [if_neg (by simp [List.isEmpty_iff, natToStr_ne_nil a])]
  cases rest with
  | nil => simp [digitsVal_natToStr]
  | cons c t =>
    have hcdot : c ≠ '.' := hd.2
    split
    · rename_i heq
      rw [List.cons_eq_cons] at heq
      exact absurd heq.1 hcdot
    · rw [digitsVal_natToStr]

theorem pNum_intToStr (n : Int) (rest : Str) (hd : goodDelim rest) :
    pNum (intToStr n ++ rest) = some (.int n, rest) := by
  by_cases hneg : n < 0
  · rw [show intToStr n ++ rest = '-' :: (natToStr n.natAbs ++ rest) from by
      simp [intToStr, hneg]]
    rw [show pNum ('-' :: (natToStr n.natAbs ++ rest)) =
        pNumAfterSign true (natToStr n.natAbs ++ rest) from rfl]
    rw [pNumAfterSign_digits true n.natAbs rest hd]
    have hif : (if (true : Bool) = true then -(n.natAbs : Int) else (n.natAbs : Int)) =
        -(n.natAbs : Int) := if_pos rfl
    have hval : -(n.natAbs : Int) = n := by omega
    rw [hif, hval]
  · obtain ⟨c, t, hct⟩ : ∃ c t, natToStr n.natAbs = c :: t := by
      cases h : natToStr n.natAbs with
      | nil => exact absurd h (natToStr_ne_nil _)
      | cons c t => exact ⟨c, t, rfl⟩
    have hcd : c.isDigit = true := natToStr_all_digits n.natAbs c (by rw [hct]; simp)
    have hcm : c ≠ '-' := by
      intro he
      subst he
      revert hcd
      decide
    rw [show intToStr n ++ rest = natToStr n.natAbs ++ rest from by simp [intToStr, hneg]]
    rw [hct, List.cons_append]
    rw [show pNum (c :: (t ++ rest)) = pNumAfterSign false (c :: (t ++ rest)) from by
      rw [pNum.eq_def]
      split
      · rename_i heq
        rw [List.cons_eq_cons] at heq
        exact absurd heq.1 hcm
      · rfl]
    rw [← List.cons_append, ← hct, pNumAfterSign_digits false n.natAbs rest hd]
    have hif : (if (false : Bool) = true then -(n.natAbs : Int) else (n.natAbs : Int)) =
        (n.natAbs : Int) := if_neg (by simp)
    have hval : (n.natAbs : Int) = n := by omega
    rw [hif, hval]

theorem pNumAfterSign_float (neg : Bool) (a : Nat) (w : Nat) (hw : 1 ≤ w) (rest : Str)
    (hd : goodDelim rest) :
    pNumAfterSign neg
      (natToStr (a / 10 ^ w) ++ ('.' :: padZeros w (natToStr (a % 10 ^ w)) ++ rest)) =
      some (.float ⟨if neg then -(a : Int) else (a : Int), w - 1⟩, rest) := by
  have hpow : 0 < 10 ^ w := Nat.pos_pow_of_pos w (by omega)
  have hmod : a % 10 ^ w < 10 ^ w := Nat.mod_lt a hpow
  have hflen : (natToStr (a % 10 ^ w)).length ≤ w := natToStr_length_le _ w hmod hw
  have hfdig := @padZeros_all_digits w _ (natToStr_all_digits (a % 10 ^ w))
  have hds : (natToStr (a / 10 ^ w) ++
      ('.' :: padZeros w (natToStr (a % 10 ^ w)) ++ rest)).takeWhile Char.isDigit =
      natToStr (a / 10 ^ w) := by
    apply takeWhile_append_all _ _ _ (natToStr_all_digits _)
    intro c hc
    simp at hc
    subst hc
    rfl
  have hr1 : (natToStr (a / 10 ^ w) ++
      ('.' :: padZeros w (natToStr (a % 10 ^ w)) ++ rest)).dropWhile Char.isDigit =
      '.' :: padZeros w (natToStr (a % 10 ^ w)) ++ rest := by
    apply dropWhile_append_all _ _ _ (natToStr_all_digits _)
    intro c hc
    simp at hc
    subst hc
    rfl
  have hfs : (padZeros w (natToStr (a % 10 ^ w)) ++ rest).takeWhile Char.isDigit =
      padZeros w (natToStr (a % 10 ^ w)) :=
    takeWhile_append_all _ _ _ hfdig (goodDelim_head hd)
  have hr3 : (padZeros w (natToStr (a % 10 ^ w)) ++ rest).dropWhile Char.isDigit = rest :=
    dropWhile_append_all _ _ _ hfdig (goodDelim_head hd)
  have hplen : (padZeros w (natToStr (a % 10 ^ w))).length = w := padZeros_length hflen
  have hpne : (padZeros w (natToStr (a % 10 ^ w))).isEmpty = false := by
    rw [List.isEmpty_eq_false_iff_exists_mem]
    have : 0 < (padZeros w (natToStr (a % 10 ^ w))).length := by omega
    exact List.exists_mem_of_length_pos this
  simp only [pNumAfterSign, hds, hr1]
  rw [if_neg (by simp [List.isEmpty_iff, natToStr_ne_nil _])]
  split
  · rename_i r2 heq
    injection heq with h1 h2
    subst h2
    simp only [List.append_eq]
    rw [hfs, hr3]
    simp only [hpne, Bool.false_eq_true, if_false]
    rw [digitsVal_padZeros, digitsVal_natToStr, digitsVal_natToStr, hplen]
    have hval : a / 10 ^ w * 10 ^ w + a % 10 ^ w = a := by
      rw [Nat.mul_comm]
      exact Nat.div_add_mod a (10 ^ w)
    rw [hval]
  · rename_i hne
    exact absurd rfl (hne _)

theorem pNum_floatToStr (d : PyFloat) (rest : Str) (hd : goodDelim rest) :
    pNum (floatToStr d ++ rest) = some (.float d, rest) := by
  have hkey := fun neg =>
    pNumAfterSign_float neg d.m.natAbs (d.e1 + 1) (by omega) rest hd
  by_cases hneg : d.m < 0
  · rw [show floatToStr d ++ rest = '-' :: (natToStr (d.m.natAbs / 10 ^ (d.e1 + 1)) ++
        ('.' :: padZeros (d.e1 + 1) (natToStr (d.m.natAbs % 10 ^ (d.e1 + 1))) ++ rest)) from by
      simp [floatToStr, hneg]]
    rw [show ∀ x, pNum ('-' :: x) = pNumAfterSign true x from fun x => rfl]
    rw [hkey true]
    have hif : (if (true : Bool) = true then -(d.m.natAbs : Int) else (d.m.natAbs : Int)) =
        -(d.m.natAbs : Int) := if_pos rfl
    have hval : -(d.m.natAbs : Int) = d.m := by omega
    rw [hif, hval, Nat.add_sub_cancel]
  · obtain ⟨c, t, hct⟩ : ∃ c t, natToStr (d.m.natAbs / 10 ^ (d.e1 + 1)) = c :: t := by
      cases h : natToStr (d.m.natAbs / 10 ^ (d.e1 + 1)) with
      | nil => exact absurd h (natToStr_ne_nil _)
      | cons c t => exact ⟨c, t, rfl⟩
    have hcd : c.isDigit = true := natToStr_all_digits _ c (by rw [hct]; simp)
    have hcm : c ≠ '-' := by
      intro he
      subst he
      revert hcd
      decide
    rw [show floatToStr d ++ rest = natToStr (d.m.natAbs / 10 ^ (d.e1 + 1)) ++
        ('.' :: padZeros (d.e1 + 1) (natToStr (d.m.natAbs % 10 ^ (d.e1 + 1))) ++ rest) from by
      simp [floatToStr, hneg]]
    rw [hct, List.cons_append]
    rw [show pNum (c :: (t ++ ('.' :: padZeros (d.e1 + 1)
        (natToStr (d.m.natAbs % 10 ^ (d.e1 + 1))) ++ rest))) =
        pNumAfterSign false (c :: (t ++ ('.' :: padZeros (d.e1 + 1)
        (natToStr (d.m.natAbs % 10 ^ (d.e1 + 1))) ++ rest))) from by
      rw [pNum.eq_def]
      split
      · rename_i heq
        rw [List.cons_eq_cons] at heq
        exact absurd heq.1 hcm
      · rfl]
    rw [← List.cons_append, ← hct, hkey false]
    have hif : (if (false : Bool) = true then -(d.m.natAbs : Int) else (d.m.natAbs : Int)) =
        (d.m.natAbs : Int) := if_neg (by simp)
    have hval : (d.m.natAbs : Int) = d.m := by omega
    rw [hif, hval, Nat.add_sub_cancel]

/-! ## String escape round-trip -/

theorem hexv_hexChar {x : Nat} (h : x < 16) : hexv (hexChar x) = some x := by
  interval_cases x <;> rfl

theorem escStr_cons (c : Char) (t : Str) : escStr (c :: t) = escChar c ++ escStr t := by
  simp [escStr]

set_option maxHeartbeats 1000000 in
theorem pStrBody_escStr : ∀ (s rest : Str), pStrBody (escStr s ++ '"' :: rest) = some (s, rest) := by
  intro s
  induction s with
  | nil =>
    intro rest
    rw [show escStr [] = [] from rfl, List.nil_append]
    rw [show pStrBody ('"' :: rest) = some ([], rest) from rfl]
  | cons c t ih =>
    intro rest
    rw [escStr_cons, List.append_assoc]
    by_cases h1 : c = '"'
    · subst h1
      rw [show escChar '"' = ['\\', '"'] from rfl]
      simp only [List.cons_append, List.nil_append]
      rw [show pStrBody ('\\' :: '"' :: (escStr t ++ '"' :: rest)) =
        (pStrBody (escStr t ++ '"' :: rest)).map (fun p => ('"' :: p.1, p.2)) from rfl, ih rest]
      rfl
    · by_cases h2 : c = '\\'
      · subst h2
        rw [show escChar '\\' = ['\\', '\\'] from rfl]
        simp only [List.cons_append, List.nil_append]
        rw [show pStrBody ('\\' :: '\\' :: (escStr t ++ '"' :: rest)) =
          (pStrBody (escStr t ++ '"' :: rest)).map (fun p => ('\\' :: p.1, p.2)) from rfl, ih rest]
        rfl
      · by_cases h3 : c = '\n'
        · subst h3
          rw [show escChar '\n' = ['\\', 'n'] from rfl]
          simp only [List.cons_append, List.nil_append]
          rw [show pStrBody ('\\' :: 'n' :: (escStr t ++ '"' :: rest)) =
            (pStrBody (escStr t ++ '"' :: rest)).map (fun p => ('\n' :: p.1, p.2)) from rfl, ih rest]
          rfl
        · by_cases h4 : c = '\t'
          · subst h4
            rw [show escChar '\t' = ['\\', 't'] from rfl]
            simp only [List.cons_append, List.nil_append]
            rw [show pStrBody ('\\' :: 't' :: (escStr t ++ '"' :: rest)) =
              (pStrBody (escStr t ++ '"' :: rest)).map (fun p => ('\t' :: p.1, p.2)) from rfl, ih rest]
            rfl
          · by_cases h5 : c = '\r'
            · subst h5
              rw [show escChar '\r' = ['\\', 'r'] from rfl]
              simp only [List.cons_append, List.nil_append]
              rw [show pStrBody ('\\' :: 'r' :: (escStr t ++ '"' :: rest)) =
                (pStrBody (escStr t ++ '"' :: rest)).map (fun p => ('\r' :: p.1, p.2)) from rfl,
                ih rest]
              rfl
            · by_cases h6 : c.toNat = 8
              · have hc : c = Char.ofNat 8 := by
                  rw [← h6, Char.ofNat_toNat]
                subst hc
                rw [show escChar (Char.ofNat 8) = ['\\', 'b'] from rfl]
                simp only [List.cons_append, List.nil_append]
                rw [show pStrBody ('\\' :: 'b' :: (escStr t ++ '"' :: rest)) =
                  (pStrBody (escStr t ++ '"' :: rest)).map
                    (fun p => (Char.ofNat 8 :: p.1, p.2)) from rfl, ih rest]
                rfl
              · by_cases h7 : c.toNat = 12
                · have hc : c = Char.ofNat 12 := by
                    rw [← h7, Char.ofNat_toNat]
                  subst hc
                  rw [show escChar (Char.ofNat 12) = ['\\', 'f'] from rfl]
                  simp only [List.cons_append, List.nil_append]
                  rw [show pStrBody ('\\' :: 'f' :: (escStr t ++ '"' :: rest)) =
                    (pStrBody (escStr t ++ '"' :: rest)).map
                      (fun p => (Char.ofNat 12 :: p.1, p.2)) from rfl, ih rest]
                  rfl
                · by_cases h8 : c.toNat < 32
                  · have hesc : escChar c =
                        ['\\', 'u', '0', '0', hexChar (c.toNat / 16), hexChar (c.toNat % 16)] := by
                      simp [escChar, h1, h2, h3, h4, h5, h6, h7, h8]
                    rw [hesc]
                    simp only [List.cons_append, List.nil_append]
                    rw [show ∀ X : Str,
                      pStrBody ('\\' :: 'u' :: '0' :: '0' :: hexChar (c.toNat / 16) ::
                          hexChar (c.toNat % 16) :: X) =
                        (match hexv '0', hexv '0', hexv (hexChar (c.toNat / 16)),
                            hexv (hexChar (c.toNat % 16)) with
                         | some a, some b, some g, some d =>
                           (pStrBody X).map
                             (fun p => (Char.ofNat (((a * 16 + b) * 16 + g) * 16 + d) :: p.1, p.2))
                         | _, _, _, _ => none) from fun X => rfl]
                    rw [hexv_hexChar (show c.toNat / 16 < 16 by omega),
                      hexv_hexChar (Nat.mod_lt _ (by omega)),
                      show hexv '0' = some 0 from rfl]
                    rw [ih rest]
                    have hval : ((0 * 16 + 0) * 16 + c.toNat / 16) * 16 + c.toNat % 16 =
                        c.toNat := by
                      have := Nat.div_add_mod c.toNat 16
                      omega
                    change some (Char.ofNat (((0 * 16 + 0) * 16 + c.toNat / 16) * 16 +
                      c.toNat % 16) :: t, rest) = some (c :: t, rest)
                    rw [hval, Char.ofNat_toNat]
                  · have hesc : escChar c = [c] := by
                      simp [escChar, h1, h2, h3, h4, h5, h6, h7, h8]
                    rw [hesc]
                    simp only [List.cons_append, List.nil_append]
                    rw [pStrBody.eq_2, if_neg h1, if_neg h2, ih rest]
                    rfl

/-! ## Printer/parser round-trip -/

theorem isDigit_ne_rbrack {c : Char} (h : c.isDigit = true) : c ≠ ']' := by
  intro he
  subst he
  revert h
  decide

theorem intToStr_head (n : Int) :
    ∃ c cs, intToStr n = c :: cs ∧ (c = '-' ∨ c.isDigit = true) := by
  by_cases hn : n < 0
  · exact ⟨'-', natToStr n.natAbs, by simp [intToStr, hn], Or.inl rfl⟩
  · obtain ⟨c, t, hct⟩ : ∃ c t, natToStr n.natAbs = c :: t := by
      cases h : natToStr n.natAbs with
      | nil => exact absurd h (natToStr_ne_nil _)
      | cons c t => exact ⟨c, t, rfl⟩
    exact ⟨c, t, by simp [intToStr, hn, hct],
      Or.inr (natToStr_all_digits _ c (by rw [hct]; simp))⟩

theorem floatToStr_head (d : PyFloat) :
    ∃ c cs, floatToStr d = c :: cs ∧ (c = '-' ∨ c.isDigit = true) := by
  by_cases hn : d.m < 0
  · refine ⟨'-', natToStr (d.m.natAbs / 10 ^ (d.e1 + 1)) ++
      '.' :: padZeros (d.e1 + 1) (natToStr (d.m.natAbs % 10 ^ (d.e1 + 1))), ?_, Or.inl rfl⟩
    simp [floatToStr, hn]
  · obtain ⟨c, t, hct⟩ : ∃ c t, natToStr (d.m.natAbs / 10 ^ (d.e1 + 1)) = c :: t := by
      cases h : natToStr (d.m.natAbs / 10 ^ (d.e1 + 1)) with
      | nil => exact absurd h (natToStr_ne_nil _)
      | cons c t => exact ⟨c, t, rfl⟩
    refine ⟨c, t ++ '.' :: padZeros (d.e1 + 1) (natToStr (d.m.natAbs % 10 ^ (d.e1 + 1))), ?_,
      Or.inr (natToStr_all_digits _ c (by rw [hct]; simp))⟩
    simp [floatToStr, hn, hct]

theorem jsonPrint_head_ne (v : JVal) : ∃ c cs, jsonPrint v = c :: cs ∧ c ≠ ']' := by
  cases v with
  | null => exact ⟨'n', _, rfl, by decide⟩
  | bool b =>
    cases b with
    | true => exact ⟨'t', _, rfl, by decide⟩
    | false => exact ⟨'f', _, rfl, by decide⟩
  | int n =>
    obtain ⟨c, cs, hcs, hc⟩ := intToStr_head n
    refine ⟨c, cs, hcs, ?_⟩
    rcases hc with hc | hc
    · subst hc
      decide
    · exact isDigit_ne_rbrack hc
  | float d =>
    obtain ⟨c, cs, hcs, hc⟩ := floatToStr_head d
    refine ⟨c, cs, hcs, ?_⟩
    rcases hc with hc | hc
    · subst hc
      decide
    · exact isDigit_ne_rbrack hc
  | str s => exact ⟨'"', escStr s ++ ['"'], by simp [jsonPrint, List.cons_append], by decide⟩
  | arr a => exact ⟨'[', jsonPrintItems a ++ [']'], by simp [jsonPrint, List.cons_append], by decide⟩
  | obj o =>
    exact ⟨'\x7b', jsonPrintMembers o ++ ['\x7d'], by simp [jsonPrint, List.cons_append],
      by decide⟩

theorem jsonPrint_length_pos (v : JVal) : 0 < (jsonPrint v).length := by
  obtain ⟨c, cs, hcs, -⟩ := jsonPrint_head_ne v
  rw [hcs]
  simp

theorem printItems_cons_head (x : JVal) (t : JArr) :
    ∃ c cs, jsonPrintItems (.cons x t) = c :: cs ∧ c ≠ ']' := by
  obtain ⟨c, cs0, hx, hne⟩ := jsonPrint_head_ne x
  cases t with
  | nil => exact ⟨c, cs0, by simp [jsonPrintItems, hx], hne⟩
  | cons y u =>
    exact ⟨c, cs0 ++ ',' :: jsonPrintItems (.cons y u),
      by rw [show jsonPrintItems (.cons x (.cons y u)) =
        jsonPrint x ++ ',' :: jsonPrintItems (.cons y u) from rfl, hx, List.cons_append], hne⟩

theorem printMembs_cons_head (k : String) (x : JVal) (t : JObj) :
    ∃ cs, jsonPrintMembers (.cons k x t) = '"' :: cs := by
  cases t with
  | nil =>
    exact ⟨escStr k.data ++ '"' :: ':' :: jsonPrint x,
      by simp [jsonPrintMembers, List.cons_append]⟩
  | cons k2 y u =>
    exact ⟨(escStr k.data ++ '"' :: ':' :: jsonPrint x) ++
        ',' :: jsonPrintMembers (.cons k2 y u), by
      rw [show jsonPrintMembers (.cons k x (.cons k2 y u)) =
        ('"' :: escStr k.data ++ '"' :: ':' :: jsonPrint x) ++
          ',' :: jsonPrintMembers (.cons k2 y u) from rfl]
      simp [List.cons_append]⟩

theorem jsonP_val_num (f : Nat) (c : Char) (cs : Str) (hc : c = '-' ∨ c.isDigit = true) :
    jsonP (f + 1) .val (c :: cs) = (pNum (c :: cs)).map (fun p => (.v p.1, p.2)) := by
  rw [show jsonP (f + 1) .val (c :: cs) =
    (if c = '-' ∨ c.isDigit = true then (pNum (c :: cs)).map (fun p => (POut.v p.1, p.2))
     else
       match c :: cs with
       | 'n' :: 'u' :: 'l' :: 'l' :: r => some (.v .null, r)
       | 't' :: 'r' :: 'u' :: 'e' :: r => some (.v (.bool true), r)
       | 'f' :: 'a' :: 'l' :: 's' :: 'e' :: r => some (.v (.bool false), r)
       | '"' :: r => (pStrBody r).map (fun p => (.v (.str p.1), p.2))
       | '[' :: r =>
         (match r with
          | ']' :: r2 => some (.v (.arr .nil), r2)
          | _ =>
            match jsonP f .items r with
            | some (.items a, r2) => some (.v (.arr a), r2)
            | _ => none)
       | '\x7b' :: r =>
         (match r with
          | '\x7d' :: r2 => some (.v (.obj .nil), r2)
          | _ =>
            match jsonP f .membs r with
            | some (.membs o, r2) => some (.v (.obj o), r2)
            | _ => none)
       | _ => none) from rfl]
  rw [if_pos hc]

theorem goodDelim_of (c : Char) (h1 : c.isDigit = false) (h2 : c ≠ '.') (l : Str) :
    goodDelim (c :: l) := ⟨h1, h2⟩

theorem jsonP_items_step (g : Nat) (s : Str) :
    jsonP (g + 1) .items s =
      (match jsonP g .val s with
       | some (.v x, r) =>
         (match r with
          | ',' :: r2 =>
            (match jsonP g .items r2 with
             | some (.items a, r3) => some (POut.items (.cons x a), r3)
             | _ => none)
          | ']' :: r2 => some (POut.items (.cons x .nil), r2)
          | _ => none)
       | _ => none) := rfl

theorem jsonP_membs_step (g : Nat) (s : Str) :
    jsonP (g + 1) .membs ('"' :: s) =
      (match pStrBody s with
       | some (k, ':' :: r2) =>
         (match jsonP g .val r2 with
          | some (.v x, r3) =>
            (match r3 with
             | ',' :: r4 =>
               (match jsonP g .membs r4 with
                | some (.membs o, r5) => some (POut.membs (.cons ⟨k⟩ x o), r5)
                | _ => none)
             | '\x7d' :: r4 => some (POut.membs (.cons ⟨k⟩ x .nil), r4)
             | _ => none)
          | _ => none)
       | _ => none) := rfl

mutual

theorem jsonP_print : ∀ (v : JVal) (fuel : Nat) (rest : Str),
    (jsonPrint v).length < fuel → goodDelim rest →
    jsonP fuel .val (jsonPrint v ++ rest) = some (.v v, rest)
  | v, 0, rest, hf, _ => absurd hf (Nat.not_lt_zero _)
  | .null, f + 1, rest, hf, hd => by
    rw [show jsonPrint .null ++ rest = 'n' :: 'u' :: 'l' :: 'l' :: rest from rfl]
    exact rfl
  | .bool true, f + 1, rest, hf, hd => by
    rw [show jsonPrint (.bool true) ++ rest = 't' :: 'r' :: 'u' :: 'e' :: rest from rfl]
    exact rfl
  | .bool false, f + 1, rest, hf, hd => by
    rw [show jsonPrint (.bool false) ++ rest = 'f' :: 'a' :: 'l' :: 's' :: 'e' :: rest from rfl]
    exact rfl
  | .int n, f + 1, rest, hf, hd => by
    obtain ⟨c, cs, hcs, hc⟩ := intToStr_head n
    rw [show jsonPrint (.int n) = intToStr n from rfl, hcs, List.cons_append,
      jsonP_val_num f c (cs ++ rest) hc, ← List.cons_append, ← hcs,
      pNum_intToStr n rest hd]
    rfl
  | .float d, f + 1, rest, hf, hd => by
    obtain ⟨c, cs, hcs, hc⟩ := floatToStr_head d
    rw [show jsonPrint (.float d) = floatToStr d from rfl, hcs, List.cons_append,
      jsonP_val_num f c (cs ++ rest) hc, ← List.cons_append, ← hcs,
      pNum_floatToStr d rest hd]
    rfl
  | .str s, f + 1, rest, hf, hd => by
    have h1 : jsonPrint (.str s) ++ rest = '"' :: (escStr s ++ '"' :: rest) := by
      rw [show jsonPrint (.str s) = ('"' :: escStr s) ++ ['"'] from rfl]
      simp [List.cons_append, List.append_assoc]
    rw [h1, show jsonP (f + 1) .val ('"' :: (escStr s ++ '"' :: rest)) =
      (pStrBody (escStr s ++ '"' :: rest)).map (fun p => (POut.v (.str p.1), p.2)) from rfl,
      pStrBody_escStr s rest]
    rfl
  | .arr .nil, f + 1, rest, hf, hd => by
    rw [show jsonPrint (.arr .nil) ++ rest = '[' :: ']' :: rest from rfl]
    exact rfl
  | .arr (.cons x t), f + 1, rest, hf, hd => by
    obtain ⟨c, cs0, hpi, hne⟩ := printItems_cons_head x t
    have hlen : (jsonPrintItems (.cons x t)).length + 1 < f := by
      have h2 : (jsonPrint (.arr (.cons x t))).length =
          (jsonPrintItems (.cons x t)).length + 2 := by
        rw [show jsonPrint (.arr (.cons x t)) =
          ('[' :: jsonPrintItems (.cons x t)) ++ [']'] from rfl]
        simp
      omega
    have hfull : jsonPrint (.arr (.cons x t)) ++ rest =
        '[' :: (jsonPrintItems (.cons x t) ++ ']' :: rest) := by
      rw [show jsonPrint (.arr (.cons x t)) =
        ('[' :: jsonPrintItems (.cons x t)) ++ [']'] from rfl]
      simp [List.cons_append, List.append_assoc]
    have hitems := jsonP_printItems x t f rest hlen
    have hback : c :: (cs0 ++ ']' :: rest) = jsonPrintItems (.cons x t) ++ ']' :: rest := by
      rw [hpi, List.cons_append]
    rw [hfull, hpi, List.cons_append]
    rw [show jsonP (f + 1) .val ('[' :: c :: (cs0 ++ ']' :: rest)) =
      (match c :: (cs0 ++ ']' :: rest) with
       | ']' :: r2 => some (POut.v (.arr .nil), r2)
       | _ =>
         (match jsonP f .items (c :: (cs0 ++ ']' :: rest)) with
          | some (.items a, r2) => some (.v (.arr a), r2)
          | _ => none)) from rfl]
    split
    · rename_i r2 heq
      injection heq with he _
      exact absurd he hne
    · rw [hback, hitems]
  | .obj .nil, f + 1, rest, hf, hd => by
    rw [show jsonPrint (.obj .nil) ++ rest = '\x7b' :: '\x7d' :: rest from rfl]
    exact rfl
  | .obj (.cons k x t), f + 1, rest, hf, hd => by
    obtain ⟨cs0, hpm⟩ := printMembs_cons_head k x t
    have hlen : (jsonPrintMembers (.cons k x t)).length + 1 < f := by
      have h2 : (jsonPrint (.obj (.cons k x t))).length =
          (jsonPrintMembers (.cons k x t)).length + 2 := by
        rw [show jsonPrint (.obj (.cons k x t)) =
          ('\x7b' :: jsonPrintMembers (.cons k x t)) ++ ['\x7d'] from rfl]
        simp
      omega
    have hfull : jsonPrint (.obj (.cons k x t)) ++ rest =
        '\x7b' :: (jsonPrintMembers (.cons k x t) ++ '\x7d' :: rest) := by
      rw [show jsonPrint (.obj (.cons k x t)) =
        ('\x7b' :: jsonPrintMembers (.cons k x t)) ++ ['\x7d'] from rfl]
      simp [List.cons_append, List.append_assoc]
    have hmembs := jsonP_printMembs k x t f rest hlen
    rw [hfull, hpm, List.cons_append]
    rw [show jsonP (f + 1) .val ('\x7b' :: '"' :: (cs0 ++ '\x7d' :: rest)) =
      (match jsonP f .membs ('"' :: (cs0 ++ '\x7d' :: rest)) with
       | some (.membs o, r2) => some (POut.v (.obj o), r2)
       | _ => none) from rfl]
    have hback : '"' :: (cs0 ++ '\x7d' :: rest) =
        jsonPrintMembers (.cons k x t) ++ '\x7d' :: rest := by
      rw [hpm, List.cons_append]
    rw [hback, hmembs]

theorem jsonP_printItems : ∀ (x : JVal) (t : JArr) (fuel : Nat) (rest : Str),
    (jsonPrintItems (.cons x t)).length + 1 < fuel →
    jsonP fuel .items (jsonPrintItems (.cons x t) ++ ']' :: rest) =
      some (.items (.cons x t), rest)
  | x, t, 0, rest, hf => absurd hf (Nat.not_lt_zero _)
  | x, .nil, g + 1, rest, hf => by
    have hx : (jsonPrint x).length < g := by
      have h1 : jsonPrintItems (.cons x .nil) = jsonPrint x := rfl
      rw [h1] at hf
      omega
    rw [show jsonPrintItems (.cons x .nil) = jsonPrint x from rfl, jsonP_items_step,
      jsonP_print x g (']' :: rest) hx (goodDelim_of ']' (by decide) (by decide) rest)]
    rfl
  | x, .cons y u, g + 1, rest, hf => by
    have hl : (jsonPrintItems (.cons x (.cons y u))).length =
        (jsonPrint x).length + 1 + (jsonPrintItems (.cons y u)).length := by
      show (jsonPrint x ++ ',' :: jsonPrintItems (.cons y u)).length =
        (jsonPrint x).length + 1 + (jsonPrintItems (.cons y u)).length
      simp only [List.length_append, List.length_cons]
      omega
    rw [hl] at hf
    have hxpos := jsonPrint_length_pos x
    have hxlen : (jsonPrint x).length < g := by omega
    have htlen : (jsonPrintItems (.cons y u)).length + 1 < g := by omega
    have hsplit : jsonPrintItems (.cons x (.cons y u)) ++ ']' :: rest =
        jsonPrint x ++ (',' :: (jsonPrintItems (.cons y u) ++ ']' :: rest)) := by
      rw [show jsonPrintItems (.cons x (.cons y u)) =
        jsonPrint x ++ ',' :: jsonPrintItems (.cons y u) from rfl]
      simp [List.append_assoc]
    rw [hsplit, jsonP_items_step,
      jsonP_print x g (',' :: (jsonPrintItems (.cons y u) ++ ']' :: rest)) hxlen
        (goodDelim_of ',' (by decide) (by decide) _)]
    show (match jsonP g .items (jsonPrintItems (.cons y u) ++ ']' :: rest) with
          | some (.items a, r3) => some (POut.items (.cons x a), r3)
          | _ => none) = some (.items (.cons x (.cons y u)), rest)
    rw [jsonP_printItems y u g rest htlen]

theorem jsonP_printMembs : ∀ (k : String) (x : JVal) (t : JObj) (fuel : Nat) (rest : Str),
    (jsonPrintMembers (.cons k x t)).length + 1 < fuel →
    jsonP fuel .membs (jsonPrintMembers (.cons k x t) ++ '\x7d' :: rest) =
      some (.membs (.cons k x t), rest)
  | k, x, t, 0, rest, hf => absurd hf (Nat.not_lt_zero _)
  | k, x, .nil, g + 1, rest, hf => by
    have hl : (jsonPrintMembers (.cons k x .nil)).length =
        (escStr k.data).length + 3 + (jsonPrint x).length := by
      show (('"' :: escStr k.data) ++ '"' :: ':' :: jsonPrint x).length =
        (escStr k.data).length + 3 + (jsonPrint x).length
      simp only [List.length_append, List.length_cons]
      omega
    rw [hl] at hf
    have hxlen : (jsonPrint x).length < g := by omega
    have hfull : jsonPrintMembers (.cons k x .nil) ++ '\x7d' :: rest =
        '"' :: (escStr k.data ++ '"' :: (':' :: (jsonPrint x ++ '\x7d' :: rest))) := by
      rw [show jsonPrintMembers (.cons k x .nil) =
        ('"' :: escStr k.data) ++ '"' :: ':' :: jsonPrint x from rfl]
      simp [List.cons_append, List.append_assoc]
    rw [hfull, jsonP_membs_step,
      pStrBody_escStr k.data (':' :: (jsonPrint x ++ '\x7d' :: rest))]
    show (match jsonP g .val (jsonPrint x ++ '\x7d' :: rest) with
          | some (.v x0, r3) =>
            (match r3 with
             | ',' :: r4 =>
               (match jsonP g .membs r4 with
                | some (.membs o, r5) => some (POut.membs (.cons ⟨k.data⟩ x0 o), r5)
                | _ => none)
             | '\x7d' :: r4 => some (POut.membs (.cons ⟨k.data⟩ x0 .nil), r4)
             | _ => none)
          | _ => none) = some (.membs (.cons k x .nil), rest)
    rw [jsonP_print x g ('\x7d' :: rest) hxlen (goodDelim_of '\x7d' (by decide) (by decide) rest)]
    rfl
  | k, x, .cons k2 y u, g + 1, rest, hf => by
    have hl : (jsonPrintMembers (.cons k x (.cons k2 y u))).length =
        (escStr k.data).length + 4 + (jsonPrint x).length +
          (jsonPrintMembers (.cons k2 y u)).length := by
      show ((('"' :: escStr k.data) ++ '"' :: ':' :: jsonPrint x) ++
          ',' :: jsonPrintMembers (.cons k2 y u)).length =
        (escStr k.data).length + 4 + (jsonPrint x).length +
          (jsonPrintMembers (.cons k2 y u)).length
      simp only [List.length_append, List.length_cons]
      omega
    rw [hl] at hf
    have hxlen : (jsonPrint x).length < g := by omega
    have hxpos := jsonPrint_length_pos x
    have htlen : (jsonPrintMembers (.cons k2 y u)).length + 1 < g := by omega
    have hfull : jsonPrintMembers (.cons k x (.cons k2 y u)) ++ '\x7d' :: rest =
        '"' :: (escStr k.data ++ '"' :: (':' :: (jsonPrint x ++
          (',' :: (jsonPrintMembers (.cons k2 y u) ++ '\x7d' :: rest))))) := by
      rw [show jsonPrintMembers (.cons k x (.cons k2 y u)) =
        (('"' :: escStr k.data) ++ '"' :: ':' :: jsonPrint x) ++
          ',' :: jsonPrintMembers (.cons k2 y u) from rfl]
      simp [List.cons_append, List.append_assoc]
    rw [hfull, jsonP_membs_step,
      pStrBody_escStr k.data (':' :: (jsonPrint x ++
        (',' :: (jsonPrintMembers (.cons k2 y u) ++ '\x7d' :: rest))))]
    show (match jsonP g .val (jsonPrint x ++
            (',' :: (jsonPrintMembers (.cons k2 y u) ++ '\x7d' :: rest))) with
          | some (.v x0, r3) =>
            (match r3 with
             | ',' :: r4 =>
               (match jsonP g .membs r4 with
                | some (.membs o, r5) => some (POut.membs (.cons ⟨k.data⟩ x0 o), r5)
                | _ => none)
             | '\x7d' :: r4 => some (POut.membs (.cons ⟨k.data⟩ x0 .nil), r4)
             | _ => none)
          | _ => none) = some (.membs (.cons k x (.cons k2 y u)), rest)
    rw [jsonP_print x g (',' :: (jsonPrintMembers (.cons k2 y u) ++ '\x7d' :: rest)) hxlen
      (goodDelim_of ',' (by decide) (by decide) _)]
    show (match jsonP g .membs (jsonPrintMembers (.cons k2 y u) ++ '\x7d' :: rest) with
          | some (.membs o, r5) => some (POut.membs (.cons ⟨k.data⟩ x o), r5)
          | _ => none) = some (.membs (.cons k x (.cons k2 y u)), rest)
    rw [jsonP_printMembs k2 y u g rest htlen]

end

/-- Round trip at the top level: `json.loads (json.dumps v)` recovers `v`. -/
theorem jsonParse_print (v : JVal) : jsonParse (jsonPrint v) = some v := by
  have h1 : (jsonPrint v).length < 2 * (jsonPrint v).length + 2 := by omega
  have h2 := jsonP_print v (2 * (jsonPrint v).length + 2) [] h1 trivial
  rw [List.append_nil] at h2
  rw [jsonParse, h2]
  rfl

/-! ## Inversion and association-list lemmas -/

theorem except_bind_ok {α β : Type} {x : Except PyErr α} {f : α → Except PyErr β} {b : β}
    (h : x >>= f = .ok b) : ∃ a, x = .ok a ∧ f a = .ok b := by
  cases x with
  | error e => simp [Bind.bind, Except.bind] at h
  | ok a => exact ⟨a, rfl, by simpa [Bind.bind, Except.bind] using h⟩

theorem alGet_mem {κ α : Type} [DecidableEq κ] :
    ∀ (d : List (κ × α)) {k : κ} {v : α}, alGet d k = some v → (k, v) ∈ d := by
  intro d
  induction d with
  | nil => intro k v h; simp [alGet] at h
  | cons kv rest ih =>
    intro k v h
    obtain ⟨k0, v0⟩ := kv
    by_cases hk : k0 = k
    · subst hk
      rw [alGet, if_pos rfl] at h
      injection h with h
      subst h
      exact List.mem_cons_self _ _
    · rw [alGet, if_neg hk] at h
      exact List.mem_cons_of_mem _ (ih h)

theorem mem_alSet {κ α : Type} [DecidableEq κ] :
    ∀ (d : List (κ × α)) (k : κ) (v : α) (kv : κ × α),
      kv ∈ alSet d k v → kv = (k, v) ∨ kv ∈ d := by
  intro d
  induction d with
  | nil => intro k v kv h; simp [alSet] at h; exact Or.inl h
  | cons kv0 rest ih =>
    intro k v kv h
    obtain ⟨k0, v0⟩ := kv0
    rw [alSet] at h
    by_cases hk : k0 = k
    · rw [if_pos hk] at h
      rcases List.mem_cons.mp h with h | h
      · exact Or.inl (by rw [h, hk])
      · exact Or.inr (List.mem_cons_of_mem _ h)
    · rw [if_neg hk] at h
      rcases List.mem_cons.mp h with h | h
      · exact Or.inr (by rw [h]; exact List.mem_cons_self _ _)
      · rcases ih k v kv h with h | h
        · exact Or.inl h
        · exact Or.inr (List.mem_cons_of_mem _ h)

theorem alGet_alSet_self {κ α : Type} [DecidableEq κ] :
    ∀ (d : List (κ × α)) (k : κ) (v : α), alGet (alSet d k v) k = some v := by
  intro d
  induction d with
  | nil => intro k v; simp [alSet, alGet]
  | cons kv0 rest ih =>
    intro k v
    obtain ⟨k0, v0⟩ := kv0
    rw [alSet]
    by_cases hk : k0 = k
    · rw [if_pos hk, alGet, if_pos hk]
    · rw [if_neg hk, alGet, if_neg hk]
      exact ih k v

theorem alGet_alSet_ne {κ α : Type} [DecidableEq κ] :
    ∀ (d : List (κ × α)) (k0 k : κ) (v : α), k0 ≠ k →
      alGet (alSet d k0 v) k = alGet d k := by
  intro d
  induction d with
  | nil => intro k0 k v hne; simp [alSet, alGet, if_neg hne]
  | cons kv0 rest ih =>
    intro k0 k v hne
    obtain ⟨k1, v1⟩ := kv0
    rw [alSet]
    by_cases hk : k1 = k0
    · subst hk
      rw [if_pos rfl, alGet, alGet, if_neg hne, if_neg hne]
    · rw [if_neg hk, alGet, alGet]
      by_cases hk1 : k1 = k
      · rw [if_pos hk1, if_pos hk1]
      · rw [if_neg hk1, if_neg hk1]
        exact ih k0 k v hne

theorem alGet_filter_none {κ α : Type} [DecidableEq κ] (p : κ × α → Bool) :
    ∀ (d : List (κ × α)) (k : κ), alGet d k = none → alGet (d.filter p) k = none := by
  intro d
  induction d with
  | nil => intro k _; simp [alGet]
  | cons kv0 rest ih =>
    intro k h
    obtain ⟨k0, v0⟩ := kv0
    rw [alGet] at h
    by_cases hk : k0 = k
    · rw [if_pos hk] at h; exact absurd h (by simp)
    · rw [if_neg hk] at h
      rw [List.filter]
      cases hp : p (k0, v0) with
      | true => rw [alGet, if_neg hk]; exact ih k h
      | false => exact ih k h

theorem alGet_filter_pos {κ α : Type} [DecidableEq κ] (p : κ × α → Bool) :
    ∀ (d : List (κ × α)) (k : κ) (v : α), alGet d k = some v → p (k, v) = true →
      alGet (d.filter p) k = some v := by
  intro d
  induction d with
  | nil => intro k v h _; simp [alGet] at h
  | cons kv0 rest ih =>
    intro k v h hp
    obtain ⟨k0, v0⟩ := kv0
    rw [alGet] at h
    by_cases hk : k0 = k
    · rw [if_pos hk] at h
      injection h with h
      subst h; subst hk
      rw [List.filter, hp, alGet, if_pos rfl]
    · rw [if_neg hk] at h
      rw [List.filter]
      cases hq : p (k0, v0) with
      | true => rw [alGet, if_neg hk]; exact ih k v h hp
      | false => exact ih k v h hp

theorem keepVal_of_truthy {v : JVal} (h : pyTruthy v = true) : keepVal v = true := by
  cases v with
  | null => simp [pyTruthy] at h
  | str s => cases s with
    | nil => simp [pyTruthy, List.isEmpty] at h
    | cons c t => rfl
  | bool b => rfl
  | int n => rfl
  | float d => rfl
  | arr a => rfl
  | obj o => rfl

theorem keepVal_ne {v : JVal} (h : keepVal v = true) : v ≠ .null ∧ v ≠ .str [] := by
  refine ⟨fun hv => ?_, fun hv => ?_⟩ <;> (subst hv; simp [keepVal] at h)

/-! ## Availability mappers (C10) -/

theorem map_google_availability_mem (status : Str) :
    map_google_availability status ∈
      ["in_stock".data, "out_of_stock".data, "preorder".data, "backorder".data] := by
  simp only [map_google_availability, alGetD, googleAvailabilityMap, alGet]
  split_ifs <;> simp [Option.getD]

/-- C10: the shopping-search availability mapper always lands in Google's
four-value enum; any status whose uppercasing is outside its lookup table —
the empty string included — maps to `out_of_stock`, whereas the
assistant-commerce mapper sends statuses outside its own table to
`unknown`. -/
theorem availability_mapper_total : ∀ status : Str,
    (map_google_availability status ∈
      ["in_stock".data, "out_of_stock".data, "preorder".data, "backorder".data]) ∧
    (alGet googleAvailabilityMap (upperS status) = none →
      map_google_availability status = "out_of_stock".data) ∧
    map_google_availability [] = "out_of_stock".data ∧
    (alGet availabilityMap (upperS status) = none →
      map_availability status = "unknown".data) := by
  intro status
  refine ⟨map_google_availability_mem status, fun h => ?_, by rfl, fun h => ?_⟩
  · simp [map_google_availability, alGetD, h]
  · simp [map_availability, alGetD, h]

/-! ## Classification lemmas -/

theorem pyIsPreowned_bool {o : JObj} {b : Bool} (h : o.find "isPreOwned" = some (.bool b)) :
    pyIsPreowned (.obj o) = .error .attributeError := by
  simp [pyIsPreowned, h, pyLower, Bind.bind, Except.bind, Pure.pure, Except.pure]

theorem detect_of_preowned_err {specs : JVal} {e : PyErr} (row : Row)
    (h : pyIsPreowned specs = .error e) :
    detect_product_type row specs = .error e := by
  simp [detect_product_type, h, Bind.bind, Except.bind]

theorem detect_mem {row : Row} {specs : JVal} {t : Str}
    (h : detect_product_type row specs = .ok t) : t ∈ productTypes := by
  unfold detect_product_type at h
  obtain ⟨b, _, h⟩ := except_bind_ok h
  split at h
  · simp only [pure, Except.pure, Except.ok.injEq] at h
    simp [productTypes, ← h]
  · split at h
    · simp only [pure, Except.pure, Except.ok.injEq] at h
      simp [productTypes, ← h]
    · split at h
      · simp only [pure, Except.pure, Except.ok.injEq] at h
        simp [productTypes, ← h]
      · split at h <;>
          (simp only [pure, Except.pure, Except.ok.injEq] at h; simp [productTypes, ← h])

theorem detect_ok_preowned {row : Row} {specs : JVal} {t : Str}
    (h : detect_product_type row specs = .ok t) : ∃ b, pyIsPreowned specs = .ok b := by
  unfold detect_product_type at h
  obtain ⟨b, hb, _⟩ := except_bind_ok h
  exact ⟨b, hb⟩

theorem detect_jewelry {row : Row} {specs : JVal} {b : Bool}
    (hb : pyIsPreowned specs = .ok b)
    (hc : substr "jewelry".data (lowerS (rowGetD row "category" [])) = true) :
    detect_product_type row specs = .ok "jewelry".data := by
  simp [detect_product_type, hb, hc, Bind.bind, Except.bind, pure, Except.pure]

theorem openai_detect_err {row : Row} {e : PyErr}
    (hg : ¬(rowGet row "call_for_price" = some "true".data ∨ rowGet row "online" ≠ some "1".data))
    (hd : detect_product_type row (parse_json_field (rowGetD row "specifications" [])) = .error e) :
    transform_row_to_openai row = .error e := by
  simp [transform_row_to_openai, hg, hd, Bind.bind, Except.bind]

/-- C4: when the pre-owned flag read succeeds the classifier lands in the five
product types, and the jewelry category check precedes the brand/condition
checks: a pre-owned Rolex whose category mentions jewelry classifies as
jewelry.  Totality as claimed fails on a JSON-boolean pre-owned flag, which
raises before any rule fires (see the counterexample). -/
theorem classification_range_and_precedence :
    (∀ (row : Row) (specs : JVal) (t : Str),
      detect_product_type row specs = .ok t → t ∈ productTypes) ∧
    (∀ (row : Row) (specs : JVal) (b : Bool),
      pyIsPreowned specs = .ok b →
      substr "jewelry".data (lowerS (rowGetD row "category" [])) = true →
      lowerS (rowGetD row "brand" []) = "rolex".data → b = true →
      detect_product_type row specs = .ok "jewelry".data) :=
  ⟨fun _ _ _ h => detect_mem h, fun _ _ _ hb hc _ _ => detect_jewelry hb hc⟩

/-- C4 witness: a pre-owned Rolex jewelry item classifies as jewelry. -/
theorem classification_range_and_precedence_witness :
    detect_product_type [("category", "fine jewelry".data), ("brand", "Rolex".data)]
      (.obj (.cons "isPreOwned" (.str "true".data) .nil)) = .ok "jewelry".data :=
  classification_range_and_precedence.2 _ _ true (by rfl) (by decide) (by decide) rfl

/-- C4 counterexample: classification is not total — a decoded specifications
dict whose pre-owned flag is the JSON boolean `true` makes the classifier
raise `AttributeError` instead of returning a product type. -/
theorem classification_raises_example :
    detect_product_type [] specsBool = .error .attributeError := by rfl

/-- C7: a JSON-boolean pre-owned flag does not fail the comparison quietly:
the `.lower()` call raises `AttributeError`, classification raises rather
than resolving, and on a row that passes the gate the feed loop catches the
exception, emitting no record and counting the row as skipped and errored. -/
theorem preowned_bool_raises : ∀ (row : Row) (o : JObj) (b : Bool),
    parse_json_field (rowGetD row "specifications" []) = .obj o →
    o.find "isPreOwned" = some (.bool b) →
    pyIsPreowned (.obj o) = .error .attributeError ∧
    detect_product_type row (.obj o) = .error .attributeError ∧
    (¬(rowGet row "call_for_price" = some "true".data ∨ rowGet row "online" ≠ some "1".data) →
      transform_row_to_openai row = .error .attributeError ∧
      ∀ stats : RunStats, feedStepOpenai stats row =
        ⟨stats.total_rows + 1, stats.transformed, stats.skipped + 1, stats.errors + 1⟩) := by
  intro row o b hs hf
  have hp := pyIsPreowned_bool hf
  have hd := detect_of_preowned_err row hp
  refine ⟨hp, hd, fun hg => ?_⟩
  have ht : transform_row_to_openai row = .error .attributeError :=
    openai_detect_err hg (by rw [hs]; exact hd)
  refine ⟨ht, fun stats => ?_⟩
  simp [feedStepOpenai, ht]

/-- C7 witness: the boolean-flag row raises and is counted skipped+errored. -/
theorem preowned_bool_raises_witness :
    transform_row_to_openai rowB = .error .attributeError ∧
    feedStepOpenai ⟨0, 0, 0, 0⟩ rowB = ⟨1, 0, 1, 1⟩ := by
  have h := preowned_bool_raises rowB (.cons "isPreOwned" (.bool true) .nil) true
    (by rfl) (by rfl)
  have h2 := h.2.2 (by decide)
  exact ⟨h2.1, h2.2 ⟨0, 0, 0, 0⟩⟩

/-- C7 counterexample: the record is not processed as not-pre-owned — the
transformer raises `AttributeError` on the boolean-flag row. -/
theorem preowned_bool_transform_example :
    transform_row_to_openai rowB = .error .attributeError := by rfl

/-! ## Gate and price-skip lemmas (C1) -/

theorem PyFloat.toRat_nonpos {d : PyFloat} : d.toRat ≤ 0 ↔ d.m ≤ 0 := by
  unfold PyFloat.toRat
  rw [div_nonpos_iff]
  constructor
  · rintro (⟨h1, h2⟩ | ⟨h1, _⟩)
    · exfalso
      have hpos : (0 : ℚ) < 10 ^ (d.e1 + 1) := by positivity
      linarith
    · exact_mod_cast h1
  · intro h
    right
    exact ⟨by exact_mod_cast h, by positivity⟩

theorem openai_gate_skip {row : Row}
    (hg : rowGet row "call_for_price" = some "true".data ∨ rowGet row "online" ≠ some "1".data) :
    transform_row_to_openai row = .ok none := by
  simp [transform_row_to_openai, hg, Pure.pure, Except.pure]

theorem google_gate_skip {row : Row}
    (hg : rowGet row "call_for_price" = some "true".data ∨ rowGet row "online" ≠ some "1".data) :
    transform_row_to_google row = .ok none := by
  simp [transform_row_to_google, hg, Pure.pure, Except.pure]

theorem openai_price_skip {row : Row}
    (hg : ¬(rowGet row "call_for_price" = some "true".data ∨ rowGet row "online" ≠ some "1".data))
    (hp : (extract_price (rowGetD row "price" []) (rowGetD row "book_price" [])).1.m ≤ 0) :
    transform_row_to_openai row = .ok none ∨
      ∃ e, transform_row_to_openai row = .error e := by
  unfold transform_row_to_openai
  rw [if_neg hg]
  cases hdet : detect_product_type row (parse_json_field (rowGetD row "specifications" [])) with
  | error e => exact Or.inr ⟨e, by simp [hdet, Bind.bind, Except.bind]⟩
  | ok pt => exact Or.inl (by simp [hdet, Bind.bind, Except.bind, hp, Pure.pure, Except.pure])

theorem google_price_skip {row : Row}
    (hg : ¬(rowGet row "call_for_price" = some "true".data ∨ rowGet row "online" ≠ some "1".data))
    (hp : (extract_price (rowGetD row "price" []) (rowGetD row "book_price" [])).1.m ≤ 0) :
    transform_row_to_google row = .ok none ∨
      ∃ e, transform_row_to_google row = .error e := by
  unfold transform_row_to_google
  rw [if_neg hg]
  cases hdet : detect_product_type row (parse_json_field (rowGetD row "specifications" [])) with
  | error e => exact Or.inr ⟨e, by simp [hdet, Bind.bind, Except.bind]⟩
  | ok pt =>
    cases hpre : pyIsPreowned (parse_json_field (rowGetD row "specifications" [])) with
    | error e => exact Or.inr ⟨e, by simp [hdet, hpre, Bind.bind, Except.bind]⟩
    | ok b =>
      exact Or.inl (by simp [hdet, hpre, Bind.bind, Except.bind, hp, Pure.pure, Except.pure])

/-- C1: a row flagged call-for-price, or not flagged online, or whose
extracted price is nonpositive, yields no record from either transformer
variant; its row increments the skip counter by exactly one and leaves the
transformed counter unchanged. -/
theorem skip_gate_counts : ∀ (row : Row) (stats : RunStats),
    ((rowGet row "call_for_price" = some "true".data ∨ rowGet row "online" ≠ some "1".data) ∨
      (extract_price (rowGetD row "price" []) (rowGetD row "book_price" [])).1.toRat ≤ 0) →
    ((∀ p, transform_row_to_openai row ≠ .ok (some p)) ∧
      (feedStepOpenai stats row).transformed = stats.transformed ∧
      (feedStepOpenai stats row).skipped = stats.skipped + 1) ∧
    ((∀ p, transform_row_to_google row ≠ .ok (some p)) ∧
      (feedStepGoogle stats row).transformed = stats.transformed ∧
      (feedStepGoogle stats row).skipped = stats.skipped + 1) := by
  intro row stats hcond
  have hO : transform_row_to_openai row = .ok none ∨
      ∃ e, transform_row_to_openai row = .error e := by
    by_cases hg : rowGet row "call_for_price" = some "true".data ∨
        rowGet row "online" ≠ some "1".data
    · exact Or.inl (openai_gate_skip hg)
    · exact openai_price_skip hg (PyFloat.toRat_nonpos.mp (hcond.resolve_left hg))
  have hG : transform_row_to_google row = .ok none ∨
      ∃ e, transform_row_to_google row = .error e := by
    by_cases hg : rowGet row "call_for_price" = some "true".data ∨
        rowGet row "online" ≠ some "1".data
    · exact Or.inl (google_gate_skip hg)
    · exact google_price_skip hg (PyFloat.toRat_nonpos.mp (hcond.resolve_left hg))
  constructor
  · rcases hO with h | ⟨e, h⟩ <;>
      refine ⟨fun p hp => by simp [h] at hp, ?_, ?_⟩ <;>
      simp [feedStepOpenai, h]
  · rcases hG with h | ⟨e, h⟩ <;>
      refine ⟨fun p hp => by simp [h] at hp, ?_, ?_⟩ <;>
      simp [feedStepGoogle, h]

/-- C1 witness: a call-for-price row and a zero-price row are both skipped by
both variants. -/
theorem skip_gate_counts_witness :
    (feedStepOpenai ⟨0, 0, 0, 0⟩ (("call_for_price", "true".data) :: rowE)).skipped = 1 ∧
    (feedStepGoogle ⟨0, 0, 0, 0⟩ (("price", "0".data) :: rowE)).skipped = 1 := by
  have h1 := skip_gate_counts (("call_for_price", "true".data) :: rowE) ⟨0, 0, 0, 0⟩
    (Or.inl (Or.inl (by rfl)))
  have h2 := skip_gate_counts (("price", "0".data) :: rowE) ⟨0, 0, 0, 0⟩
    (Or.inr (by
      have h : (extract_price (rowGetD (("price", "0".data) :: rowE) "price" [])
          (rowGetD (("price", "0".data) :: rowE) "book_price" [])).1 = ⟨0, 0⟩ := by rfl
      rw [h]
      norm_num [PyFloat.toRat]))
  exact ⟨h1.1.2.2, h2.2.2.2⟩

/-! ## Q&A floor lemmas (C3) -/

theorem fallbackPairs_len (brand : Str) : 2 ≤ (fallbackPairs brand).length := by
  unfold fallbackPairs
  cases brand <;> simp

theorem joinSep_ne_nil_of_two {sep : Str} (hs : sep ≠ []) :
    ∀ {l : List Str}, 2 ≤ l.length → joinSep sep l ≠ []
  | a :: b :: t, _ => by
    rw [show joinSep sep (a :: b :: t) = a ++ sep ++ joinSep sep (b :: t) from rfl]
    intro hc
    rcases List.append_eq_nil.mp hc with ⟨hc1, _⟩
    exact hs (List.append_eq_nil.mp hc1).2

theorem bind_err {α β : Type} (e : PyErr) (f : α → Except PyErr β) :
    (Except.error e >>= f) = Except.error e := rfl

theorem bind_ok {α β : Type} (a : α) (f : α → Except PyErr β) :
    (Except.ok a >>= f) = f a := rfl

theorem pure_ok {α : Type} (a : α) : (pure a : Except PyErr α) = Except.ok a := rfl

theorem floor_assemble {A B C D T fb : List Str} {r : Str} (hfb : 2 ≤ fb.length) :
    3 ≤ (if (A ++ B ++ C ++ D ++ [r] ++ T).length < 3
         then (A ++ B ++ C ++ D ++ [r] ++ T) ++ fb
         else A ++ B ++ C ++ D ++ [r] ++ T).length := by
  by_cases hlt : (A ++ B ++ C ++ D ++ [r] ++ T).length < 3
  · rw [if_pos hlt, List.length_append]
    simp only [List.length_append, List.length_cons, List.length_nil]
    omega
  · rw [if_neg hlt]
    omega

theorem qa_pairs_floor {row : Row} {specs : JVal} {pt : Str} {l : List Str}
    (h : build_q_and_a_pairs row specs pt = .ok l) : 3 ≤ l.length := by
  unfold build_q_and_a_pairs at h
  cases hip : pyIsPreowned specs with
  | error e =>
    rw [hip, bind_err] at h
    exact absurd h (by simp)
  | ok ip =>
    simp only [hip, bind_ok] at h
    by_cases hc1 : pt = "new_watch".data ∨ pt = "rolex_cpo".data ∨ pt = "preowned_watch".data
    · rw [if_pos hc1] at h
      cases hw : watchPairs specs pt with
      | error e =>
        rw [hw, bind_err] at h
        exact absurd h (by simp)
      | ok tp =>
        simp only [hw, bind_ok, pure_ok, Except.ok.injEq] at h
        subst h
        exact floor_assemble (fallbackPairs_len _)
    · rw [if_neg hc1] at h
      by_cases hc2 : pt = "jewelry".data
      · rw [if_pos hc2] at h
        simp only [bind_ok, pure_ok, Except.ok.injEq] at h
        subst h
        exact floor_assemble (fallbackPairs_len _)
      · rw [if_neg hc2] at h
        by_cases hc3 : pt = "handbag".data
        · rw [if_pos hc3] at h
          simp only [bind_ok, pure_ok, Except.ok.injEq] at h
          subst h
          exact floor_assemble (fallbackPairs_len _)
        · rw [if_neg hc3] at h
          simp only [bind_ok, pure_ok, Except.ok.injEq] at h
          subst h
          exact floor_assemble (fallbackPairs_len _)

/-- C3: whenever the Q&A synthesizer returns, it returns at least three
question/answer pairs and a nonempty joined text; the unconditional form of
the claim fails because the box/papers flag reads can raise on non-string
specification values (see the counterexample). -/
theorem qa_min_three_pairs : ∀ (row : Row) (specs : JVal) (pt : Str),
    (∀ l, build_q_and_a_pairs row specs pt = .ok l → 3 ≤ l.length) ∧
    (∀ s, build_q_and_a row specs pt = .ok s → s ≠ []) := by
  intro row specs pt
  refine ⟨fun l h => qa_pairs_floor h, fun s h => ?_⟩
  simp only [build_q_and_a, Bind.bind] at h
  obtain ⟨pairs, hp, h⟩ := except_bind_ok h
  simp only [Pure.pure, Except.pure, Except.ok.injEq] at h
  subst h
  exact joinSep_ne_nil_of_two (by decide) (by have := qa_pairs_floor hp; omega)

/-- C3 witness: on an empty row with empty specifications, classified
new-watch, the synthesizer returns at least three pairs and nonempty text. -/
theorem qa_min_three_pairs_witness :
    (∃ l, build_q_and_a_pairs [] (.obj .nil) "new_watch".data = .ok l ∧ 3 ≤ l.length) ∧
    (∃ s, build_q_and_a [] (.obj .nil) "new_watch".data = .ok s ∧ s ≠ []) := by
  have hok : ∃ l, build_q_and_a_pairs [] (.obj .nil) "new_watch".data = .ok l := by
    cases h : build_q_and_a_pairs [] (.obj .nil) "new_watch".data with
    | error e => exact absurd h (by rw [show build_q_and_a_pairs [] (.obj .nil)
        "new_watch".data = .ok ((build_q_and_a_pairs [] (.obj .nil)
        "new_watch".data).toOption.getD []) from by rfl]; simp)
    | ok l => exact ⟨l, rfl⟩
  obtain ⟨l, hl⟩ := hok
  have hs : build_q_and_a [] (.obj .nil) "new_watch".data = .ok (joinSep "\n\n".data l) := by
    simp [build_q_and_a, hl, Bind.bind, Except.bind, Pure.pure, Except.pure]
  exact ⟨⟨l, hl, (qa_min_three_pairs [] (.obj .nil) "new_watch".data).1 l hl⟩,
    ⟨joinSep "\n\n".data l, hs,
      (qa_min_three_pairs [] (.obj .nil) "new_watch".data).2 _ hs⟩⟩

/-- C3 counterexample: the synthesizer does not always produce pairs — a
specifications dict whose `hasBox` value is the JSON number `1` makes the
box-flag read raise `AttributeError`. -/
theorem qa_raises_example :
    build_q_and_a [] specsC3 "new_watch".data = .error .attributeError := by rfl

/-! ## Value-preservation step lemmas for the record-building chains -/

theorem mem_ite_set {c : Prop} [Decidable c] {d : Dict} {k : String} {w : JVal}
    {kv : String × JVal} (h : kv ∈ (if c then alSet d k w else d)) :
    kv.1 = k ∨ kv ∈ d := by
  split at h
  · rcases mem_alSet _ _ _ _ h with heq | h
    · exact Or.inl (by rw [heq])
    · exact Or.inr h
  · exact Or.inr h

theorem mem_ite_set2 {c : Prop} [Decidable c] {d : Dict} {k1 k2 : String} {w1 w2 : JVal}
    {kv : String × JVal} (h : kv ∈ (if c then alSet (alSet d k1 w1) k2 w2 else d)) :
    kv.1 = k1 ∨ kv.1 = k2 ∨ kv ∈ d := by
  split at h
  · rcases mem_alSet _ _ _ _ h with heq | h
    · exact Or.inr (Or.inl (by rw [heq]))
    · rcases mem_alSet _ _ _ _ h with heq | h
      · exact Or.inl (by rw [heq])
      · exact Or.inr (Or.inr h)
  · exact Or.inr (Or.inr h)

theorem mem_opt_set {c : Prop} [Decidable c] {o : Option JVal} {d : Dict} {k : String}
    {c2 : JVal → Prop} [DecidablePred c2] {w : JVal → Str} {kv : String × JVal}
    (h : kv ∈ (if c then
        (match o with
         | some dv => if c2 dv then alSet d k (.str (w dv)) else d
         | none => d)
      else d)) :
    (c ∧ ∃ s, kv = (k, .str s)) ∨ kv ∈ d := by
  split at h
  case isTrue hc =>
    cases o with
    | some dv =>
      replace h : kv ∈ (if c2 dv then alSet d k (.str (w dv)) else d) := h
      by_cases h2 : c2 dv
      · rw [if_pos h2] at h
        rcases mem_alSet _ _ _ _ h with heq | h
        · exact Or.inl ⟨hc, w dv, heq⟩
        · exact Or.inr h
      · rw [if_neg h2] at h
        exact Or.inr h
    | none => exact Or.inr h
  case isFalse => exact Or.inr h

theorem mem_opt_set2 {c : Prop} [Decidable c] {o : Option JVal} {d : Dict} {k : String}
    {w : JVal → Str} {w2 : Str} {kv : String × JVal}
    (h : kv ∈ (if c then
        (match o with
         | some mv => alSet d k (.str (w mv))
         | none => alSet d k (.str w2))
      else d)) :
    (∃ s, kv = (k, .str s)) ∨ kv ∈ d := by
  split at h
  · cases o with
    | some mv =>
      replace h : kv ∈ alSet d k (.str (w mv)) := h
      rcases mem_alSet _ _ _ _ h with heq | h
      · exact Or.inl ⟨w mv, heq⟩
      · exact Or.inr h
    | none =>
      replace h : kv ∈ alSet d k (.str w2) := h
      rcases mem_alSet _ _ _ _ h with heq | h
      · exact Or.inl ⟨w2, heq⟩
      · exact Or.inr h
  · exact Or.inr h

theorem alGet_ite_set {c : Prop} [Decidable c] {d : Dict} {k0 : String} {w : JVal}
    (k : String) (hne : k0 ≠ k) :
    alGet (if c then alSet d k0 w else d) k = alGet d k := by
  split
  · exact alGet_alSet_ne _ _ _ _ hne
  · rfl

/-! ## Image-key lemmas (C9) -/

theorem string_append_data (a : String) (l : Str) :
    ((a ++ (⟨l⟩ : String)).data) = a.data ++ l := by
  cases a
  rfl

theorem imgKey_data_ad : ∀ i, ∃ t, (imgKey i).data = 'a' :: 'd' :: t := by
  intro i
  cases i with
  | zero => exact ⟨"ditional_image_link".data, rfl⟩
  | succ j =>
    refine ⟨"ditional_image_link_".data ++ natToStr (j + 2), ?_⟩
    rw [imgKey, string_append_data]
    rfl

theorem imgKey_ne {k : String} (hk : k.data.take 2 ≠ ['a', 'd']) (i : Nat) : imgKey i ≠ k := by
  intro hc
  obtain ⟨t, ht⟩ := imgKey_data_ad i
  rw [← hc, ht] at hk
  exact hk rfl

theorem imgKey_data_len : ∀ i, (imgKey (i + 1)).data.length = 22 + (natToStr (i + 2)).length := by
  intro i
  rw [imgKey, string_append_data, List.length_append]
  rfl

theorem imgKey_inj : ∀ {i j : Nat}, imgKey i = imgKey j → i = j := by
  intro i j h
  cases i with
  | zero =>
    cases j with
    | zero => rfl
    | succ j0 =>
      exfalso
      have hlen := congrArg (fun s => s.data.length) h
      simp only [imgKey_data_len] at hlen
      have h1 : (imgKey 0).data.length = 21 := by rfl
      have h2 := natToStr_ne_nil (j0 + 2)
      have h3 : 1 ≤ (natToStr (j0 + 2)).length := by
        cases hn : natToStr (j0 + 2) with
        | nil => exact absurd hn h2
        | cons c t => simp
      omega
  | succ i0 =>
    cases j with
    | zero =>
      exfalso
      have hlen := congrArg (fun s => s.data.length) h
      simp only [imgKey_data_len] at hlen
      have h1 : (imgKey 0).data.length = 21 := by rfl
      have h2 := natToStr_ne_nil (i0 + 2)
      have h3 : 1 ≤ (natToStr (i0 + 2)).length := by
        cases hn : natToStr (i0 + 2) with
        | nil => exact absurd hn h2
        | cons c t => simp
      omega
    | succ j0 =>
      have hd := congrArg String.data h
      rw [imgKey, imgKey, string_append_data, string_append_data] at hd
      have hn : natToStr (i0 + 2) = natToStr (j0 + 2) := List.append_cancel_left hd
      have hv : i0 + 2 = j0 + 2 := by
        have := congrArg digitsVal hn
        rwa [digitsVal_natToStr, digitsVal_natToStr] at this
      omega

theorem foldSet_get_other : ∀ (l : List JVal) (n : Nat) (d : Dict) (k : String),
    (∀ j, j < l.length → k ≠ imgKey (n + j)) →
    alGet ((List.enumFrom n l).foldl (fun d p => alSet d (imgKey p.1) p.2) d) k = alGet d k := by
  intro l
  induction l with
  | nil => intro n d k _; rfl
  | cons x t ih =>
    intro n d k hk
    rw [show List.enumFrom n (x :: t) = (n, x) :: List.enumFrom (n + 1) t from rfl,
      List.foldl_cons]
    rw [ih (n + 1) _ k (fun j hj => by
      have := hk (j + 1) (by simpa using Nat.succ_lt_succ hj)
      rwa [show n + (j + 1) = n + 1 + j by omega] at this)]
    exact alGet_alSet_ne _ _ _ _ (fun hc => hk 0 (Nat.succ_pos _) (by rw [Nat.add_zero]; exact hc.symm))

theorem foldSet_get : ∀ (l : List JVal) (n : Nat) (d : Dict) (i : Nat) (h : i < l.length),
    alGet ((List.enumFrom n l).foldl (fun d p => alSet d (imgKey p.1) p.2) d) (imgKey (n + i)) =
      some (l.get ⟨i, h⟩) := by
  intro l
  induction l with
  | nil => intro n d i h; exact absurd h (by simp)
  | cons x t ih =>
    intro n d i h
    rw [show List.enumFrom n (x :: t) = (n, x) :: List.enumFrom (n + 1) t from rfl,
      List.foldl_cons]
    cases i with
    | zero =>
      rw [Nat.add_zero]
      rw [foldSet_get_other t (n + 1) _ _ (fun j hj hc => by
        have := imgKey_inj hc
        omega)]
      exact alGet_alSet_self _ _ _
    | succ i0 =>
      have hi0 : i0 < t.length := by simpa using Nat.lt_of_succ_lt_succ h
      have := ih (n + 1) (alSet d (imgKey n) x) i0 hi0
      rw [show n + (i0 + 1) = n + 1 + i0 by omega]
      rw [this]
      rfl

theorem addGoogleImages_get {d : Dict} {imgs : List JVal} {i : Nat}
    (h : i < (imgs.take 10).length) :
    alGet (addGoogleImages d imgs) (imgKey i) = some ((imgs.take 10).get ⟨i, h⟩) := by
  have := foldSet_get (imgs.take 10) 0 d i h
  rw [Nat.zero_add] at this
  exact this

theorem addGoogleImages_other {d : Dict} {imgs : List JVal} {k : String}
    (hk : ∀ j, j < (imgs.take 10).length → k ≠ imgKey j) :
    alGet (addGoogleImages d imgs) k = alGet d k := by
  have := foldSet_get_other (imgs.take 10) 0 d k (fun j hj => by
    rw [Nat.zero_add]; exact hk j hj)
  exact this

theorem alGet_keys_ne {d : Dict} {k : String} (hall : ∀ kv ∈ d, kv.1 ≠ k) :
    alGet d k = none := by
  induction d with
  | nil => rfl
  | cons kv rest ih =>
    obtain ⟨k0, v0⟩ := kv
    rw [alGet, if_neg (hall (k0, v0) (List.mem_cons_self _ _))]
    exact ih (fun kv hkv => hall kv (List.mem_cons_of_mem _ hkv))

/-! ## Description length lemmas (C2) -/

theorem length_dropWhile_le (p : Char → Bool) : ∀ l : Str, (l.dropWhile p).length ≤ l.length := by
  intro l
  induction l with
  | nil => simp
  | cons c t ih =>
    rw [List.dropWhile]
    cases p c with
    | true => simpa using Nat.le_succ_of_le ih
    | false => simp

theorem stripS_length_le (s : Str) : (stripS s).length ≤ s.length := by
  unfold stripS
  calc ((s.dropWhile Char.isWhitespace).reverse.dropWhile Char.isWhitespace).reverse.length
      = ((s.dropWhile Char.isWhitespace).reverse.dropWhile Char.isWhitespace).length := by
        rw [List.length_reverse]
    _ ≤ (s.dropWhile Char.isWhitespace).reverse.length := length_dropWhile_le _ _
    _ = (s.dropWhile Char.isWhitespace).length := by rw [List.length_reverse]
    _ ≤ s.length := length_dropWhile_le _ _

theorem extract_description_le {dj : JVal} {s : Str}
    (h : extract_description dj = .ok s) : s.length ≤ 5000 := by
  have key : ∀ x : Str, stripS ((stripTags x).take 5000) = s → s.length ≤ 5000 := by
    intro x hx
    rw [← hx]
    calc (stripS ((stripTags x).take 5000)).length
        ≤ ((stripTags x).take 5000).length := stripS_length_le _
      _ ≤ 5000 := by rw [List.length_take]; exact Nat.min_le_left _ _
  unfold extract_description at h
  cases dj with
  | obj o =>
    simp only [Bind.bind, Except.bind, Pure.pure, Except.pure] at h
    cases hval : (pyOr (pyOr (o.find "long_description") (o.find "short_description"))
        (some (.str []))).getD (.str []) with
    | str s0 =>
      rw [hval] at h
      simp only [Except.ok.injEq] at h
      exact key s0 h
    | null => rw [hval] at h; exact absurd h (by simp)
    | bool b => rw [hval] at h; exact absurd h (by simp)
    | int n => rw [hval] at h; exact absurd h (by simp)
    | float d => rw [hval] at h; exact absurd h (by simp)
    | arr a => rw [hval] at h; exact absurd h (by simp)
    | obj o2 => rw [hval] at h; exact absurd h (by simp)
  | str s0 =>
    simp only [Bind.bind, Except.bind, Pure.pure, Except.pure, Except.ok.injEq] at h
    exact key s0 h
  | null =>
    simp only [Bind.bind, Except.bind, Pure.pure, Except.pure, Except.ok.injEq] at h
    exact key [] h
  | bool b =>
    simp only [Bind.bind, Except.bind, Pure.pure, Except.pure, Except.ok.injEq] at h
    exact key [] h
  | int n =>
    simp only [Bind.bind, Except.bind, Pure.pure, Except.pure, Except.ok.injEq] at h
    exact key [] h
  | float d =>
    simp only [Bind.bind, Except.bind, Pure.pure, Except.pure, Except.ok.injEq] at h
    exact key [] h
  | arr a =>
    simp only [Bind.bind, Except.bind, Pure.pure, Except.pure, Except.ok.injEq] at h
    exact key [] h

/-! ## Additional-image scan characterization (C9) -/

theorem imgScan_eq : ∀ {l r : List JVal}, imgScan l = .ok r →
    r = l.filterMap urlOf ∧ ∀ x ∈ r, pyTruthy x = true := by
  intro l
  induction l with
  | nil =>
    intro r h
    simp only [imgScan, Pure.pure, Except.pure, Except.ok.injEq] at h
    subst h
    exact ⟨rfl, by simp⟩
  | cons it rest ih =>
    intro r h
    unfold imgScan at h
    cases it with
    | obj o =>
      simp only [pyGetUrl, Bind.bind, Except.bind] at h
      cases htail : imgScan rest with
      | error e => rw [htail] at h; exact absurd h (by simp)
      | ok tail =>
        rw [htail] at h
        obtain ⟨hre, htr⟩ := ih htail
        cases hfind : o.find "url" with
        | none =>
          rw [hfind] at h
          simp only [Pure.pure, Except.pure, Except.ok.injEq] at h
          subst h
          refine ⟨?_, htr⟩
          rw [List.filterMap_cons, show urlOf (.obj o) = none from by simp [urlOf, hfind]]
          exact hre
        | some v =>
          rw [hfind] at h
          simp only [Pure.pure, Except.pure, Except.ok.injEq] at h
          subst h
          by_cases htv : pyTruthy v = true
          · rw [if_pos htv]
            refine ⟨?_, ?_⟩
            · rw [List.filterMap_cons,
                show urlOf (.obj o) = some v from by simp [urlOf, hfind, htv]]
              rw [hre]
            · intro x hx
              rcases List.mem_cons.mp hx with rfl | hx
              · exact htv
              · exact htr x hx
          · rw [if_neg (by simpa using htv)]
            refine ⟨?_, htr⟩
            rw [List.filterMap_cons,
              show urlOf (.obj o) = none from by simp [urlOf, hfind, htv]]
            exact hre
    | null => exact absurd h (by simp [pyGetUrl, Bind.bind, Except.bind])
    | bool b => exact absurd h (by simp [pyGetUrl, Bind.bind, Except.bind])
    | int n => exact absurd h (by simp [pyGetUrl, Bind.bind, Except.bind])
    | float d => exact absurd h (by simp [pyGetUrl, Bind.bind, Except.bind])
    | str s => exact absurd h (by simp [pyGetUrl, Bind.bind, Except.bind])
    | arr a => exact absurd h (by simp [pyGetUrl, Bind.bind, Except.bind])

theorem get_additional_images_truthy {cell : Str} {imgs : List JVal}
    (h : get_additional_images cell = .ok imgs) : ∀ x ∈ imgs, pyTruthy x = true := by
  unfold get_additional_images at h
  cases hp : parse_json_field cell with
  | arr a =>
    rw [hp] at h
    exact (imgScan_eq h).2
  | null => rw [hp] at h; simp only [Pure.pure, Except.pure, Except.ok.injEq] at h; subst h; simp
  | bool b => rw [hp] at h; simp only [Pure.pure, Except.pure, Except.ok.injEq] at h; subst h; simp
  | int n => rw [hp] at h; simp only [Pure.pure, Except.pure, Except.ok.injEq] at h; subst h; simp
  | float d => rw [hp] at h; simp only [Pure.pure, Except.pure, Except.ok.injEq] at h; subst h; simp
  | str s => rw [hp] at h; simp only [Pure.pure, Except.pure, Except.ok.injEq] at h; subst h; simp
  | obj o => rw [hp] at h; simp only [Pure.pure, Except.pure, Except.ok.injEq] at h; subst h; simp

set_option maxHeartbeats 4000000 in
theorem openai_cases (row : Row) :
    transform_row_to_openai row = .ok none ∨
    (∃ e, transform_row_to_openai row = .error e) ∨
    (∃ (q : Dict) (desc : Str),
      transform_row_to_openai row = .ok (some (q.filter (fun kv => keepVal kv.2))) ∧
      extract_description (parse_json_field (rowGetD row "description" [])) = .ok desc ∧
      (∀ v, ("title", v) ∈ q →
        v = .str ((rowGetD row "title" (rowGetD row "name" [])).take 150)) ∧
      (∀ v, ("brand", v) ∈ q → v = .str ((rowGetD row "brand" []).take 70)) ∧
      (∀ v, ("description", v) ∈ q →
        v = .str desc ∨
        (optTruthy (pyOr (sGet (parse_json_field (rowGetD row "specifications" [])) "year")
            (sGet (parse_json_field (rowGetD row "specifications" [])) "productionYear")) =
            true ∧ ∃ s, v = .str s))) := by
  simp only [transform_row_to_openai, pure_ok]
  by_cases hg : rowGet row "call_for_price" = some "true".data ∨
      rowGet row "online" ≠ some "1".data
  · rw [if_pos hg]
    exact Or.inl rfl
  · rw [if_neg hg]
    cases hdet : detect_product_type row (parse_json_field (rowGetD row "specifications" [])) with
    | error e => exact Or.inr (Or.inl ⟨e, by rw [bind_err]⟩)
    | ok pt =>
      simp only [bind_ok]
      by_cases hp : (extract_price (rowGetD row "price" []) (rowGetD row "book_price" [])).1.m ≤ 0
      · rw [if_pos hp]
        exact Or.inl rfl
      · rw [if_neg hp]
        cases hdesc : extract_description (parse_json_field (rowGetD row "description" [])) with
        | error e => exact Or.inr (Or.inl ⟨e, by rw [bind_err]⟩)
        | ok desc =>
          simp only [bind_ok]
          cases hpre : pyIsPreowned (parse_json_field (rowGetD row "specifications" [])) with
          | error e => exact Or.inr (Or.inl ⟨e, by rw [bind_err]⟩)
          | ok ip =>
            simp only [bind_ok]
            cases himg : get_additional_images (rowGetD row "additional_image_link" []) with
            | error e => exact Or.inr (Or.inl ⟨e, by rw [bind_err]⟩)
            | ok imgs =>
              simp only [bind_ok]
              by_cases hne : (!imgs.isEmpty) = true
              · rw [if_pos hne]
                cases hj : pyJoin ",".data (imgs.take 10) with
                | error e => exact Or.inr (Or.inl ⟨e, by rw [bind_err]⟩)
                | ok j =>
                  simp only [bind_ok]
                  cases hqa : build_q_and_a row
                      (parse_json_field (rowGetD row "specifications" [])) pt with
                  | error e => exact Or.inr (Or.inl ⟨e, by rw [bind_err]⟩)
                  | ok qa =>
                    simp only [bind_ok]
                    cases hmat : extract_material
                        (parse_json_field (rowGetD row "specifications" [])) with
                    | error e => exact Or.inr (Or.inl ⟨e, by rw [bind_err]⟩)
                    | ok mat =>
                      simp only [bind_ok]
                      by_cases hgen : optTruthy (pyOr
                          (sGet (parse_json_field (rowGetD row "specifications" [])) "gender")
                          ((rowGet row "gender").map JVal.str)) = true
                      · rw [if_pos hgen]
                        cases hlow : pyLower ((pyOr
                            (sGet (parse_json_field (rowGetD row "specifications" [])) "gender")
                            ((rowGet row "gender").map JVal.str)).getD .null) with
                        | error e => exact Or.inr (Or.inl ⟨e, by rw [bind_err]⟩)
                        | ok g =>
                          simp only [bind_ok]
                          refine Or.inr (Or.inr ⟨_, desc, rfl, rfl, ?_, ?_, ?_⟩) <;>
                                              (intro v hv
                                               repeat
                                                 first
                                                 | (obtain heq | hv := mem_alSet _ _ _ _ hv
                                                    · simp at heq)
                                                 | (obtain hk | hv := mem_ite_set hv
                                                    · simp at hk)
                                                 | (obtain hk | hk | hv := mem_ite_set2 hv
                                                    · simp at hk
                                                    · simp at hk)
                                                 | (obtain ⟨hc, s, heq⟩ | hv := mem_opt_set hv
                                                    · simp at heq)
                                                 | (obtain ⟨s, heq⟩ | hv := mem_opt_set2 hv
                                                    · simp at heq)
                                                 | (rcases mem_opt_set hv with ⟨hc, s, heq⟩ | hv
                                                    · exact Or.inr ⟨hc, s, congrArg Prod.snd heq⟩)
                                               simp only [List.mem_cons, List.not_mem_nil, or_false, Prod.mk.injEq] at hv
                                               repeat
                                                 first
                                                 | (obtain ⟨he, hv⟩ | hv := hv
                                                    · simp at he)
                                                 | (obtain ⟨-, hv⟩ | hv := hv
                                                    · first
                                                      | exact hv
                                                      | exact Or.inl hv)
                                                 | (obtain ⟨he, hv⟩ := hv
                                                    simp at he)
                                                 | (obtain ⟨-, hv⟩ := hv
                                                    first
                                                    | exact hv
                                                    | exact Or.inl hv))
                      · rw [if_neg hgen]
                        refine Or.inr (Or.inr ⟨_, desc, rfl, rfl, ?_, ?_, ?_⟩) <;>
                                            (intro v hv
                                             repeat
                                               first
                                               | (obtain heq | hv := mem_alSet _ _ _ _ hv
                                                  · simp at heq)
                                               | (obtain hk | hv := mem_ite_set hv
                                                  · simp at hk)
                                               | (obtain hk | hk | hv := mem_ite_set2 hv
                                                  · simp at hk
                                                  · simp at hk)
                                               | (obtain ⟨hc, s, heq⟩ | hv := mem_opt_set hv
                                                  · simp at heq)
                                               | (obtain ⟨s, heq⟩ | hv := mem_opt_set2 hv
                                                  · simp at heq)
                                               | (rcases mem_opt_set hv with ⟨hc, s, heq⟩ | hv
                                                  · exact Or.inr ⟨hc, s, congrArg Prod.snd heq⟩)
                                             simp only [List.mem_cons, List.not_mem_nil, or_false, Prod.mk.injEq] at hv
                                             repeat
                                               first
                                               | (obtain ⟨he, hv⟩ | hv := hv
                                                  · simp at he)
                                               | (obtain ⟨-, hv⟩ | hv := hv
                                                  · first
                                                    | exact hv
                                                    | exact Or.inl hv)
                                               | (obtain ⟨he, hv⟩ := hv
                                                  simp at he)
                                               | (obtain ⟨-, hv⟩ := hv
                                                  first
                                                  | exact hv
                                                  | exact Or.inl hv))
              · rw [if_neg hne]
                cases hqa : build_q_and_a row
                    (parse_json_field (rowGetD row "specifications" [])) pt with
                | error e => exact Or.inr (Or.inl ⟨e, by rw [bind_err]⟩)
                | ok qa =>
                  simp only [bind_ok]
                  cases hmat : extract_material
                      (parse_json_field (rowGetD row "specifications" [])) with
                  | error e => exact Or.inr (Or.inl ⟨e, by rw [bind_err]⟩)
                  | ok mat =>
                    simp only [bind_ok]
                    by_cases hgen : optTruthy (pyOr
                        (sGet (parse_json_field (rowGetD row "specifications" [])) "gender")
                        ((rowGet row "gender").map JVal.str)) = true
                    · rw [if_pos hgen]
                      cases hlow : pyLower ((pyOr
                          (sGet (parse_json_field (rowGetD row "specifications" [])) "gender")
                          ((rowGet row "gender").map JVal.str)).getD .null) with
                      | error e => exact Or.inr (Or.inl ⟨e, by rw [bind_err]⟩)
                      | ok g =>
                        simp only [bind_ok]
                        refine Or.inr (Or.inr ⟨_, desc, rfl, rfl, ?_, ?_, ?_⟩) <;>
                                          (intro v hv
                                           repeat
                                             first
                                             | (obtain heq | hv := mem_alSet _ _ _ _ hv
                                                · simp at heq)
                                             | (obtain hk | hv := mem_ite_set hv
                                                · simp at hk)
                                             | (obtain hk | hk | hv := mem_ite_set2 hv
                                                · simp at hk
                                                · simp at hk)
                                             | (obtain ⟨hc, s, heq⟩ | hv := mem_opt_set hv
                                                · simp at heq)
                                             | (obtain ⟨s, heq⟩ | hv := mem_opt_set2 hv
                                                · simp at heq)
                                             | (rcases mem_opt_set hv with ⟨hc, s, heq⟩ | hv
                                                · exact Or.inr ⟨hc, s, congrArg Prod.snd heq⟩)
                                           simp only [List.mem_cons, List.not_mem_nil, or_false, Prod.mk.injEq] at hv
                                           repeat
                                             first
                                             | (obtain ⟨he, hv⟩ | hv := hv
                                                · simp at he)
                                             | (obtain ⟨-, hv⟩ | hv := hv
                                                · first
                                                  | exact hv
                                                  | exact Or.inl hv)
                                             | (obtain ⟨he, hv⟩ := hv
                                                simp at he)
                                             | (obtain ⟨-, hv⟩ := hv
                                                first
                                                | exact hv
                                                | exact Or.inl hv))
                    · rw [if_neg hgen]
                      refine Or.inr (Or.inr ⟨_, desc, rfl, rfl, ?_, ?_, ?_⟩) <;>
                                        (intro v hv
                                         repeat
                                           first
                                           | (obtain heq | hv := mem_alSet _ _ _ _ hv
                                              · simp at heq)
                                           | (obtain hk | hv := mem_ite_set hv
                                              · simp at hk)
                                           | (obtain hk | hk | hv := mem_ite_set2 hv
                                              · simp at hk
                                              · simp at hk)
                                           | (obtain ⟨hc, s, heq⟩ | hv := mem_opt_set hv
                                              · simp at heq)
                                           | (obtain ⟨s, heq⟩ | hv := mem_opt_set2 hv
                                              · simp at heq)
                                           | (rcases mem_opt_set hv with ⟨hc, s, heq⟩ | hv
                                              · exact Or.inr ⟨hc, s, congrArg Prod.snd heq⟩)
                                         simp only [List.mem_cons, List.not_mem_nil, or_false, Prod.mk.injEq] at hv
                                         repeat
                                           first
                                           | (obtain ⟨he, hv⟩ | hv := hv
                                              · simp at he)
                                           | (obtain ⟨-, hv⟩ | hv := hv
                                              · first
                                                | exact hv
                                                | exact Or.inl hv)
                                           | (obtain ⟨he, hv⟩ := hv
                                              simp at he)
                                           | (obtain ⟨-, hv⟩ := hv
                                              first
                                              | exact hv
                                              | exact Or.inl hv))

theorem pair_fst_ne {α : Type} {k : String} {x : α} {k2 : String} (h : k ≠ k2) :
    (k, x).1 ≠ k2 := h

theorem ne_imgKey (k : String) (hk : k.data.take 2 ≠ ['a', 'd']) (i : Nat) : k ≠ imgKey i :=
  fun hc => imgKey_ne hk i hc.symm

set_option maxHeartbeats 4000000 in
theorem google_cases (row : Row) :
    transform_row_to_google row = .ok none ∨
    (∃ e, transform_row_to_google row = .error e) ∨
    (∃ (q : Dict) (pt : Str) (imgs : List JVal),
      transform_row_to_google row =
        .ok (some (alSet (q.filter (fun kv => keepVal kv.2)) "_product_type" (.str pt))) ∧
      detect_product_type row (parse_json_field (rowGetD row "specifications" [])) = .ok pt ∧
      get_additional_images (rowGetD row "additional_image_link" []) = .ok imgs ∧
      (∀ i (h : i < (imgs.take 10).length),
        alGet q (imgKey i) = some ((imgs.take 10).get ⟨i, h⟩)) ∧
      (∀ i, (imgs.take 10).length ≤ i → alGet q (imgKey i) = none)) := by
  simp only [transform_row_to_google, pure_ok]
  by_cases hg : rowGet row "call_for_price" = some "true".data ∨
      rowGet row "online" ≠ some "1".data
  · rw [if_pos hg]
    exact Or.inl rfl
  · rw [if_neg hg]
    cases hdet : detect_product_type row (parse_json_field (rowGetD row "specifications" [])) with
    | error e => exact Or.inr (Or.inl ⟨e, by rw [bind_err]⟩)
    | ok pt =>
      simp only [bind_ok]
      cases hpre : pyIsPreowned (parse_json_field (rowGetD row "specifications" [])) with
      | error e => exact Or.inr (Or.inl ⟨e, by rw [bind_err]⟩)
      | ok ip =>
        simp only [bind_ok]
        by_cases hp : (extract_price (rowGetD row "price" []) (rowGetD row "book_price" [])).1.m ≤ 0
        · rw [if_pos hp]
          exact Or.inl rfl
        · rw [if_neg hp]
          cases hdesc : extract_description (parse_json_field (rowGetD row "description" [])) with
          | error e => exact Or.inr (Or.inl ⟨e, by rw [bind_err]⟩)
          | ok desc =>
            simp only [bind_ok]
            cases himg : get_additional_images (rowGetD row "additional_image_link" []) with
            | error e => exact Or.inr (Or.inl ⟨e, by rw [bind_err]⟩)
            | ok imgs =>
              simp only [bind_ok]
              by_cases hgen : optTruthy (pyOr
                  (sGet (parse_json_field (rowGetD row "specifications" [])) "gender")
                  ((rowGet row "gender").map JVal.str)) = true
              · rw [if_pos hgen]
                cases hlow : pyLower ((pyOr
                    (sGet (parse_json_field (rowGetD row "specifications" [])) "gender")
                    ((rowGet row "gender").map JVal.str)).getD .null) with
                | error e => exact Or.inr (Or.inl ⟨e, by rw [bind_err]⟩)
                | ok g =>
                  simp only [bind_ok]
                  cases hqa : build_q_and_a row
                      (parse_json_field (rowGetD row "specifications" [])) pt with
                  | error e => exact Or.inr (Or.inl ⟨e, by rw [bind_err]⟩)
                  | ok qa =>
                    simp only [bind_ok]
                    refine Or.inr (Or.inr ⟨_, pt, imgs, rfl, rfl, rfl, ?_, ?_⟩)
                    · 
                      intro i h
                      rw [alGet_ite_set _ (ne_imgKey "structured_description" (by decide) i),
                        alGet_ite_set _ (ne_imgKey "product_detail" (by decide) i),
                        alGet_ite_set _ (ne_imgKey "product_highlight" (by decide) i),
                        alGet_alSet_ne _ _ _ _ (ne_imgKey "consumer_notice" (by decide) i),
                        alGet_alSet_ne _ _ _ _ (ne_imgKey "merchant_item_id" (by decide) i),
                        alGet_alSet_ne _ _ _ _ (ne_imgKey "native_commerce" (by decide) i),
                        alGet_alSet_ne _ _ _ _ (ne_imgKey "custom_label_2" (by decide) i),
                        alGet_alSet_ne _ _ _ _ (ne_imgKey "custom_label_1" (by decide) i),
                        alGet_alSet_ne _ _ _ _ (ne_imgKey "custom_label_0" (by decide) i),
                        alGet_alSet_ne _ _ _ _ (ne_imgKey "shipping_weight" (by decide) i),
                        alGet_alSet_ne _ _ _ _ (ne_imgKey "age_group" (by decide) i)]
                      rw [alGet_alSet_ne _ _ _ _ (ne_imgKey "gender" (by decide) i)]
                      rw [alGet_ite_set _ (ne_imgKey "size" (by decide) i),
                        alGet_ite_set _ (ne_imgKey "material" (by decide) i),
                        alGet_ite_set _ (ne_imgKey "color" (by decide) i)]
                      by_cases hne2 : (!imgs.isEmpty) = true
                      · rw [if_pos hne2]
                        exact addGoogleImages_get h
                      · have hemp : imgs = [] := by
                          rcases hxx : imgs with _ | ⟨x, t⟩
                          · rfl
                          · rw [hxx] at hne2
                            simp at hne2
                        subst hemp
                        simp at h
                    · 
                      intro i hi
                      rw [alGet_ite_set _ (ne_imgKey "structured_description" (by decide) i),
                        alGet_ite_set _ (ne_imgKey "product_detail" (by decide) i),
                        alGet_ite_set _ (ne_imgKey "product_highlight" (by decide) i),
                        alGet_alSet_ne _ _ _ _ (ne_imgKey "consumer_notice" (by decide) i),
                        alGet_alSet_ne _ _ _ _ (ne_imgKey "merchant_item_id" (by decide) i),
                        alGet_alSet_ne _ _ _ _ (ne_imgKey "native_commerce" (by decide) i),
                        alGet_alSet_ne _ _ _ _ (ne_imgKey "custom_label_2" (by decide) i),
                        alGet_alSet_ne _ _ _ _ (ne_imgKey "custom_label_1" (by decide) i),
                        alGet_alSet_ne _ _ _ _ (ne_imgKey "custom_label_0" (by decide) i),
                        alGet_alSet_ne _ _ _ _ (ne_imgKey "shipping_weight" (by decide) i),
                        alGet_alSet_ne _ _ _ _ (ne_imgKey "age_group" (by decide) i)]
                      rw [alGet_alSet_ne _ _ _ _ (ne_imgKey "gender" (by decide) i)]
                      rw [alGet_ite_set _ (ne_imgKey "size" (by decide) i),
                        alGet_ite_set _ (ne_imgKey "material" (by decide) i),
                        alGet_ite_set _ (ne_imgKey "color" (by decide) i)]
                      by_cases hne2 : (!imgs.isEmpty) = true
                      · rw [if_pos hne2,
                          addGoogleImages_other (fun j hj hc => by have h2 := imgKey_inj hc; omega)]
                        refine alGet_keys_ne ?_
                        intro kv hkv
                        simp only [List.mem_cons, List.not_mem_nil, or_false] at hkv
                        rcases hkv with rfl | rfl | rfl | rfl | rfl | rfl | rfl | rfl | rfl | rfl | rfl | rfl | rfl | rfl <;>
                          exact pair_fst_ne (ne_imgKey _ (by decide) i)
                      · rw [if_neg hne2]
                        refine alGet_keys_ne ?_
                        intro kv hkv
                        simp only [List.mem_cons, List.not_mem_nil, or_false] at hkv
                        rcases hkv with rfl | rfl | rfl | rfl | rfl | rfl | rfl | rfl | rfl | rfl | rfl | rfl | rfl | rfl <;>
                          exact pair_fst_ne (ne_imgKey _ (by decide) i)
              · rw [if_neg hgen]
                cases hqa : build_q_and_a row
                    (parse_json_field (rowGetD row "specifications" [])) pt with
                | error e => exact Or.inr (Or.inl ⟨e, by rw [bind_err]⟩)
                | ok qa =>
                  simp only [bind_ok]
                  refine Or.inr (Or.inr ⟨_, pt, imgs, rfl, rfl, rfl, ?_, ?_⟩)
                  · 
                    intro i h
                    rw [alGet_ite_set _ (ne_imgKey "structured_description" (by decide) i),
                      alGet_ite_set _ (ne_imgKey "product_detail" (by decide) i),
                      alGet_ite_set _ (ne_imgKey "product_highlight" (by decide) i),
                      alGet_alSet_ne _ _ _ _ (ne_imgKey "consumer_notice" (by decide) i),
                      alGet_alSet_ne _ _ _ _ (ne_imgKey "merchant_item_id" (by decide) i),
                      alGet_alSet_ne _ _ _ _ (ne_imgKey "native_commerce" (by decide) i),
                      alGet_alSet_ne _ _ _ _ (ne_imgKey "custom_label_2" (by decide) i),
                      alGet_alSet_ne _ _ _ _ (ne_imgKey "custom_label_1" (by decide) i),
                      alGet_alSet_ne _ _ _ _ (ne_imgKey "custom_label_0" (by decide) i),
                      alGet_alSet_ne _ _ _ _ (ne_imgKey "shipping_weight" (by decide) i),
                      alGet_alSet_ne _ _ _ _ (ne_imgKey "age_group" (by decide) i)]
                    rw [alGet_ite_set _ (ne_imgKey "size" (by decide) i),
                      alGet_ite_set _ (ne_imgKey "material" (by decide) i),
                      alGet_ite_set _ (ne_imgKey "color" (by decide) i)]
                    by_cases hne2 : (!imgs.isEmpty) = true
                    · rw [if_pos hne2]
                      exact addGoogleImages_get h
                    · have hemp : imgs = [] := by
                        rcases hxx : imgs with _ | ⟨x, t⟩
                        · rfl
                        · rw [hxx] at hne2
                          simp at hne2
                      subst hemp
                      simp at h
                  · 
                    intro i hi
                    rw [alGet_ite_set _ (ne_imgKey "structured_description" (by decide) i),
                      alGet_ite_set _ (ne_imgKey "product_detail" (by decide) i),
                      alGet_ite_set _ (ne_imgKey "product_highlight" (by decide) i),
                      alGet_alSet_ne _ _ _ _ (ne_imgKey "consumer_notice" (by decide) i),
                      alGet_alSet_ne _ _ _ _ (ne_imgKey "merchant_item_id" (by decide) i),
                      alGet_alSet_ne _ _ _ _ (ne_imgKey "native_commerce" (by decide) i),
                      alGet_alSet_ne _ _ _ _ (ne_imgKey "custom_label_2" (by decide) i),
                      alGet_alSet_ne _ _ _ _ (ne_imgKey "custom_label_1" (by decide) i),
                      alGet_alSet_ne _ _ _ _ (ne_imgKey "custom_label_0" (by decide) i),
                      alGet_alSet_ne _ _ _ _ (ne_imgKey "shipping_weight" (by decide) i),
                      alGet_alSet_ne _ _ _ _ (ne_imgKey "age_group" (by decide) i)]
                    rw [alGet_ite_set _ (ne_imgKey "size" (by decide) i),
                      alGet_ite_set _ (ne_imgKey "material" (by decide) i),
                      alGet_ite_set _ (ne_imgKey "color" (by decide) i)]
                    by_cases hne2 : (!imgs.isEmpty) = true
                    · rw [if_pos hne2,
                        addGoogleImages_other (fun j hj hc => by have h2 := imgKey_inj hc; omega)]
                      refine alGet_keys_ne ?_
                      intro kv hkv
                      simp only [List.mem_cons, List.not_mem_nil, or_false] at hkv
                      rcases hkv with rfl | rfl | rfl | rfl | rfl | rfl | rfl | rfl | rfl | rfl | rfl | rfl | rfl | rfl <;>
                        exact pair_fst_ne (ne_imgKey _ (by decide) i)
                    · rw [if_neg hne2]
                      refine alGet_keys_ne ?_
                      intro kv hkv
                      simp only [List.mem_cons, List.not_mem_nil, or_false] at hkv
                      rcases hkv with rfl | rfl | rfl | rfl | rfl | rfl | rfl | rfl | rfl | rfl | rfl | rfl | rfl | rfl <;>
                        exact pair_fst_ne (ne_imgKey _ (by decide) i)

theorem alGet_cons_ne {κ α : Type} [DecidableEq κ] {k0 k : κ} {v : α} {rest : List (κ × α)}
    (h : k0 ≠ k) : alGet ((k0, v) :: rest) k = alGet rest k := by
  rw [alGet, if_neg h]

theorem alGet_cons_self {κ α : Type} [DecidableEq κ] {k : κ} {v : α} {rest : List (κ × α)} :
    alGet ((k, v) :: rest) k = some v := by
  rw [alGet, if_pos rfl]

theorem eval_ok {α : Type} (x : Except PyErr α) (d : α) (h : x.toOption.isSome = true) :
    x = .ok (x.toOption.getD d) := by
  cases x with
  | error e => simp [Except.toOption] at h
  | ok a => rfl

theorem dropWhile_false {p : Char → Bool} : ∀ {l : Str}, (∀ c ∈ l, p c = false) →
    l.dropWhile p = l
  | [], _ => rfl
  | c :: t, h => by
    rw [List.dropWhile_cons, h c (List.mem_cons_self _ _)]
    simp

theorem stripS_no_ws {s : Str} (h : ∀ c ∈ s, c.isWhitespace = false) : stripS s = s := by
  unfold stripS
  rw [dropWhile_false h, dropWhile_false (fun c hc => h c (List.mem_reverse.mp hc)),
    List.reverse_reverse]

theorem stripTagsF_repl : ∀ (fuel n : Nat), stripTagsF fuel (List.replicate n 'a') =
    List.replicate n 'a'
  | 0, _ => rfl
  | _ + 1, 0 => rfl
  | fuel + 1, n + 1 => by
    rw [List.replicate_succ]
    rw [show stripTagsF (fuel + 1) ('a' :: List.replicate n 'a') =
      'a' :: stripTagsF fuel (List.replicate n 'a') from rfl]
    rw [stripTagsF_repl fuel n]

theorem stripTags_repl (n : Nat) : stripTags (List.replicate n 'a') = List.replicate n 'a' := by
  unfold stripTags
  exact stripTagsF_repl _ n

theorem stripS_repl (n : Nat) : stripS (List.replicate n 'a') = List.replicate n 'a' :=
  stripS_no_ws (fun c hc => by rw [List.eq_of_mem_replicate hc]; rfl)

theorem pyStr_str (s : Str) : pyStr (.str s) = s := rfl

theorem extract_description_str (s : Str) :
    extract_description (.str s) = .ok (stripS ((stripTags s).take 5000)) := rfl

theorem year_step_red {c : Prop} [Decidable c] (hc : c) {d : Dict} {k : String} {sv : Str}
    {w : JVal → Str} (hget : alGet d k = some (.str sv)) (hne : sv ≠ []) :
    (if c then
      (match alGet d k with
       | some dv => if pyTruthy dv = true then alSet d k (.str (w dv)) else d
       | none => d)
    else d) = alSet d k (.str (w (.str sv))) := by
  rw [if_pos hc, hget]
  show (if pyTruthy (.str sv) = true then alSet d k (.str (w (.str sv))) else d) = _
  rw [if_pos (show pyTruthy (.str sv) = true from by
    cases sv with
    | nil => exact absurd rfl hne
    | cons c0 t => rfl)]

set_option maxHeartbeats 1600000 in
/-- C2 counterexample: the production year is appended to the description
after the 5000-character truncation, so a 4990-character description plus
the year suffix is emitted with 5002 characters. -/
theorem description_overflow_example :
    emittedDescLen (transform_row_to_openai rowC2) = some 5002 := by
  have hD : parse_json_field (rowGetD rowC2 "description" []) =
      .str (List.replicate 4990 'a') := by
    rw [show rowGetD rowC2 "description" [] =
      jsonPrint (.str (List.replicate 4990 'a')) from rfl]
    unfold parse_json_field
    rw [if_neg (show ¬(jsonPrint (.str (List.replicate 4990 'a'))).isEmpty = true from by
      intro hc
      rw [List.isEmpty_iff] at hc
      have hl := jsonPrint_length_pos (.str (List.replicate 4990 'a'))
      rw [hc] at hl
      exact absurd hl (by decide)), jsonParse_print]
  have hdesc : extract_description (parse_json_field (rowGetD rowC2 "description" [])) =
      .ok (List.replicate 4990 'a') := by
    rw [hD, extract_description_str, stripTags_repl,
      List.take_of_length_le (by rw [List.length_replicate]; omega), stripS_repl]
  simp only [transform_row_to_openai, pure_ok]
  rw [if_neg (show ¬(rowGet rowC2 "call_for_price" = some "true".data ∨
    rowGet rowC2 "online" ≠ some "1".data) from by decide)]
  rw [show detect_product_type rowC2 (parse_json_field (rowGetD rowC2 "specifications" [])) =
    .ok "new_watch".data from by rfl]
  simp only [bind_ok]
  rw [if_neg (show ¬(extract_price (rowGetD rowC2 "price" [])
    (rowGetD rowC2 "book_price" [])).1.m ≤ 0 from by decide)]
  rw [hdesc]
  simp only [bind_ok]
  rw [show pyIsPreowned (parse_json_field (rowGetD rowC2 "specifications" [])) =
    .ok false from by rfl]
  simp only [bind_ok]
  rw [show get_additional_images (rowGetD rowC2 "additional_image_link" []) =
    .ok ([] : List JVal) from by rfl]
  simp only [bind_ok]
  rw [if_neg (show ¬(!List.isEmpty ([] : List JVal)) = true from by decide)]
  rw [eval_ok (build_q_and_a rowC2 (parse_json_field (rowGetD rowC2 "specifications" []))
    "new_watch".data) []
    (by rfl)]
  simp only [bind_ok]
  rw [show extract_material (parse_json_field (rowGetD rowC2 "specifications" [])) =
    .ok ([] : Str) from by rfl]
  simp only [bind_ok]
  rw [if_neg (show ¬optTruthy (pyOr
    (sGet (parse_json_field (rowGetD rowC2 "specifications" [])) "gender")
    ((rowGet rowC2 "gender").map JVal.str)) = true from by decide)]
  rw [if_pos (show (!((build_q_and_a rowC2
    (parse_json_field (rowGetD rowC2 "specifications" []))
    "new_watch".data).toOption.getD []).isEmpty) = true from by decide)]
  rw [if_neg (show ¬(!List.isEmpty ([] : Str)) = true from by decide)]
  rw [if_neg (show ¬optTruthy (pyOr (pyOr (pyOr (pyOr
    (sGet (parse_json_field (rowGetD rowC2 "specifications" [])) "baseRefNum")
    (sGet (parse_json_field (rowGetD rowC2 "specifications" [])) "referenceNumber"))
    (sGet (parse_json_field (rowGetD rowC2 "specifications" [])) "reference"))
    (sGet (parse_json_field (rowGetD rowC2 "specifications" [])) "modelNumber"))
    (sGet (parse_json_field (rowGetD rowC2 "specifications" [])) "sku")) = true from by decide)]
  rw [if_neg (show ¬optTruthy (pyOr (pyOr
    (sGet (parse_json_field (rowGetD rowC2 "specifications" [])) "caseSize")
    (sGet (parse_json_field (rowGetD rowC2 "specifications" [])) "caseDiameter"))
    (sGet (parse_json_field (rowGetD rowC2 "specifications" [])) "diameter")) = true from by decide)]
  rw [if_neg (show ¬(optTruthy (pyOr
    (sGet (parse_json_field (rowGetD rowC2 "specifications" [])) "caseThickness")
    (sGet (parse_json_field (rowGetD rowC2 "specifications" [])) "thickness")) &&
    optTruthy (pyOr (pyOr
    (sGet (parse_json_field (rowGetD rowC2 "specifications" [])) "caseSize")
    (sGet (parse_json_field (rowGetD rowC2 "specifications" [])) "caseDiameter"))
    (sGet (parse_json_field (rowGetD rowC2 "specifications" [])) "diameter"))) = true from by decide)]
  rw [if_neg (show ¬optTruthy (pyOr
    (sGet (parse_json_field (rowGetD rowC2 "specifications" [])) "waterResistance")
    (sGet (parse_json_field (rowGetD rowC2 "specifications" [])) "water_resistance")) =
    true from by decide)]
  rw [if_neg (show ¬optTruthy (pyOr (pyOr
    (sGet (parse_json_field (rowGetD rowC2 "specifications" [])) "dialColor")
    (sGet (parse_json_field (rowGetD rowC2 "specifications" [])) "dial_color"))
    (sGet (parse_json_field (rowGetD rowC2 "specifications" [])) "color")) = true from by decide)]
  rw [year_step_red (show optTruthy (pyOr
      (sGet (parse_json_field (rowGetD rowC2 "specifications" [])) "year")
      (sGet (parse_json_field (rowGetD rowC2 "specifications" [])) "productionYear")) =
      true from by decide)
    (by
      rw [alGet_alSet_ne _ _ _ _ (show ("q_and_a" : String) ≠ "description" from by decide),
        alGet_cons_ne (show ("item_id" : String) ≠ "description" from by decide),
        alGet_cons_ne (show ("title" : String) ≠ "description" from by decide)]
      exact alGet_cons_self)
    (by
      rw [show (4990 : Nat) = 4989 + 1 from rfl, List.replicate_succ]
      exact List.cons_ne_nil _ _)]
  rw [if_neg (show ¬optTruthyS (pyOrS (pyOrS (rowGet rowC2 "gtin") (rowGet rowC2 "upc"))
    (rowGet rowC2 "ean")) = true from by decide)]
  simp only [emittedDescLen]
  rw [alGet_filter_pos _ _ _ _
    (by
      rw [alGet_alSet_ne _ _ _ _ (show ("_product_type" : String) ≠ "description" from by decide)]
      exact alGet_alSet_self _ _ _)
    (by
      rw [pyStr_str]
      rw [show (4990 : Nat) = 4989 + 1 from rfl, List.replicate_succ]
      rfl)]
  rw [pyStr_str]
  show some (List.replicate 4990 'a' ++ "\n\nYear: ".data ++
    optStr (pyOr (sGet (parse_json_field (rowGetD rowC2 "specifications" [])) "year")
      (sGet (parse_json_field (rowGetD rowC2 "specifications" [])) "productionYear"))).length =
    some 5002
  rw [show optStr (pyOr (sGet (parse_json_field (rowGetD rowC2 "specifications" [])) "year")
    (sGet (parse_json_field (rowGetD rowC2 "specifications" [])) "productionYear")) =
    "2020".data from by rfl]
  rw [List.length_append, List.length_append, List.length_replicate]
  rfl

/-- C5: a record emitted by either transformer variant contains no key bound
to `null` and none bound to the empty string. -/
theorem no_null_or_empty_values : ∀ (row : Row) (p : Dict),
    (transform_row_to_openai row = .ok (some p) ∨
      transform_row_to_google row = .ok (some p)) →
    ∀ kv, kv ∈ p → kv.2 ≠ .null ∧ kv.2 ≠ .str [] := by
  intro row p hp kv hkv
  rcases hp with h | h
  · rcases openai_cases row with hc | ⟨e, hc⟩ | ⟨q, desc, hc, -, -, -, -⟩
    · rw [h] at hc; exact absurd hc (by simp)
    · rw [h] at hc; exact absurd hc (by simp)
    · rw [h] at hc
      injection hc with hc2
      injection hc2 with hc3
      subst hc3
      exact keepVal_ne (List.mem_filter.mp hkv).2
  · rcases google_cases row with hc | ⟨e, hc⟩ | ⟨q, pt, imgs, hc, hdet, -, -, -⟩
    · rw [h] at hc; exact absurd hc (by simp)
    · rw [h] at hc; exact absurd hc (by simp)
    · rw [h] at hc
      injection hc with hc2
      injection hc2 with hc3
      subst hc3
      rcases mem_alSet _ _ _ _ hkv with heq | hkv2
      · have hmem := detect_mem hdet
        rw [heq]
        refine ⟨by simp, ?_⟩
        simp only [productTypes, List.mem_cons, List.not_mem_nil, or_false] at hmem
        rcases hmem with rfl | rfl | rfl | rfl | rfl <;> simp
      · exact keepVal_ne (List.mem_filter.mp hkv2).2

/-- C5 witness: concrete emitted values of both variants on `rowE` are
neither null nor empty. -/
theorem no_null_or_empty_values_witness :
    (JVal.str "used".data ≠ .null ∧ JVal.str "used".data ≠ .str []) ∧
    (JVal.str "rolex_cpo".data ≠ .null ∧ JVal.str "rolex_cpo".data ≠ .str []) := by
  constructor
  · exact no_null_or_empty_values rowE pE (Or.inl (by rfl))
      ("condition", .str "used".data)
      (alGet_mem _ (show alGet pE "condition" = some (.str "used".data) from by rfl))
  · exact no_null_or_empty_values rowE pG (Or.inr (by rfl))
      ("_product_type", .str "rolex_cpo".data)
      (alGet_mem _ (show alGet pG "_product_type" = some (.str "rolex_cpo".data) from by rfl))

/-- C2: emitted assistant-commerce titles never exceed 150 characters and
brands never exceed 70; the description obeys the 5000-character truncation
bound whenever the specifications carry no production year, but the year
suffix is appended after truncation and can exceed the bound (see the
counterexample). -/
theorem emitted_length_bounds : ∀ (row : Row) (p : Dict),
    transform_row_to_openai row = .ok (some p) →
    (∀ v, ("title", v) ∈ p → ∃ s, v = .str s ∧ s.length ≤ 150) ∧
    (∀ v, ("brand", v) ∈ p → ∃ s, v = .str s ∧ s.length ≤ 70) ∧
    (optTruthy (pyOr (sGet (parse_json_field (rowGetD row "specifications" [])) "year")
        (sGet (parse_json_field (rowGetD row "specifications" [])) "productionYear")) = false →
      ∀ v, ("description", v) ∈ p → ∃ s, v = .str s ∧ s.length ≤ 5000) := by
  intro row p h
  rcases openai_cases row with hc | ⟨e, hc⟩ | ⟨q, desc, hc, hdesc, htitle, hbrand, hdval⟩
  · rw [h] at hc; exact absurd hc (by simp)
  · rw [h] at hc; exact absurd hc (by simp)
  · rw [h] at hc
    injection hc with hc2
    injection hc2 with hc3
    subst hc3
    refine ⟨fun v hv => ?_, fun v hv => ?_, fun hyear v hv => ?_⟩
    · rw [htitle v (List.mem_filter.mp hv).1]
      exact ⟨_, rfl, by rw [List.length_take]; exact Nat.min_le_left _ _⟩
    · rw [hbrand v (List.mem_filter.mp hv).1]
      exact ⟨_, rfl, by rw [List.length_take]; exact Nat.min_le_left _ _⟩
    · rcases hdval v (List.mem_filter.mp hv).1 with rfl | ⟨htr, -⟩
      · exact ⟨desc, rfl, extract_description_le hdesc⟩
      · rw [hyear] at htr
        exact absurd htr (by decide)

/-- C2 witness: the emitted title of `rowE` is within the 150-character
bound. -/
theorem emitted_length_bounds_witness :
    ∃ s, JVal.str "Submariner".data = .str s ∧ s.length ≤ 150 :=
  (emitted_length_bounds rowE pE (by rfl)).1 (.str "Submariner".data)
    (alGet_mem _ (show alGet pE "title" = some (.str "Submariner".data) from by rfl))

/-- C9: the image scan keeps, in source order, exactly the truthy `url`
values of the decoded array elements; an accepted shopping-search record
carries the first ten of them under `additional_image_link`,
`additional_image_link_2`, ..., `additional_image_link_10`, and no image key
beyond them. -/
theorem additional_images_emission :
    (∀ (l r : List JVal), imgScan l = .ok r →
      r = l.filterMap urlOf ∧ ∀ x ∈ r, pyTruthy x = true) ∧
    (∀ (row : Row) (p : Dict), transform_row_to_google row = .ok (some p) →
      ∃ imgs, get_additional_images (rowGetD row "additional_image_link" []) = .ok imgs ∧
        (∀ i (h : i < (imgs.take 10).length),
          alGet p (imgKey i) = some ((imgs.take 10).get ⟨i, h⟩)) ∧
        (∀ i, (imgs.take 10).length ≤ i → alGet p (imgKey i) = none)) := by
  refine ⟨fun l r h => imgScan_eq h, fun row p h => ?_⟩
  rcases google_cases row with hc | ⟨e, hc⟩ | ⟨q, pt, imgs, hc, hdet, himg, hpos, hnone⟩
  · rw [h] at hc; exact absurd hc (by simp)
  · rw [h] at hc; exact absurd hc (by simp)
  · rw [h] at hc
    injection hc with hc2
    injection hc2 with hc3
    subst hc3
    refine ⟨imgs, himg, fun i hi => ?_, fun i hi => ?_⟩
    · have hkv := get_additional_images_truthy himg ((imgs.take 10).get ⟨i, hi⟩)
        (List.take_subset _ _ (List.get_mem _ _ _))
      rw [alGet_alSet_ne _ _ _ _ (ne_imgKey "_product_type" (by decide) i)]
      exact alGet_filter_pos _ _ _ _ (hpos i hi) (keepVal_of_truthy hkv)
    · rw [alGet_alSet_ne _ _ _ _ (ne_imgKey "_product_type" (by decide) i)]
      exact alGet_filter_none _ _ _ (hnone i hi)

/-- C9 witness: the three-image row emits its two truthy URLs under the
unindexed and `_2` keys and nothing beyond. -/
theorem additional_images_emission_witness :
    ∃ imgs, get_additional_images (rowGetD rowI "additional_image_link" []) = .ok imgs ∧
      (∀ i (h : i < (imgs.take 10).length),
        alGet pGI (imgKey i) = some ((imgs.take 10).get ⟨i, h⟩)) ∧
      (∀ i, (imgs.take 10).length ≤ i → alGet pGI (imgKey i) = none) :=
  additional_images_emission.2 rowI pGI (by rfl)

/-! ## Newline-freedom of the JSON printer (C8) -/

theorem noNl_natToStr (n : Nat) : '\n' ∉ natToStr n := by
  intro h
  exact absurd (natToStr_all_digits n _ h) (by decide)

theorem noNl_padZeros (w : Nat) {s : Str} (hs : ∀ c ∈ s, c.isDigit = true) :
    '\n' ∉ padZeros w s := by
  intro h
  exact absurd (padZeros_all_digits hs _ h) (by decide)

theorem noNl_intToStr (n : Int) : '\n' ∉ intToStr n := by
  unfold intToStr
  split
  · intro h
    rcases List.mem_cons.mp h with h | h
    · exact absurd h (by decide)
    · exact noNl_natToStr _ h
  · exact noNl_natToStr _

theorem noNl_floatToStr (d : PyFloat) : '\n' ∉ floatToStr d := by
  unfold floatToStr
  intro h
  rcases List.mem_append.mp h with h | h
  · rcases List.mem_append.mp h with h | h
    · split at h
      · rcases List.mem_cons.mp h with h | h
        · exact absurd h (by decide)
        · simp at h
      · simp at h
    · exact noNl_natToStr _ h
  · rcases List.mem_cons.mp h with h | h
    · exact absurd h (by decide)
    · exact noNl_padZeros _ (natToStr_all_digits _) h

theorem hexChar_ne_nl {n : Nat} (h : n < 16) : hexChar n ≠ '\n' := by
  interval_cases n <;> decide

theorem noNl_escChar (c : Char) : '\n' ∉ escChar c := by
  unfold escChar
  split_ifs with h1 h2 h3 h4 h5 h6 h7 h8
  · decide
  · decide
  · decide
  · decide
  · decide
  · decide
  · decide
  · intro hm
    rcases List.mem_cons.mp hm with h | hm
    · exact absurd h (by decide)
    rcases List.mem_cons.mp hm with h | hm
    · exact absurd h (by decide)
    rcases List.mem_cons.mp hm with h | hm
    · exact absurd h (by decide)
    rcases List.mem_cons.mp hm with h | hm
    · exact absurd h (by decide)
    rcases List.mem_cons.mp hm with h | hm
    · exact hexChar_ne_nl (by omega) h.symm
    rcases List.mem_cons.mp hm with h | hm
    · exact hexChar_ne_nl (by omega) h.symm
    · simp at hm
  · intro hm
    rcases List.mem_cons.mp hm with h | hm
    · exact h3 h.symm
    · simp at hm

theorem noNl_escStr (s : Str) : '\n' ∉ escStr s := by
  intro h
  unfold escStr at h
  rcases List.mem_flatten.mp h with ⟨chunk, hchunk, hc⟩
  rcases List.mem_map.mp hchunk with ⟨c, _, rfl⟩
  exact noNl_escChar c hc

mutual

theorem noNl_print : ∀ v : JVal, '\n' ∉ jsonPrint v
  | .null => by decide
  | .bool true => by decide
  | .bool false => by decide
  | .int n => noNl_intToStr n
  | .float d => noNl_floatToStr d
  | .str s => by
    rw [show jsonPrint (.str s) = '"' :: (escStr s ++ ['"']) from rfl]
    intro h
    rcases List.mem_cons.mp h with h | h
    · exact absurd h (by decide)
    rcases List.mem_append.mp h with h | h
    · exact noNl_escStr s h
    · rcases List.mem_cons.mp h with h | h
      · exact absurd h (by decide)
      · simp at h
  | .arr a => by
    rw [show jsonPrint (.arr a) = '[' :: (jsonPrintItems a ++ [']']) from rfl]
    intro h
    rcases List.mem_cons.mp h with h | h
    · exact absurd h (by decide)
    rcases List.mem_append.mp h with h | h
    · exact noNl_items a h
    · rcases List.mem_cons.mp h with h | h
      · exact absurd h (by decide)
      · simp at h
  | .obj o => by
    rw [show jsonPrint (.obj o) = '\x7b' :: (jsonPrintMembers o ++ ['\x7d']) from rfl]
    intro h
    rcases List.mem_cons.mp h with h | h
    · exact absurd h (by decide)
    rcases List.mem_append.mp h with h | h
    · exact noNl_membs o h
    · rcases List.mem_cons.mp h with h | h
      · exact absurd h (by decide)
      · simp at h

theorem noNl_items : ∀ a : JArr, '\n' ∉ jsonPrintItems a
  | .nil => by simp [jsonPrintItems]
  | .cons x .nil => by
    rw [show jsonPrintItems (.cons x .nil) = jsonPrint x from rfl]
    exact noNl_print x
  | .cons x (.cons y t) => by
    rw [show jsonPrintItems (.cons x (.cons y t)) =
      jsonPrint x ++ ',' :: jsonPrintItems (.cons y t) from rfl]
    intro h
    rcases List.mem_append.mp h with h | h
    · exact noNl_print x h
    · rcases List.mem_cons.mp h with h | h
      · exact absurd h (by decide)
      · exact noNl_items (.cons y t) h

theorem noNl_membs : ∀ o : JObj, '\n' ∉ jsonPrintMembers o
  | .nil => by simp [jsonPrintMembers]
  | .cons k x .nil => by
    rw [show jsonPrintMembers (.cons k x .nil) =
      ('"' :: escStr k.data) ++ '"' :: ':' :: jsonPrint x from rfl]
    intro h
    rcases List.mem_append.mp h with h | h
    · rcases List.mem_cons.mp h with h | h
      · exact absurd h (by decide)
      · exact noNl_escStr k.data h
    rcases List.mem_cons.mp h with h | h
    · exact absurd h (by decide)
    rcases List.mem_cons.mp h with h | h
    · exact absurd h (by decide)
    · exact noNl_print x h
  | .cons k x (.cons k2 y t) => by
    rw [show jsonPrintMembers (.cons k x (.cons k2 y t)) =
      (('"' :: escStr k.data) ++ '"' :: ':' :: jsonPrint x) ++
        ',' :: jsonPrintMembers (.cons k2 y t) from rfl]
    intro h
    rcases List.mem_append.mp h with h | h
    · rcases List.mem_append.mp h with h | h
      · rcases List.mem_cons.mp h with h | h
        · exact absurd h (by decide)
        · exact noNl_escStr k.data h
      rcases List.mem_cons.mp h with h | h
      · exact absurd h (by decide)
      rcases List.mem_cons.mp h with h | h
      · exact absurd h (by decide)
      · exact noNl_print x h
    · rcases List.mem_cons.mp h with h | h
      · exact absurd h (by decide)
      · exact noNl_membs (.cons k2 y t) h

end

theorem splitLinesF_no_nl : ∀ (l acc : Str), '\n' ∉ l →
    splitLinesF (l ++ ['\n']) acc = (acc.reverse ++ l) :: [[]]
  | [], acc, _ => by simp [splitLinesF]
  | c :: t, acc, h => by
    have hc : c ≠ '\n' := fun hh => h (hh ▸ List.mem_cons_self _ _)
    rw [List.cons_append, splitLinesF, if_neg hc,
      splitLinesF_no_nl t (c :: acc) (fun hm => h (List.mem_cons_of_mem _ hm))]
    simp

theorem stripS_jsonPrint_obj (o : JObj) :
    stripS (jsonPrint (.obj o)) = jsonPrint (.obj o) := by
  rw [show jsonPrint (.obj o) = '\x7b' :: (jsonPrintMembers o ++ ['\x7d']) from rfl]
  unfold stripS
  rw [show ('\x7b' :: (jsonPrintMembers o ++ ['\x7d'])).dropWhile Char.isWhitespace =
    '\x7b' :: (jsonPrintMembers o ++ ['\x7d']) from by
      rw [List.dropWhile_cons]
      simp]
  rw [show ('\x7b' :: (jsonPrintMembers o ++ ['\x7d'])).reverse =
    '\x7d' :: ((jsonPrintMembers o).reverse ++ ['\x7b']) from by
      simp]
  rw [show ('\x7d' :: ((jsonPrintMembers o).reverse ++ ['\x7b'])).dropWhile Char.isWhitespace =
    '\x7d' :: ((jsonPrintMembers o).reverse ++ ['\x7b']) from by
      rw [List.dropWhile_cons]
      simp]
  simp

theorem jsonPrint_not_isEmpty (v : JVal) : (jsonPrint v).isEmpty = false := by
  cases hl : jsonPrint v with
  | nil =>
    have hp := jsonPrint_length_pos v
    rw [hl] at hp
    exact absurd hp (by decide)
  | cons c t => rfl

theorem stripS_nil : stripS [] = [] := rfl

theorem load_writeFeedLine (q : Dict) :
    load_feed_lines (writeFeedLine q) =
      [.obj (JObj.ofDict (q.filter (fun kv => kv.1 ≠ "_product_type")))] := by
  unfold writeFeedLine load_feed_lines
  rw [splitLinesF_no_nl _ [] (noNl_print _)]
  simp only [List.reverse_nil, List.nil_append, List.filterMap_cons, List.filterMap_nil,
    stripS_jsonPrint_obj, jsonPrint_not_isEmpty, jsonParse_print, stripS_nil,
    List.isEmpty_nil, Bool.false_eq_true, if_false, if_true]

/-- C8: a record emitted by the assistant-commerce transformer, written as
one line-delimited JSON object (with the internal `_product_type` marker
popped, as the feed writer does) and reloaded by the validator feed loader,
reproduces exactly the written mapping: no key is renamed, dropped or has
its value changed. -/
theorem feed_roundtrip : ∀ (row : Row) (p : Dict),
    transform_row_to_openai row = .ok (some p) →
    load_feed_lines (writeFeedLine p) =
      [.obj (JObj.ofDict (p.filter (fun kv => kv.1 ≠ "_product_type")))] :=
  fun _ p _ => load_writeFeedLine p

/-- C8 witness: the record emitted for `rowE` survives the write/read
cycle. -/
theorem feed_roundtrip_witness :
    load_feed_lines (writeFeedLine pE) =
      [.obj (JObj.ofDict (pE.filter (fun kv => kv.1 ≠ "_product_type")))] :=
  feed_roundtrip rowE pE (by rfl)

/-! ## Validator severity (C6) -/

theorem validate_product_errors (p : Dict) (idx : Nat) :
    (validate_product p idx).errors = OPENAI_required.flatMap (reqCheck p) := rfl

/-- C6: for the declarative schema, a missing or empty required-group field
is an error, a malformed present required-group field is an error, while a
missing recommended/policy/enhancement/optional-group field contributes
neither errors nor warnings; concretely, a record without `url` yields
exactly the missing-required-field error and counts toward
`products_with_errors`, and a record whose brand carries 80 characters gets
a warning, not an error. -/
theorem validator_group_severity :
    (∀ (p : Dict) (idx : Nat) (fs : String × FSpec), fs ∈ OPENAI_required →
      (alGet p fs.1 = none →
        ("Missing required field: ".data ++ fs.1.data) ∈ (validate_product p idx).errors) ∧
      (∀ v, alGet p fs.1 = some v → isNoneOrEmptyStr v = true →
        ("Required field ".data ++ apos :: fs.1.data ++ apos :: " is empty".data) ∈
          (validate_product p idx).errors) ∧
      (∀ v m, alGet p fs.1 = some v → isNoneOrEmptyStr v = false →
        m ∈ validate_field fs.1 v fs.2 → m ∈ (validate_product p idx).errors)) ∧
    (∀ (p : Dict) (fs : String × FSpec), alGet p fs.1 = none →
      recCheck p fs = [] ∧ truthyCheck p fs = [] ∧ optCheck p fs = []) ∧
    (validate_product pC6noUrl 0).errors = ["Missing required field: url".data] ∧
    products_with_errors [pC6noUrl] = 1 ∧
    (validate_product pC6brand 0).errors = [] ∧
    (validate_product pC6brand 0).warnings =
      ["brand: Exceeds max length 70 (got 80)".data] := by
  refine ⟨fun p idx fs hfs => ⟨fun hnone => ?_, fun v hv hempty => ?_,
      fun v m hv hne hm => ?_⟩,
    fun p fs hnone => ⟨?_, ?_, ?_⟩, ?_, ?_, ?_, ?_⟩
  · rw [validate_product_errors]
    exact List.mem_flatMap.mpr ⟨fs, hfs, by simp [reqCheck, hnone]⟩
  · rw [validate_product_errors]
    exact List.mem_flatMap.mpr ⟨fs, hfs, by simp [reqCheck, hv, hempty]⟩
  · rw [validate_product_errors]
    exact List.mem_flatMap.mpr ⟨fs, hfs, by simpa [reqCheck, hv, hne] using hm⟩
  · simp [recCheck, hnone]
  · simp [truthyCheck, hnone]
  · simp [optCheck, hnone]
  · rfl
  · rfl
  · rfl
  · rfl

/-- C6 witness: the record without `url` exhibits the missing-required-field
error. -/
theorem validator_group_severity_witness :
    ("Missing required field: ".data ++ "url".data) ∈ (validate_product pC6noUrl 0).errors :=
  (validator_group_severity.1 pC6noUrl 0 ("url", ⟨.url, none, none, none, none⟩)
    (by decide)).1 (by rfl)
